import Mathlib

/-!
# ai-workflow: execution engine and access policy

A shallow embedding of the Go handlers under `backend/go/cmd` and of the
packages `pkg/auth`, `pkg/db`, `pkg/models` and `pkg/response`.

Conventions of the embedding.

* Go byte slices and strings are Lean `String`s; the code below only moves
  them around, compares them with literals and asks whether they are empty.
* A Go map is the list of its entries (keys pairwise distinct); `none` is the
  nil map, which reads like an empty map and cannot be written to.
* A Go `error` is its text.
* The libraries the handlers call (`encoding/json`, `net/http`, the JWT
  library, the SQL driver) are fields of `Env`; the relational store is a
  value of `Store` and every statement the handlers issue is a function on it.
-/

namespace AiWorkflow

/-! ## Go values -/

/-- The dynamic values an `interface{}` holds after `json.Unmarshal`, together
with the nil `map[string]interface{}` that `executeWorkflow` can store itself. -/
inductive GoValue where
  | nil
  | bool (b : Bool)
  | float64 (x : ℚ)
  | string (s : String)
  | slice (xs : List GoValue)
  | map (m : List (String × GoValue))
  | nilMap
  deriving Repr

/-- The entries of a non-nil Go map with string keys. -/
abbrev Entries (V : Type) := List (String × V)

/-- A Go map with string keys: `none` is the nil map. -/
abbrev GoMap (V : Type) := Option (Entries V)

/-- The Go expression `m[k]` with the comma-ok form, on the entries of a map. -/
def Entries.get {V : Type} : Entries V → String → Option V
  | [], _ => none
  | (k', v') :: rest, k => if k' = k then some v' else Entries.get rest k

/-- The Go statement `m[k] = v` on the entries of a non-nil map: the entry of `k`
is replaced where it stands, or added. -/
def Entries.set {V : Type} : Entries V → String → V → Entries V
  | [], k, v => [(k, v)]
  | (k', v') :: rest, k, v =>
    if k' = k then (k, v) :: rest else (k', v') :: Entries.set rest k v

/-- The keys of a map. -/
def Entries.keys {V : Type} (m : Entries V) : List String := m.map Prod.fst

/-- Reading a Go map, nil or not: `m[k]` with the comma-ok form. -/
def GoMap.get {V : Type} (m : GoMap V) (k : String) : Option V :=
  match m with
  | none => none
  | some es => es.get k

/-- The entries a `range` loop over a Go map visits: none for the nil map. -/
def GoMap.range {V : Type} (m : GoMap V) : Entries V :=
  match m with
  | none => []
  | some es => es

/-- A `map[string]interface{}` stored in an `interface{}`. -/
def GoValue.ofMap : GoMap GoValue → GoValue
  | none => .nilMap
  | some es => .map es

/-- The Go type `json.RawMessage`, a byte slice: `none` is the nil slice. -/
abbrev RawMessage := Option String

/-- The bytes of a raw message. -/
def RawMessage.bytes : RawMessage → String
  | none => ""
  | some s => s

/-- The Go expression `len(raw)`. Only whether it is positive is observed. -/
def RawMessage.len : RawMessage → Nat
  | none => 0
  | some s => s.length

/-- How a Go call ends: with a value, with a non-nil `error` (its text), or with
a run-time panic. -/
inductive Outcome (α : Type) where
  | ok (a : α)
  | err (e : String)
  | panic (msg : String)
  deriving Repr

/-! ## pkg/models -/

/-- The struct `models.Workflow`. The two timestamps are instants counted from
an epoch. -/
structure Workflow where
  WorkflowID : String
  WorkflowName : String
  Description : String
  Source : String
  TemplateName : String
  HTTPMethod : String
  BaseURL : String
  BearerToken : String
  ExternalWorkflowID : String
  Parameters : RawMessage
  Headers : RawMessage
  ProjectID : String
  CreatorDID : String
  IsShared : Bool
  CreatedAt : Nat
  UpdatedAt : Nat
  deriving Repr, DecidableEq

/-- The struct `models.ExecuteWorkflowRequest`. -/
structure ExecuteWorkflowRequest where
  Parameters : RawMessage
  Headers : RawMessage
  deriving Repr, DecidableEq

/-- The struct `models.ExecuteWorkflowRequestInfo`. -/
structure ExecuteWorkflowRequestInfo where
  Method : String
  URL : String
  Headers : GoMap String
  Body : GoMap GoValue
  deriving Repr

/-- The struct `models.ExecuteWorkflowResponseInfo`. -/
structure ExecuteWorkflowResponseInfo where
  Status : Int
  StatusText : String
  Headers : GoMap String
  Body : GoValue
  deriving Repr

/-- The struct `models.ExecuteWorkflowResponse`. -/
structure ExecuteWorkflowResponse where
  Request : ExecuteWorkflowRequestInfo
  Response : ExecuteWorkflowResponseInfo
  deriving Repr

/-- The struct `models.ShareWorkflowRequest`. -/
structure ShareWorkflowRequest where
  IsShared : Bool
  deriving Repr, DecidableEq

/-- The struct `models.HideWorkflowRequest`. -/
structure HideWorkflowRequest where
  IsHidden : Bool
  deriving Repr, DecidableEq

/-- The struct `models.UpdateWorkflowRequest`: a nil pointer is `none`. -/
structure UpdateWorkflowRequest where
  WorkflowName : Option String
  Description : Option String
  Source : Option String
  TemplateName : Option String
  HTTPMethod : Option String
  BaseURL : Option String
  BearerToken : Option String
  ExternalWorkflowID : Option String
  Parameters : Option RawMessage
  Headers : Option RawMessage
  deriving Repr, DecidableEq

/-- The struct `models.CreateWorkflowRequest`. -/
structure CreateWorkflowRequest where
  WorkflowName : String
  Description : String
  Source : String
  TemplateName : String
  HTTPMethod : String
  BaseURL : String
  BearerToken : String
  ExternalWorkflowID : String
  Parameters : RawMessage
  Headers : RawMessage
  ProjectID : String
  deriving Repr, DecidableEq

/-! ## The outbound HTTP exchange -/

/-- What `executeWorkflow` hands to `client.Do`: the method, URL and body given
to `http.NewRequest` and the entries given to `Header.Set`. -/
structure HttpRequest where
  Method : String
  URL : String
  Header : Entries String
  Body : String
  deriving Repr, DecidableEq

/-- What `client.Do` delivers: the status code, the multi-valued header map and
what `io.ReadAll` makes of the body (its bytes, or a read error). -/
structure HttpResponse where
  StatusCode : Int
  Header : Entries (List String)
  Body : Except String String

/-- The JWT claims struct `auth.Claims`, without the registered claims. -/
structure Claims where
  DID : String
  Username : String
  deriving Repr, DecidableEq

/-- The libraries and the configuration the handlers depend on. -/
structure Env where
  /-- The call `json.Unmarshal(data, &v)` for `v` an `interface{}`: the decoded value, or the
  error. An object is decoded to the entries of its map. -/
  jsonUnmarshal : String → Except String GoValue
  /-- The text of the `*json.UnmarshalTypeError` that `json.Unmarshal` returns when a decoded
  value does not fit the Go type it is decoded into: the value, the Go type, and the key of
  the map member the value stands under (empty for the whole text). -/
  unmarshalTypeError : GoValue → String → String → String
  /-- The call `json.Marshal` on a `map[string]interface{}`. -/
  jsonMarshal : GoMap GoValue → Except String String
  /-- The error of `http.NewRequest` for a method and a URL, `none` when it builds a request. -/
  newRequest : String → String → Option String
  /-- The call `client.Do` with the 30 second timeout: a response or a transport error. -/
  clientDo : HttpRequest → Except String HttpResponse
  /-- The function `http.StatusText`. -/
  statusText : Int → String
  /-- The environment variable `JWT_SECRET`. -/
  jwtSecret : String
  /-- The call `jwt.ParseWithClaims` with the HMAC key function, on a token and a secret: the
  claims and the token's `Valid` flag, or the error. -/
  parseWithClaims : String → String → Except String (Claims × Bool)
  /-- The call `json.Unmarshal` of a request body into a `models.ExecuteWorkflowRequest`. -/
  unmarshalExecuteWorkflowRequest : String → Except String ExecuteWorkflowRequest
  /-- The call `json.Unmarshal` of a request body into a `models.UpdateWorkflowRequest`. -/
  unmarshalUpdateWorkflowRequest : String → Except String UpdateWorkflowRequest
  /-- The call `json.Unmarshal` of a request body into a `models.ShareWorkflowRequest`. -/
  unmarshalShareWorkflowRequest : String → Except String ShareWorkflowRequest
  /-- The call `json.Unmarshal` of a request body into a `models.HideWorkflowRequest`. -/
  unmarshalHideWorkflowRequest : String → Except String HideWorkflowRequest
  /-- The call `json.Unmarshal` of a request body into a `models.CreateWorkflowRequest`. -/
  unmarshalCreateWorkflowRequest : String → Except String CreateWorkflowRequest

/-! ## Decoding into typed maps -/

/-- The call `json.Unmarshal(data, &m)` for a nil `m` of type `map[string]interface{}`:
`null` leaves the map nil, an object fills it, any other value is a type error. -/
def unmarshalMap (env : Env) (data : String) : Except String (GoMap GoValue) :=
  match env.jsonUnmarshal data with
  | .error e => .error e
  | .ok .nil => .ok none
  | .ok (.map m) => .ok (some m)
  | .ok v => .error (env.unmarshalTypeError v "map[string]interface {}" "")

/-- The entries of a `map[string]string` decoded from the members of an object: a string
member is kept, `null` leaves the zero value, and the first member of another kind gives the
type error that `json.Unmarshal` returns. -/
def stringEntries (env : Env) : Entries GoValue → Except String (Entries String)
  | [] => .ok []
  | (k, .string s) :: rest =>
    match stringEntries env rest with
    | .ok es => .ok ((k, s) :: es)
    | .error e => .error e
  | (k, .nil) :: rest =>
    match stringEntries env rest with
    | .ok es => .ok ((k, "") :: es)
    | .error e => .error e
  | (k, v) :: _ => .error (env.unmarshalTypeError v "string" k)

/-- The call `json.Unmarshal(data, &m)` for a nil `m` of type `map[string]string`. -/
def unmarshalStringMap (env : Env) (data : String) : Except String (GoMap String) :=
  match env.jsonUnmarshal data with
  | .error e => .error e
  | .ok .nil => .ok none
  | .ok (.map m) =>
    match stringEntries env m with
    | .ok es => .ok (some es)
    | .error e => .error e
  | .ok v => .error (env.unmarshalTypeError v "map[string]string" "")

/-- The raw messages of a decoded execute request are JSON texts: `json.Unmarshal` checks the
whole body before it fills the request, so an override that is not valid JSON fails the
decoding of the body. -/
def Env.rawMessagesValid (env : Env) : Prop :=
  ∀ body req, env.unmarshalExecuteWorkflowRequest body = .ok req →
    (∀ raw, req.Parameters = some raw → ∃ v, env.jsonUnmarshal raw = .ok v) ∧
    (∀ raw, req.Headers = some raw → ∃ v, env.jsonUnmarshal raw = .ok v)

/-! ## cmd/execute-workflow: `executeWorkflow` -/

/-- The first block of `executeWorkflow`: the local `parameters`. -/
def executeWorkflow.parameters (env : Env) (workflow : Workflow)
    (req : ExecuteWorkflowRequest) : Except String (GoMap GoValue) :=
  if req.Parameters ≠ none ∧ req.Parameters.len > 0 then
    unmarshalMap env req.Parameters.bytes
  else
    unmarshalMap env workflow.Parameters.bytes

/-- The second block of `executeWorkflow`: the local `requestBody`, or `none` when the write
`parameters["workflow_id"] = ...` hits a nil map. -/
def executeWorkflow.requestBody (workflow : Workflow) (parameters : GoMap GoValue) :
    Option (GoMap GoValue) :=
  if workflow.Source = "coze" then
    some (some [("workflow_id", .string workflow.ExternalWorkflowID),
                ("parameters", GoValue.ofMap parameters)])
  else
    match parameters with
    | none => none
    | some es => some (some (es.set "workflow_id" (.string workflow.ExternalWorkflowID)))

/-- The third block of `executeWorkflow`: the local `customHeaders`. -/
def executeWorkflow.customHeaders (env : Env) (workflow : Workflow)
    (req : ExecuteWorkflowRequest) : Except String (GoMap String) :=
  if req.Headers ≠ none ∧ req.Headers.len > 0 then
    unmarshalStringMap env req.Headers.bytes
  else
    unmarshalStringMap env workflow.Headers.bytes

/-- The two headers `executeWorkflow` starts from. -/
def executeWorkflow.baseline (workflow : Workflow) : Entries String :=
  (Entries.set [] "Authorization" ("Bearer " ++ workflow.BearerToken)).set
    "Content-Type" "application/json"

/-- The fourth block of `executeWorkflow`: the local `headers` after the loop over
`customHeaders`. -/
def executeWorkflow.headers (workflow : Workflow) (customHeaders : GoMap String) :
    Entries String :=
  customHeaders.range.foldl (fun h kv => h.set kv.1 kv.2) (executeWorkflow.baseline workflow)

/-- The local `respHeaders` of `executeWorkflow`: the first value of every header that has
one. -/
def executeWorkflow.respHeaders (header : Entries (List String)) : Entries String :=
  header.foldl
    (fun h kv => match kv.2 with
      | [] => h
      | v0 :: _ => h.set kv.1 v0) []

/-- The local `respBodyJSON` of `executeWorkflow`: the decoded body, or the body as a string
when it does not decode. -/
def executeWorkflow.respBodyJSON (env : Env) (respBody : String) : GoValue :=
  match env.jsonUnmarshal respBody with
  | .ok v => v
  | .error _ => .string respBody

/-- A run of `executeWorkflow`: the requests handed to `client.Do`, in order, and how the call
ended. -/
structure ExecRun where
  dispatched : List HttpRequest
  out : Outcome ExecuteWorkflowResponse

/-- The function `executeWorkflow` of `cmd/execute-workflow/main.go`. -/
def executeWorkflow (env : Env) (workflow : Workflow) (req : ExecuteWorkflowRequest) :
    ExecRun :=
  match executeWorkflow.parameters env workflow req with
  | .error e => ⟨[], .err e⟩
  | .ok parameters =>
  match executeWorkflow.requestBody workflow parameters with
  | none => ⟨[], .panic "assignment to entry in nil map"⟩
  | some requestBody =>
  match executeWorkflow.customHeaders env workflow req with
  | .error e => ⟨[], .err e⟩
  | .ok customHeaders =>
  let headers := executeWorkflow.headers workflow customHeaders
  match env.jsonMarshal requestBody with
  | .error e => ⟨[], .err e⟩
  | .ok bodyBytes =>
  match env.newRequest workflow.HTTPMethod workflow.BaseURL with
  | some e => ⟨[], .err e⟩
  | none =>
  let httpReq : HttpRequest :=
    { Method := workflow.HTTPMethod, URL := workflow.BaseURL, Header := headers,
      Body := bodyBytes }
  match env.clientDo httpReq with
  | .error e => ⟨[httpReq], .err e⟩
  | .ok httpResp =>
  match httpResp.Body with
  | .error e => ⟨[httpReq], .err e⟩
  | .ok respBody =>
    ⟨[httpReq], .ok
      { Request :=
          { Method := workflow.HTTPMethod, URL := workflow.BaseURL,
            Headers := some headers, Body := requestBody }
        Response :=
          { Status := httpResp.StatusCode
            StatusText := env.statusText httpResp.StatusCode
            Headers := some (executeWorkflow.respHeaders httpResp.Header)
            Body := executeWorkflow.respBodyJSON env respBody } }⟩

/-! ## pkg/response -/

/-- The payload under the key `data` of a success body. -/
inductive Data where
  | map (m : Entries GoValue)
  | executeResult (r : ExecuteWorkflowResponse)
  | workflows (ws : List Workflow)

/-- The map that `response.Success` and `response.Error` marshal into the body: the keys
`success`, `data` and `error`, the last two when present. -/
structure Envelope where
  success : Bool
  data : Option Data
  error : Option String

/-- The struct `events.APIGatewayProxyResponse`, its body before marshalling. -/
structure APIGatewayProxyResponse where
  StatusCode : Int
  Headers : Entries String
  Body : Envelope

/-- The headers every response carries. -/
def response.headers : Entries String :=
  [("Content-Type", "application/json"), ("Access-Control-Allow-Origin", "*")]

/-- The function `response.Success`. -/
def response.Success (data : Data) : APIGatewayProxyResponse :=
  { StatusCode := 200, Headers := response.headers,
    Body := { success := true, data := some data, error := none } }

/-- The function `response.Error`. -/
def response.Error (statusCode : Int) (message : String) : APIGatewayProxyResponse :=
  { StatusCode := statusCode, Headers := response.headers,
    Body := { success := false, data := none, error := some message } }

/-- The function `response.BadRequest`. -/
def response.BadRequest (message : String) : APIGatewayProxyResponse :=
  response.Error 400 message

/-- The function `response.Unauthorized`. -/
def response.Unauthorized (message : String) : APIGatewayProxyResponse :=
  response.Error 401 message

/-- The function `response.Forbidden`. -/
def response.Forbidden (message : String) : APIGatewayProxyResponse :=
  response.Error 403 message

/-- The function `response.NotFound`. -/
def response.NotFound (message : String) : APIGatewayProxyResponse :=
  response.Error 404 message

/-- The function `response.InternalError`. -/
def response.InternalError (message : String) : APIGatewayProxyResponse :=
  response.Error 500 message

/-! ## pkg/auth -/

/-- The pieces of a character sequence between the occurrences of a separator character. -/
def splitChars (sep : Char) : List Char → List (List Char)
  | [] => [[]]
  | c :: cs =>
    if c = sep then [] :: splitChars sep cs
    else
      match splitChars sep cs with
      | [] => [[c]]
      | p :: ps => (c :: p) :: ps

/-- The call `strings.Split(s, sep)` for a separator of one character. -/
def stringsSplit (s : String) (sep : Char) : List String :=
  (splitChars sep s.data).map String.mk

/-- The function `auth.ExtractToken`. -/
def auth.ExtractToken (authHeader : String) : Except String String :=
  if authHeader = "" then .error "missing authorization header"
  else
    match stringsSplit authHeader ' ' with
    | [p0, p1] =>
      if p0 ≠ "Bearer" then .error "invalid authorization header format" else .ok p1
    | _ => .error "invalid authorization header format"

/-- The function `auth.ValidateToken`. -/
def auth.ValidateToken (env : Env) (tokenString secret : String) : Except String Claims :=
  match env.parseWithClaims tokenString secret with
  | .error e => .error e
  | .ok (claims, valid) => if valid then .ok claims else .error "invalid token"

/-! ## The store -/

/-- A row of the table `user_projects`. -/
structure UserProject where
  user_did : String
  project_id : String
  role : String
  deriving Repr, DecidableEq

/-- A row of the table `project_workflow_settings`. -/
structure ProjectWorkflowSetting where
  project_id : String
  workflow_id : String
  is_hidden : Bool
  updated_at : Nat
  deriving Repr, DecidableEq

/-- The tables the handlers read and write. -/
structure Store where
  workflows : List Workflow
  user_projects : List UserProject
  project_workflow_settings : List ProjectWorkflowSetting
  deriving Repr, DecidableEq

/-- A value bound to a placeholder of a statement. -/
inductive SqlValue where
  | text (s : String)
  | bool (b : Bool)
  | json (raw : RawMessage)
  deriving Repr, DecidableEq

/-- A call on the global `database`: `QueryRow` or `Query` on one side, `Exec` on the other,
with the statement text and the bound arguments. -/
inductive DbCall where
  | query (sql : String) (args : List SqlValue)
  | exec (sql : String) (args : List SqlValue)
  deriving Repr, DecidableEq

/-- Whether a call went through `database.Exec`. -/
def DbCall.isExec : DbCall → Bool
  | .query _ _ => false
  | .exec _ _ => true

/-- The errors of `database/sql`: the sentinel `sql.ErrNoRows`, or a fault of the driver or
the server (its text). -/
inductive SqlError where
  | ErrNoRows
  | fault (msg : String)
  deriving Repr, DecidableEq

/-- The global `database`: the tables, the calls made on it so far, the faults the server
answers a call with, the server clock that `NOW()` reads, and the defaults of new rows. -/
structure Database where
  store : Store
  calls : List DbCall
  faults : DbCall → Option String
  now : Nat
  /-- The values the schema gives a new row of `workflows` in the columns an `INSERT` does not
  list: the id the server assigns, the shared flag and the two timestamps. The schema is not
  part of the sources, so these values are left open. -/
  insertDefaults : Store → Workflow := fun _ =>
    { WorkflowID := "", WorkflowName := "", Description := "", Source := "",
      TemplateName := "", HTTPMethod := "", BaseURL := "", BearerToken := "",
      ExternalWorkflowID := "", Parameters := none, Headers := none, ProjectID := "",
      CreatorDID := "", IsShared := false, CreatedAt := 0, UpdatedAt := 0 }

/-- Record a call on the database. -/
def Database.record (database : Database) (c : DbCall) : Database :=
  { database with calls := database.calls ++ [c] }

/-! ## pkg/db -/

/-- The statement of `db.CheckProjectAccess`, its blanks collapsed. -/
def db.CheckProjectAccess.query : String :=
  "SELECT EXISTS( SELECT 1 FROM user_projects WHERE user_did = $1 AND project_id = $2 )"

/-- The function `db.CheckProjectAccess`. -/
def db.CheckProjectAccess (database : Database) (userDID projectID : String) :
    Except String Bool × Database :=
  let c := DbCall.query db.CheckProjectAccess.query [.text userDID, .text projectID]
  match database.faults c with
  | some e => (.error e, database.record c)
  | none =>
    (.ok (database.store.user_projects.any
      (fun r => r.user_did = userDID ∧ r.project_id = projectID)), database.record c)

/-- The statement of `db.CheckProjectAdmin`, its blanks collapsed. -/
def db.CheckProjectAdmin.query : String :=
  "SELECT EXISTS( SELECT 1 FROM user_projects WHERE user_did = $1 AND project_id = $2 AND role = 'admin' )"

/-- The function `db.CheckProjectAdmin`. -/
def db.CheckProjectAdmin (database : Database) (userDID projectID : String) :
    Except String Bool × Database :=
  let c := DbCall.query db.CheckProjectAdmin.query [.text userDID, .text projectID]
  match database.faults c with
  | some e => (.error e, database.record c)
  | none =>
    (.ok (database.store.user_projects.any
      (fun r => r.user_did = userDID ∧ r.project_id = projectID ∧ r.role = "admin")),
     database.record c)

/-! ## The request event and a handler run -/

/-- The struct `events.APIGatewayProxyRequest`, the fields the handlers read. -/
structure APIGatewayProxyRequest where
  Headers : GoMap String
  PathParameters : GoMap String
  Body : String

/-- The Go expression `m[k]` on a `map[string]string`: the zero value for a missing key. -/
def GoMap.index (m : GoMap String) (k : String) : String :=
  (m.get k).getD ""

/-- A run of a handler: the database afterwards (tables and calls made), the requests handed
to `client.Do`, and how the handler ended. -/
structure HandlerRun where
  database : Database
  dispatched : List HttpRequest
  out : Outcome APIGatewayProxyResponse

/-- A handler that returns a response without an outbound call. -/
def HandlerRun.answer (database : Database) (r : APIGatewayProxyResponse) : HandlerRun :=
  { database := database, dispatched := [], out := .ok r }

/-- The first lines of every handler: the actor of the request, or the 401 response. -/
def authenticate (env : Env) (request : APIGatewayProxyRequest) :
    Except APIGatewayProxyResponse Claims :=
  match auth.ExtractToken (request.Headers.index "Authorization") with
  | .error _ => .error (response.Unauthorized "Invalid authorization header")
  | .ok token =>
    match auth.ValidateToken env token env.jwtSecret with
    | .error _ => .error (response.Unauthorized "Invalid or expired token")
    | .ok claims => .ok claims

/-! ## cmd/execute-workflow: `handler` -/

/-- The statement of `getWorkflow` in `cmd/execute-workflow`, its blanks collapsed. -/
def ExecuteWorkflow.getWorkflow.query : String :=
  "SELECT workflow_id, workflow_name, description, source, template_name, http_method, base_url, bearer_token, external_workflow_id, parameters, headers, project_id, creator_did, is_shared, created_at, updated_at FROM workflows WHERE workflow_id = $1"

/-- The function `getWorkflow` of `cmd/execute-workflow/main.go`. -/
def ExecuteWorkflow.getWorkflow (database : Database) (workflowID : String) :
    Except SqlError Workflow × Database :=
  let c := DbCall.query ExecuteWorkflow.getWorkflow.query [.text workflowID]
  match database.faults c with
  | some e => (.error (.fault e), database.record c)
  | none =>
    match database.store.workflows.find? (fun w => w.WorkflowID = workflowID) with
    | none => (.error .ErrNoRows, database.record c)
    | some w => (.ok w, database.record c)

/-- The last lines of the execute handler: the response made of a run of
`executeWorkflow`. -/
def ExecuteWorkflow.respond (database : Database) (run : ExecRun) : HandlerRun :=
  { database := database
    dispatched := run.dispatched
    out :=
      match run.out with
      | .ok result => .ok (response.Success (.executeResult result))
      | .err e => .ok (response.InternalError ("Failed to execute workflow: " ++ e))
      | .panic msg => .panic msg }

/-- The function `handler` of `cmd/execute-workflow/main.go`. -/
def ExecuteWorkflow.handler (env : Env) (database : Database)
    (request : APIGatewayProxyRequest) : HandlerRun :=
  match authenticate env request with
  | .error r => HandlerRun.answer database r
  | .ok claims =>
  let workflowID := request.PathParameters.index "id"
  if workflowID = "" then
    HandlerRun.answer database (response.BadRequest "Missing workflow_id")
  else
  match env.unmarshalExecuteWorkflowRequest request.Body with
  | .error _ => HandlerRun.answer database (response.BadRequest "Invalid request body")
  | .ok req =>
  match ExecuteWorkflow.getWorkflow database workflowID with
  | (.error .ErrNoRows, database) =>
    HandlerRun.answer database (response.NotFound "Workflow not found")
  | (.error (.fault _), database) =>
    HandlerRun.answer database (response.InternalError "Failed to get workflow")
  | (.ok workflow, database) =>
  match db.CheckProjectAccess database claims.DID workflow.ProjectID with
  | (.error _, database) =>
    HandlerRun.answer database (response.InternalError "Failed to check project access")
  | (.ok hasAccess, database) =>
  if !hasAccess && !workflow.IsShared then
    HandlerRun.answer database (response.Forbidden "Access denied to this workflow")
  else
    ExecuteWorkflow.respond database (executeWorkflow env workflow req)

/-! ## cmd/delete-workflow, cmd/update-workflow, cmd/share-workflow: `getWorkflow` -/

/-- The zero value of `models.Workflow`. -/
def Workflow.zero : Workflow :=
  { WorkflowID := "", WorkflowName := "", Description := "", Source := "", TemplateName := "",
    HTTPMethod := "", BaseURL := "", BearerToken := "", ExternalWorkflowID := "",
    Parameters := none, Headers := none, ProjectID := "", CreatorDID := "", IsShared := false,
    CreatedAt := 0, UpdatedAt := 0 }

/-- The statement of `getWorkflow` in the delete, update and share commands, its blanks
collapsed. -/
def getWorkflowKeys.query : String :=
  "SELECT workflow_id, project_id, creator_did FROM workflows WHERE workflow_id = $1"

/-- The function `getWorkflow` of the delete, update and share commands: it scans the three
selected columns into a zero `models.Workflow`. -/
def getWorkflowKeys (database : Database) (workflowID : String) :
    Except SqlError Workflow × Database :=
  let c := DbCall.query getWorkflowKeys.query [.text workflowID]
  match database.faults c with
  | some e => (.error (.fault e), database.record c)
  | none =>
    match database.store.workflows.find? (fun w => w.WorkflowID = workflowID) with
    | none => (.error .ErrNoRows, database.record c)
    | some w =>
      (.ok { Workflow.zero with
              WorkflowID := w.WorkflowID, ProjectID := w.ProjectID, CreatorDID := w.CreatorDID },
       database.record c)

/-! ## cmd/delete-workflow -/

/-- The statement of `deleteWorkflow`. -/
def DeleteWorkflow.deleteWorkflow.query : String :=
  "DELETE FROM workflows WHERE workflow_id = $1"

/-- The function `deleteWorkflow` of `cmd/delete-workflow/main.go`: the error of the `Exec`
call, and the database after it. -/
def DeleteWorkflow.deleteWorkflow (database : Database) (workflowID : String) :
    Option String × Database :=
  let c := DbCall.exec DeleteWorkflow.deleteWorkflow.query [.text workflowID]
  match database.faults c with
  | some e => (some e, database.record c)
  | none =>
    (none,
     { database.record c with
       store :=
        { database.store with
          workflows := database.store.workflows.filter (fun w => w.WorkflowID ≠ workflowID) } })

/-- The function `handler` of `cmd/delete-workflow/main.go`. -/
def DeleteWorkflow.handler (env : Env) (database : Database)
    (request : APIGatewayProxyRequest) : HandlerRun :=
  match authenticate env request with
  | .error r => HandlerRun.answer database r
  | .ok claims =>
  let workflowID := request.PathParameters.index "id"
  if workflowID = "" then
    HandlerRun.answer database (response.BadRequest "Missing workflow_id")
  else
  match getWorkflowKeys database workflowID with
  | (.error .ErrNoRows, database) =>
    HandlerRun.answer database (response.NotFound "Workflow not found")
  | (.error (.fault _), database) =>
    HandlerRun.answer database (response.InternalError "Failed to get workflow")
  | (.ok workflow, database) =>
  match db.CheckProjectAdmin database claims.DID workflow.ProjectID with
  | (.error _, database) =>
    HandlerRun.answer database (response.InternalError "Failed to check permissions")
  | (.ok isAdmin, database) =>
  let isCreator : Bool := workflow.CreatorDID = claims.DID
  if !isAdmin && !isCreator then
    HandlerRun.answer database
      (response.Forbidden "Only admin or creator can delete this workflow")
  else
  match DeleteWorkflow.deleteWorkflow database workflowID with
  | (some _, database) =>
    HandlerRun.answer database (response.InternalError "Failed to delete workflow")
  | (none, database) =>
    HandlerRun.answer database
      (response.Success (.map [("message", .string "Workflow deleted successfully")]))

/-! ## cmd/update-workflow -/

/-- The locals `setClauses`, `args` and `argIndex` of `updateWorkflow`. -/
structure UpdateBuilder where
  setClauses : List String
  args : List SqlValue
  argIndex : Nat
  deriving Repr, DecidableEq

/-- One `if req.Field != nil` block of `updateWorkflow`: for a supplied field, one more
assignment `column = $argIndex`, one more argument, and the next index. -/
def UpdateBuilder.add (b : UpdateBuilder) (column : String) (value : Option SqlValue) :
    UpdateBuilder :=
  match value with
  | none => b
  | some v =>
    { setClauses := b.setClauses ++ [column ++ " = $" ++ toString b.argIndex]
      args := b.args ++ [v]
      argIndex := b.argIndex + 1 }

/-- The ten blocks of `updateWorkflow`, in the order of the source. -/
def UpdateWorkflow.build (req : UpdateWorkflowRequest) : UpdateBuilder :=
  ((((((((((UpdateBuilder.mk [] [] 1).add
    "workflow_name" (req.WorkflowName.map SqlValue.text)).add
    "description" (req.Description.map SqlValue.text)).add
    "source" (req.Source.map SqlValue.text)).add
    "template_name" (req.TemplateName.map SqlValue.text)).add
    "http_method" (req.HTTPMethod.map SqlValue.text)).add
    "base_url" (req.BaseURL.map SqlValue.text)).add
    "bearer_token" (req.BearerToken.map SqlValue.text)).add
    "external_workflow_id" (req.ExternalWorkflowID.map SqlValue.text)).add
    "parameters" (req.Parameters.map SqlValue.json)).add
    "headers" (req.Headers.map SqlValue.json)

/-- What the statement of `updateWorkflow` does to a row it selects: every supplied field is
overwritten and `updated_at` is set to the server clock. -/
def UpdateWorkflow.assign (req : UpdateWorkflowRequest) (now : Nat) (w : Workflow) : Workflow :=
  { w with
    WorkflowName := req.WorkflowName.getD w.WorkflowName
    Description := req.Description.getD w.Description
    Source := req.Source.getD w.Source
    TemplateName := req.TemplateName.getD w.TemplateName
    HTTPMethod := req.HTTPMethod.getD w.HTTPMethod
    BaseURL := req.BaseURL.getD w.BaseURL
    BearerToken := req.BearerToken.getD w.BearerToken
    ExternalWorkflowID := req.ExternalWorkflowID.getD w.ExternalWorkflowID
    Parameters := req.Parameters.getD w.Parameters
    Headers := req.Headers.getD w.Headers
    UpdatedAt := now }

/-- The function `updateWorkflow` of `cmd/update-workflow/main.go`: the error it returns, and
the database after it. -/
def UpdateWorkflow.updateWorkflow (database : Database) (workflowID : String)
    (req : UpdateWorkflowRequest) : Option String × Database :=
  let b := UpdateWorkflow.build req
  if b.setClauses.length = 0 then (none, database)
  else
    let setClauses := b.setClauses ++ ["updated_at = NOW()"]
    let args := b.args ++ [.text workflowID]
    let query := "UPDATE workflows SET " ++ String.intercalate ", " setClauses ++
      " WHERE workflow_id = $" ++ toString b.argIndex
    let c := DbCall.exec query args
    match database.faults c with
    | some e => (some e, database.record c)
    | none =>
      (none,
       { database.record c with
         store :=
          { database.store with
            workflows := database.store.workflows.map
              (fun w =>
                if w.WorkflowID = workflowID then UpdateWorkflow.assign req database.now w
                else w) } })

/-- The function `handler` of `cmd/update-workflow/main.go`. -/
def UpdateWorkflow.handler (env : Env) (database : Database)
    (request : APIGatewayProxyRequest) : HandlerRun :=
  match authenticate env request with
  | .error r => HandlerRun.answer database r
  | .ok claims =>
  let workflowID := request.PathParameters.index "id"
  if workflowID = "" then
    HandlerRun.answer database (response.BadRequest "Missing workflow_id")
  else
  match env.unmarshalUpdateWorkflowRequest request.Body with
  | .error _ => HandlerRun.answer database (response.BadRequest "Invalid request body")
  | .ok req =>
  match getWorkflowKeys database workflowID with
  | (.error .ErrNoRows, database) =>
    HandlerRun.answer database (response.NotFound "Workflow not found")
  | (.error (.fault _), database) =>
    HandlerRun.answer database (response.InternalError "Failed to get workflow")
  | (.ok workflow, database) =>
  match db.CheckProjectAdmin database claims.DID workflow.ProjectID with
  | (.error _, database) =>
    HandlerRun.answer database (response.InternalError "Failed to check permissions")
  | (.ok isAdmin, database) =>
  let isCreator : Bool := workflow.CreatorDID = claims.DID
  if !isAdmin && !isCreator then
    HandlerRun.answer database
      (response.Forbidden "Only admin or creator can update this workflow")
  else if req.Source ≠ none ∧ req.Source ≠ some "coze" ∧ req.Source ≠ some "n8n" then
    HandlerRun.answer database
      (response.BadRequest "Invalid source, must be 'coze' or 'n8n'")
  else if req.TemplateName ≠ none ∧ req.TemplateName ≠ some "workflow" ∧
      req.TemplateName ≠ some "streamflow" then
    HandlerRun.answer database
      (response.BadRequest "Invalid template_name, must be 'workflow' or 'streamflow'")
  else if req.HTTPMethod ≠ none ∧ req.HTTPMethod ≠ some "GET" ∧
      req.HTTPMethod ≠ some "POST" ∧ req.HTTPMethod ≠ some "PUT" then
    HandlerRun.answer database
      (response.BadRequest "Invalid http_method, must be 'GET', 'POST', or 'PUT'")
  else
  match UpdateWorkflow.updateWorkflow database workflowID req with
  | (some _, database) =>
    HandlerRun.answer database (response.InternalError "Failed to update workflow")
  | (none, database) =>
    HandlerRun.answer database
      (response.Success (.map [("workflow_id", .string workflowID),
        ("message", .string "Workflow updated successfully")]))

/-! ## cmd/share-workflow -/

/-- The statement of `updateShareStatus`. -/
def ShareWorkflow.updateShareStatus.query : String :=
  "UPDATE workflows SET is_shared = $1 WHERE workflow_id = $2"

/-- The function `updateShareStatus` of `cmd/share-workflow/main.go`. -/
def ShareWorkflow.updateShareStatus (database : Database) (workflowID : String)
    (isShared : Bool) : Option String × Database :=
  let c := DbCall.exec ShareWorkflow.updateShareStatus.query [.bool isShared, .text workflowID]
  match database.faults c with
  | some e => (some e, database.record c)
  | none =>
    (none,
     { database.record c with
       store :=
        { database.store with
          workflows := database.store.workflows.map
            (fun w => if w.WorkflowID = workflowID then { w with IsShared := isShared } else w) } })

/-- The function `handler` of `cmd/share-workflow/main.go`. -/
def ShareWorkflow.handler (env : Env) (database : Database)
    (request : APIGatewayProxyRequest) : HandlerRun :=
  match authenticate env request with
  | .error r => HandlerRun.answer database r
  | .ok claims =>
  let workflowID := request.PathParameters.index "id"
  if workflowID = "" then
    HandlerRun.answer database (response.BadRequest "Missing workflow_id")
  else
  match env.unmarshalShareWorkflowRequest request.Body with
  | .error _ => HandlerRun.answer database (response.BadRequest "Invalid request body")
  | .ok req =>
  match getWorkflowKeys database workflowID with
  | (.error .ErrNoRows, database) =>
    HandlerRun.answer database (response.NotFound "Workflow not found")
  | (.error (.fault _), database) =>
    HandlerRun.answer database (response.InternalError "Failed to get workflow")
  | (.ok workflow, database) =>
  match db.CheckProjectAdmin database claims.DID workflow.ProjectID with
  | (.error _, database) =>
    HandlerRun.answer database (response.InternalError "Failed to check permissions")
  | (.ok isAdmin, database) =>
  if !isAdmin then
    HandlerRun.answer database (response.Forbidden "Only project admin can share workflows")
  else
  match ShareWorkflow.updateShareStatus database workflowID req.IsShared with
  | (some _, database) =>
    HandlerRun.answer database (response.InternalError "Failed to update share status")
  | (none, database) =>
    HandlerRun.answer database
      (response.Success (.map [("workflow_id", .string workflowID),
        ("is_shared", .bool req.IsShared)]))

/-! ## cmd/hide-workflow -/

/-- The statement of `workflowExists`. -/
def HideWorkflow.workflowExists.query : String :=
  "SELECT EXISTS(SELECT 1 FROM workflows WHERE workflow_id = $1)"

/-- The function `workflowExists` of `cmd/hide-workflow/main.go`. -/
def HideWorkflow.workflowExists (database : Database) (workflowID : String) :
    Except String Bool × Database :=
  let c := DbCall.query HideWorkflow.workflowExists.query [.text workflowID]
  match database.faults c with
  | some e => (.error e, database.record c)
  | none =>
    (.ok (database.store.workflows.any (fun w => w.WorkflowID = workflowID)),
     database.record c)

/-- The statement of `updateHideStatus`, its blanks collapsed. -/
def HideWorkflow.updateHideStatus.query : String :=
  "INSERT INTO project_workflow_settings (project_id, workflow_id, is_hidden) VALUES ($1, $2, $3) ON CONFLICT (project_id, workflow_id) DO UPDATE SET is_hidden = $3, updated_at = CURRENT_TIMESTAMP"

/-- The upsert of `updateHideStatus` on the settings table: the row of the pair is updated,
or a row is added when the pair has none. -/
def HideWorkflow.upsert (rows : List ProjectWorkflowSetting) (projectID workflowID : String)
    (isHidden : Bool) (now : Nat) : List ProjectWorkflowSetting :=
  if rows.any (fun r => r.project_id = projectID ∧ r.workflow_id = workflowID) then
    rows.map (fun r =>
      if r.project_id = projectID ∧ r.workflow_id = workflowID then
        { r with is_hidden := isHidden, updated_at := now }
      else r)
  else
    rows ++ [{ project_id := projectID, workflow_id := workflowID, is_hidden := isHidden,
               updated_at := now }]

/-- The function `updateHideStatus` of `cmd/hide-workflow/main.go`. -/
def HideWorkflow.updateHideStatus (database : Database) (projectID workflowID : String)
    (isHidden : Bool) : Option String × Database :=
  let c := DbCall.exec HideWorkflow.updateHideStatus.query
    [.text projectID, .text workflowID, .bool isHidden]
  match database.faults c with
  | some e => (some e, database.record c)
  | none =>
    (none,
     { database.record c with
       store :=
        { database.store with
          project_workflow_settings :=
            HideWorkflow.upsert database.store.project_workflow_settings projectID workflowID
              isHidden database.now } })

/-- The function `handler` of `cmd/hide-workflow/main.go`. -/
def HideWorkflow.handler (env : Env) (database : Database)
    (request : APIGatewayProxyRequest) : HandlerRun :=
  match authenticate env request with
  | .error r => HandlerRun.answer database r
  | .ok claims =>
  let projectID := request.PathParameters.index "projectId"
  let workflowID := request.PathParameters.index "workflowId"
  if projectID = "" ∨ workflowID = "" then
    HandlerRun.answer database (response.BadRequest "Missing project_id or workflow_id")
  else
  match env.unmarshalHideWorkflowRequest request.Body with
  | .error _ => HandlerRun.answer database (response.BadRequest "Invalid request body")
  | .ok req =>
  match db.CheckProjectAdmin database claims.DID projectID with
  | (.error _, database) =>
    HandlerRun.answer database (response.InternalError "Failed to check permissions")
  | (.ok isAdmin, database) =>
  if !isAdmin then
    HandlerRun.answer database (response.Forbidden "Only project admin can hide workflows")
  else
  match HideWorkflow.workflowExists database workflowID with
  | (.error _, database) =>
    HandlerRun.answer database (response.InternalError "Failed to check workflow")
  | (.ok false, database) =>
    HandlerRun.answer database (response.NotFound "Workflow not found")
  | (.ok true, database) =>
  match HideWorkflow.updateHideStatus database projectID workflowID req.IsHidden with
  | (some _, database) =>
    HandlerRun.answer database (response.InternalError "Failed to update hide status")
  | (none, database) =>
    HandlerRun.answer database
      (response.Success (.map [("project_id", .string projectID),
        ("workflow_id", .string workflowID), ("is_hidden", .bool req.IsHidden)]))

/-! ## cmd/create-workflow -/

/-- The statement of `createWorkflow`, its blanks collapsed. -/
def CreateWorkflow.createWorkflow.query : String :=
  "INSERT INTO workflows ( workflow_name, description, source, template_name, http_method, base_url, bearer_token, external_workflow_id, parameters, headers, project_id, creator_did ) VALUES ($1, $2, $3, $4, $5, $6, $7, $8, $9, $10, $11, $12) RETURNING workflow_id"

/-- The arguments `createWorkflow` binds to its statement. -/
def CreateWorkflow.createWorkflow.args (req : CreateWorkflowRequest) (creatorDID : String) :
    List SqlValue :=
  [.text req.WorkflowName, .text req.Description, .text req.Source, .text req.TemplateName,
   .text req.HTTPMethod, .text req.BaseURL, .text req.BearerToken,
   .text req.ExternalWorkflowID, .json req.Parameters, .json req.Headers,
   .text req.ProjectID, .text creatorDID]

/-- The row the statement of `createWorkflow` adds: the twelve listed columns take the bound
values, the other columns the defaults of the schema. -/
def CreateWorkflow.row (database : Database) (req : CreateWorkflowRequest)
    (creatorDID : String) : Workflow :=
  { database.insertDefaults database.store with
    WorkflowName := req.WorkflowName
    Description := req.Description
    Source := req.Source
    TemplateName := req.TemplateName
    HTTPMethod := req.HTTPMethod
    BaseURL := req.BaseURL
    BearerToken := req.BearerToken
    ExternalWorkflowID := req.ExternalWorkflowID
    Parameters := req.Parameters
    Headers := req.Headers
    ProjectID := req.ProjectID
    CreatorDID := creatorDID }

/-- The function `createWorkflow` of `cmd/create-workflow/main.go`: the returned id, or the
error of the `QueryRow(...).Scan` call, and the database after it. -/
def CreateWorkflow.createWorkflow (database : Database) (req : CreateWorkflowRequest)
    (creatorDID : String) : Except String String × Database :=
  let c := DbCall.query CreateWorkflow.createWorkflow.query
    (CreateWorkflow.createWorkflow.args req creatorDID)
  match database.faults c with
  | some e => (.error e, database.record c)
  | none =>
    (.ok (CreateWorkflow.row database req creatorDID).WorkflowID,
     { database.record c with
       store :=
        { database.store with
          workflows :=
            database.store.workflows ++ [CreateWorkflow.row database req creatorDID] } })

/-- The function `handler` of `cmd/create-workflow/main.go`. -/
def CreateWorkflow.handler (env : Env) (database : Database)
    (request : APIGatewayProxyRequest) : HandlerRun :=
  match authenticate env request with
  | .error r => HandlerRun.answer database r
  | .ok claims =>
  match env.unmarshalCreateWorkflowRequest request.Body with
  | .error _ => HandlerRun.answer database (response.BadRequest "Invalid request body")
  | .ok req =>
  if req.WorkflowName = "" ∨ req.Description = "" ∨ req.Source = "" ∨
      req.TemplateName = "" ∨ req.HTTPMethod = "" ∨ req.BaseURL = "" ∨
      req.BearerToken = "" ∨ req.ExternalWorkflowID = "" ∨ req.ProjectID = "" then
    HandlerRun.answer database (response.BadRequest "Missing required fields")
  else if req.Source ≠ "coze" ∧ req.Source ≠ "n8n" then
    HandlerRun.answer database
      (response.BadRequest "Invalid source, must be 'coze' or 'n8n'")
  else if req.TemplateName ≠ "workflow" ∧ req.TemplateName ≠ "streamflow" then
    HandlerRun.answer database
      (response.BadRequest "Invalid template_name, must be 'workflow' or 'streamflow'")
  else if req.HTTPMethod ≠ "GET" ∧ req.HTTPMethod ≠ "POST" ∧ req.HTTPMethod ≠ "PUT" then
    HandlerRun.answer database
      (response.BadRequest "Invalid http_method, must be 'GET', 'POST', or 'PUT'")
  else
  match db.CheckProjectAccess database claims.DID req.ProjectID with
  | (.error _, database) =>
    HandlerRun.answer database (response.InternalError "Failed to check project access")
  | (.ok hasAccess, database) =>
  if !hasAccess then
    HandlerRun.answer database (response.Forbidden "Access denied to this project")
  else
  let req : CreateWorkflowRequest :=
    if req.Parameters = none then { req with Parameters := some "\x7b\x7d" } else req
  let req : CreateWorkflowRequest :=
    if req.Headers = none then { req with Headers := some "\x7b\x7d" } else req
  match CreateWorkflow.createWorkflow database req claims.DID with
  | (.error _, database) =>
    HandlerRun.answer database (response.InternalError "Failed to create workflow")
  | (.ok workflowID, database) =>
    HandlerRun.answer database
      (response.Success (.map [("workflow_id", .string workflowID),
        ("workflow_name", .string req.WorkflowName)]))

/-! ## cmd/list-workflows -/

/-- The statement of `getVisibleWorkflows`, its blanks collapsed. -/
def ListWorkflows.getVisibleWorkflows.query : String :=
  "SELECT w.workflow_id, w.workflow_name, w.description, w.source, w.template_name, w.http_method, w.base_url, w.bearer_token, w.external_workflow_id, w.parameters, w.headers, w.project_id, w.creator_did, w.is_shared, w.created_at, w.updated_at FROM workflows w LEFT JOIN project_workflow_settings pws ON w.workflow_id = pws.workflow_id AND pws.project_id = $1 WHERE ( w.project_id = $1 OR w.is_shared = true ) AND ( pws.is_hidden IS NULL OR pws.is_hidden = false ) ORDER BY w.created_at DESC"

/-- The `LEFT JOIN` of the statement for one workflow: a row for every settings row of the
workflow in the project, or a single row without settings when there is none. -/
def ListWorkflows.joined (store : Store) (projectID : String) (w : Workflow) :
    List (Workflow × Option ProjectWorkflowSetting) :=
  match store.project_workflow_settings.filter
      (fun pws => w.WorkflowID = pws.workflow_id ∧ pws.project_id = projectID) with
  | [] => [(w, none)]
  | pws :: rest => (pws :: rest).map (fun s => (w, some s))

/-- The `WHERE` clause of the statement on a joined row. -/
def ListWorkflows.selected (projectID : String)
    (row : Workflow × Option ProjectWorkflowSetting) : Bool :=
  (decide (row.1.ProjectID = projectID) || row.1.IsShared) &&
  (match row.2 with
   | none => true
   | some pws => !pws.is_hidden)

/-- The rows the statement returns: the joined rows that pass the `WHERE` clause, the latest
created first. -/
def ListWorkflows.rows (store : Store) (projectID : String) : List Workflow :=
  List.insertionSort (fun a b => b.CreatedAt ≤ a.CreatedAt)
    ((((store.workflows.map (ListWorkflows.joined store projectID)).flatten).filter
      (ListWorkflows.selected projectID)).map Prod.fst)

/-- The function `getVisibleWorkflows` of `cmd/list-workflows/main.go`. -/
def ListWorkflows.getVisibleWorkflows (database : Database) (projectID _userDID : String) :
    Except String (List Workflow) × Database :=
  let c := DbCall.query ListWorkflows.getVisibleWorkflows.query [.text projectID]
  match database.faults c with
  | some e => (.error e, database.record c)
  | none => (.ok (ListWorkflows.rows database.store projectID), database.record c)

/-- The function `handler` of `cmd/list-workflows/main.go`. -/
def ListWorkflows.handler (env : Env) (database : Database)
    (request : APIGatewayProxyRequest) : HandlerRun :=
  match authenticate env request with
  | .error r => HandlerRun.answer database r
  | .ok claims =>
  let projectID := request.PathParameters.index "projectId"
  if projectID = "" then
    HandlerRun.answer database (response.BadRequest "Missing project_id")
  else
  match db.CheckProjectAccess database claims.DID projectID with
  | (.error _, database) =>
    HandlerRun.answer database (response.InternalError "Failed to check project access")
  | (.ok hasAccess, database) =>
  if !hasAccess then
    HandlerRun.answer database (response.Forbidden "Access denied to this project")
  else
  match ListWorkflows.getVisibleWorkflows database projectID claims.DID with
  | (.error _, database) =>
    HandlerRun.answer database (response.InternalError "Failed to get workflows")
  | (.ok workflows, database) =>
    HandlerRun.answer database (response.Success (.workflows workflows))

/-! ## The statement of `updateWorkflow` -/

/-- The ten mutable fields of an update request in the order of `updateWorkflow`: the column
and the value, when supplied. -/
def UpdateWorkflow.fields (req : UpdateWorkflowRequest) : List (String × Option SqlValue) :=
  [("workflow_name", req.WorkflowName.map SqlValue.text),
   ("description", req.Description.map SqlValue.text),
   ("source", req.Source.map SqlValue.text),
   ("template_name", req.TemplateName.map SqlValue.text),
   ("http_method", req.HTTPMethod.map SqlValue.text),
   ("base_url", req.BaseURL.map SqlValue.text),
   ("bearer_token", req.BearerToken.map SqlValue.text),
   ("external_workflow_id", req.ExternalWorkflowID.map SqlValue.text),
   ("parameters", req.Parameters.map SqlValue.json),
   ("headers", req.Headers.map SqlValue.json)]

/-- Which of the ten mutable fields a request supplies. -/
def UpdateWorkflow.shape (req : UpdateWorkflowRequest) : List Bool :=
  (UpdateWorkflow.fields req).map (fun f => f.2.isSome)

/-- The supplied fields of a request, in order: the column and the value. -/
def UpdateWorkflow.supplied (req : UpdateWorkflowRequest) : List (String × SqlValue) :=
  (UpdateWorkflow.fields req).filterMap (fun f => f.2.map (fun v => (f.1, v)))

/-- The text `updateWorkflow` builds for a request that supplies a field. -/
def UpdateWorkflow.queryText (req : UpdateWorkflowRequest) : String :=
  "UPDATE workflows SET " ++
    String.intercalate ", " ((UpdateWorkflow.build req).setClauses ++ ["updated_at = NOW()"]) ++
    " WHERE workflow_id = $" ++ toString (UpdateWorkflow.build req).argIndex

/-- The call `updateWorkflow` makes for a request that supplies a field. -/
def UpdateWorkflow.statement (workflowID : String) (req : UpdateWorkflowRequest) : DbCall :=
  .exec (UpdateWorkflow.queryText req) ((UpdateWorkflow.build req).args ++ [.text workflowID])

/-- An update request is within the value sets: a supplied source, template or method is one
of the enumerated values. -/
def UpdateWorkflowRequest.withinEnums (req : UpdateWorkflowRequest) : Prop :=
  (∀ v, req.Source = some v → v = "coze" ∨ v = "n8n") ∧
  (∀ v, req.TemplateName = some v → v = "workflow" ∨ v = "streamflow") ∧
  (∀ v, req.HTTPMethod = some v → v = "GET" ∨ v = "POST" ∨ v = "PUT")

/-- A create request is within the value sets. -/
def CreateWorkflowRequest.withinEnums (req : CreateWorkflowRequest) : Prop :=
  (req.Source = "coze" ∨ req.Source = "n8n") ∧
  (req.TemplateName = "workflow" ∨ req.TemplateName = "streamflow") ∧
  (req.HTTPMethod = "GET" ∨ req.HTTPMethod = "POST" ∨ req.HTTPMethod = "PUT")

/-- A create request misses one of the nine required fields. -/
def CreateWorkflowRequest.missesField (req : CreateWorkflowRequest) : Prop :=
  req.WorkflowName = "" ∨ req.Description = "" ∨ req.Source = "" ∨
  req.TemplateName = "" ∨ req.HTTPMethod = "" ∨ req.BaseURL = "" ∨
  req.BearerToken = "" ∨ req.ExternalWorkflowID = "" ∨ req.ProjectID = ""

/-- The create request after the handler has filled absent parameters and headers with the
empty object. -/
def CreateWorkflowRequest.withDefaults (req : CreateWorkflowRequest) : CreateWorkflowRequest :=
  { req with
    Parameters := if req.Parameters = none then some "\x7b\x7d" else req.Parameters
    Headers := if req.Headers = none then some "\x7b\x7d" else req.Headers }

/-- The assignments of the given columns with the placeholders numbered from `i` on. -/
def UpdateWorkflow.assignments : List String → Nat → List String
  | [], _ => []
  | c :: cs, i => (c ++ " = $" ++ toString i) :: UpdateWorkflow.assignments cs (i + 1)

/-- The blocks of `updateWorkflow` run over a list of fields. -/
def UpdateBuilder.addAll (fs : List (String × Option SqlValue)) (b : UpdateBuilder) :
    UpdateBuilder :=
  fs.foldl (fun b f => b.add f.1 f.2) b

/-- The supplied ones among a list of fields, in order. -/
def UpdateBuilder.suppliedOf (fs : List (String × Option SqlValue)) :
    List (String × SqlValue) :=
  fs.filterMap (fun f => f.2.map (fun v => (f.1, v)))

/-- A database that faults on the same calls as `database`, possibly with other texts. -/
def Database.withFaults (database : Database) (faults : DbCall → Option String) : Database :=
  { database with faults := faults }

/-- Two fault oracles fault on the same calls. -/
def sameFaultyCalls (f g : DbCall → Option String) : Prop :=
  ∀ c, (f c).isSome = (g c).isSome

/-- No two settings rows have the same project and workflow: the key of the upsert of
`updateHideStatus`. -/
def Store.settingsKeyed (store : Store) : Prop :=
  store.project_workflow_settings.Pairwise
    (fun a b => ¬ (a.project_id = b.project_id ∧ a.workflow_id = b.workflow_id))

/-- The project has a settings row that hides the workflow. -/
@[reducible] def Store.hides (store : Store) (project workflow : String) : Prop :=
  ∃ s ∈ store.project_workflow_settings,
    s.project_id = project ∧ s.workflow_id = workflow ∧ s.is_hidden = true

/-! ## How a run of `executeWorkflow` is made -/

/-- The stages a run of `executeWorkflow` went through when it handed a request to
`client.Do`. -/
structure ExecStages (env : Env) (workflow : Workflow) (req : ExecuteWorkflowRequest) where
  parameters : GoMap GoValue
  requestBody : GoMap GoValue
  customHeaders : GoMap String
  bodyBytes : String
  hparameters : executeWorkflow.parameters env workflow req = .ok parameters
  hrequestBody : executeWorkflow.requestBody workflow parameters = some requestBody
  hcustomHeaders : executeWorkflow.customHeaders env workflow req = .ok customHeaders
  hbodyBytes : env.jsonMarshal requestBody = .ok bodyBytes
  hnewRequest : env.newRequest workflow.HTTPMethod workflow.BaseURL = none

/-- The request `executeWorkflow` builds from its stages. -/
def ExecStages.httpReq {env : Env} {workflow : Workflow} {req : ExecuteWorkflowRequest}
    (st : ExecStages env workflow req) : HttpRequest :=
  { Method := workflow.HTTPMethod, URL := workflow.BaseURL,
    Header := executeWorkflow.headers workflow st.customHeaders, Body := st.bodyBytes }

/-! ## A concrete environment

A decoder that knows a handful of texts, a transport with two routes and a
token library with two tokens: enough to run every handler on concrete
requests. -/

/-- A decoder for the texts used in the examples: any other text is a syntax error. -/
def Example.jsonUnmarshal (data : String) : Except String GoValue :=
  if data = "\x7b\"a\":1\x7d" then .ok (.map [("a", .float64 1)])
  else if data = "\x7b\x7d" then .ok (.map [])
  else if data = "null" then .ok .nil
  else if data = "[1]" then .ok (.slice [.float64 1])
  else if data = "\x7b\"Authorization\":\"Bearer X\"\x7d" then
    .ok (.map [("Authorization", .string "Bearer X")])
  else if data = "\x7b\"X-Team\":\"ops\"\x7d" then .ok (.map [("X-Team", .string "ops")])
  else if data = "\x7b\"X-Retries\":3\x7d" then .ok (.map [("X-Retries", .float64 3)])
  else .error "invalid character in JSON text"

/-- The kind of a decoded value as `json.Unmarshal` names it in a type error. -/
def Example.kind : GoValue → String
  | .nil => "null"
  | .bool _ => "bool"
  | .float64 _ => "number"
  | .string _ => "string"
  | .slice _ => "array"
  | .map _ => "object"
  | .nilMap => "null"

/-- The texts of the type errors of `json.Unmarshal`: for the whole text, and for the member
of a map under a key. -/
def Example.unmarshalTypeError (v : GoValue) (target key : String) : String :=
  if key = "" then
    "json: cannot unmarshal " ++ Example.kind v ++ " into Go value of type " ++ target
  else
    "json: cannot unmarshal " ++ Example.kind v ++ " into Go struct field ." ++ key ++
      " of type " ++ target

/-- A transport with two routes: one answers 200 with a JSON body, every other URL answers
503 with a plain text body. -/
def Example.clientDo (r : HttpRequest) : Except String HttpResponse :=
  if r.URL = "https://api.example/run" then
    .ok { StatusCode := 200, Header := [("Content-Type", ["application/json"])],
          Body := .ok "\x7b\"a\":1\x7d" }
  else if r.URL = "https://down.example/run" then .error "dial tcp: connection refused"
  else
    .ok { StatusCode := 503, Header := [("Retry-After", ["5", "9"]), ("X-Empty", [])],
          Body := .ok "busy" }

/-- A token library that accepts the tokens `alice`, `bob` and `carol`. -/
def Example.parseWithClaims (tokenString _secret : String) : Except String (Claims × Bool) :=
  if tokenString = "alice" then .ok ({ DID := "did:alice", Username := "alice" }, true)
  else if tokenString = "bob" then .ok ({ DID := "did:bob", Username := "bob" }, true)
  else if tokenString = "carol" then .ok ({ DID := "did:carol", Username := "carol" }, true)
  else .error "token signature is invalid"

/-- The example environment. -/
def Example.env : Env :=
  { jsonUnmarshal := Example.jsonUnmarshal
    unmarshalTypeError := Example.unmarshalTypeError
    jsonMarshal := fun _ => .ok "body"
    newRequest := fun _ _ => none
    clientDo := Example.clientDo
    statusText := fun code => if code = 200 then "OK" else "Service Unavailable"
    jwtSecret := "secret"
    parseWithClaims := Example.parseWithClaims
    unmarshalExecuteWorkflowRequest := fun body =>
      if body = "" then .error "unexpected end of JSON input"
      else if body = "\x7b\"parameters\":[1]\x7d" then
        .ok { Parameters := some "[1]", Headers := none }
      else if body = "\x7b\"headers\":\x7b\"X-Retries\":3\x7d\x7d" then
        .ok { Parameters := none, Headers := some "\x7b\"X-Retries\":3\x7d" }
      else .ok { Parameters := none, Headers := none }
    unmarshalUpdateWorkflowRequest := fun body =>
      if body = "" then .error "unexpected end of JSON input"
      else
        .ok { WorkflowName := some body, Description := none, Source := none,
              TemplateName := none, HTTPMethod := none, BaseURL := none, BearerToken := none,
              ExternalWorkflowID := none, Parameters := none, Headers := none }
    unmarshalShareWorkflowRequest := fun body =>
      if body = "" then .error "unexpected end of JSON input" else .ok { IsShared := true }
    unmarshalHideWorkflowRequest := fun body =>
      if body = "" then .error "unexpected end of JSON input" else .ok { IsHidden := true }
    unmarshalCreateWorkflowRequest := fun body =>
      if body = "" then .error "unexpected end of JSON input"
      else
        .ok { WorkflowName := "fresh", Description := "a new one", Source := body,
              TemplateName := "workflow", HTTPMethod := "POST",
              BaseURL := "https://api.example/run", BearerToken := "tok",
              ExternalWorkflowID := "wf-9", Parameters := none, Headers := none,
              ProjectID := "p1" } }

/-- A coze descriptor with external id `wf-1`, default parameters `\x7b"a":1\x7d` and
default headers `\x7b"X-Team":"ops"\x7d`, owned by project `p1` and created by bob. -/
def Example.coze : Workflow :=
  { WorkflowID := "w1", WorkflowName := "demo", Description := "a demo", Source := "coze",
    TemplateName := "workflow", HTTPMethod := "POST", BaseURL := "https://api.example/run",
    BearerToken := "tok", ExternalWorkflowID := "wf-1",
    Parameters := some "\x7b\"a\":1\x7d", Headers := some "\x7b\"X-Team\":\"ops\"\x7d",
    ProjectID := "p1", CreatorDID := "did:bob", IsShared := false, CreatedAt := 1,
    UpdatedAt := 1 }

/-- The same descriptor for n8n, answered with 503 by the example transport. -/
def Example.n8n : Workflow :=
  { Example.coze with WorkflowID := "w2", Source := "n8n", BaseURL := "https://n8n.example/hook" }

/-- An execute request without overrides. -/
def Example.noOverride : ExecuteWorkflowRequest :=
  { Parameters := none, Headers := none }

/-- The record the example transport's 503 answer yields for the n8n descriptor. -/
def Example.busyRecord : ExecuteWorkflowResponse :=
  { Request :=
      { Method := "POST", URL := "https://n8n.example/hook",
        Headers := some [("Authorization", "Bearer tok"), ("Content-Type", "application/json"),
          ("X-Team", "ops")],
        Body := some [("a", .float64 1), ("workflow_id", .string "wf-1")] }
    Response :=
      { Status := 503, StatusText := "Service Unavailable",
        Headers := some [("Retry-After", "5")], Body := .string "busy" } }

/-- A shared descriptor of project `p2`, created by bob. -/
def Example.shared : Workflow :=
  { Example.coze with WorkflowID := "w3", ProjectID := "p2", IsShared := true }

/-- A descriptor of project `p2` that is not shared. -/
def Example.closed : Workflow :=
  { Example.coze with WorkflowID := "w4", ProjectID := "p2" }

/-- A store with four descriptors, all created by bob. In project `p1` alice and bob are
members and carol is admin; in project `p2` bob is a member; project `p1` hides the shared
descriptor `w3`. -/
def Example.store : Store :=
  { workflows := [Example.coze, Example.n8n, Example.shared, Example.closed]
    user_projects :=
      [{ user_did := "did:alice", project_id := "p1", role := "member" },
       { user_did := "did:bob", project_id := "p1", role := "member" },
       { user_did := "did:carol", project_id := "p1", role := "admin" },
       { user_did := "did:bob", project_id := "p2", role := "member" }]
    project_workflow_settings :=
      [{ project_id := "p1", workflow_id := "w3", is_hidden := true, updated_at := 2 }] }

/-- A database on the example store that answers every call. -/
def Example.database : Database :=
  { store := Example.store, calls := [], faults := fun _ => none, now := 100
    insertDefaults := fun _ =>
      { Workflow.zero with WorkflowID := "w5", CreatedAt := 100, UpdatedAt := 100 } }

/-- A request of the bearer of a token on the workflow `id`, with a body. -/
def Example.request (token id body : String) : APIGatewayProxyRequest :=
  { Headers := some [("Authorization", "Bearer " ++ token)]
    PathParameters := some [("id", id)]
    Body := body }

/-- A request of the bearer of a token on the pair of a project and a workflow. -/
def Example.pairRequest (token projectId workflowId body : String) : APIGatewayProxyRequest :=
  { Headers := some [("Authorization", "Bearer " ++ token)]
    PathParameters := some [("projectId", projectId), ("workflowId", workflowId)]
    Body := body }

/-! ## The access predicates of the policy, on the store -/

/-- The actor has a membership row in the project, whatever the role. -/
@[reducible] def Store.hasMembership (store : Store) (actor project : String) : Prop :=
  ∃ r ∈ store.user_projects, r.user_did = actor ∧ r.project_id = project

/-- The actor has a membership row in the project with the role `admin`. -/
@[reducible] def Store.hasAdminMembership (store : Store) (actor project : String) : Prop :=
  ∃ r ∈ store.user_projects, r.user_did = actor ∧ r.project_id = project ∧ r.role = "admin"

/-- The calls a handler made on the database: those recorded after the calls that were
there before it ran. -/
def HandlerRun.calls (run : HandlerRun) (before : Database) : List DbCall :=
  run.database.calls.drop before.calls.length

/-- A request of the bearer of a token on a project, with a body. -/
def Example.projectRequest (token projectId body : String) : APIGatewayProxyRequest :=
  { Headers := some [("Authorization", "Bearer " ++ token)]
    PathParameters := some [("projectId", projectId)]
    Body := body }

/-- The row the example database adds for the create request with source `coze` of alice. -/
def Example.fresh : Workflow :=
  { WorkflowID := "w5", WorkflowName := "fresh", Description := "a new one",
    Source := "coze", TemplateName := "workflow", HTTPMethod := "POST",
    BaseURL := "https://api.example/run", BearerToken := "tok", ExternalWorkflowID := "wf-9",
    Parameters := some "\x7b\x7d", Headers := some "\x7b\x7d", ProjectID := "p1",
    CreatorDID := "did:alice", IsShared := false, CreatedAt := 100, UpdatedAt := 100 }

/-- An update request that supplies nothing. -/
def Example.emptyUpdate : UpdateWorkflowRequest :=
  { WorkflowName := none, Description := none, Source := none, TemplateName := none,
    HTTPMethod := none, BaseURL := none, BearerToken := none, ExternalWorkflowID := none,
    Parameters := none, Headers := none }

/-- An update request that supplies the description and the method. -/
def Example.twoFields (description method : String) : UpdateWorkflowRequest :=
  { Example.emptyUpdate with Description := some description, HTTPMethod := some method }

/-- An environment like the example one whose update decoder reads every body as the empty
update. -/
def Example.envEmptyUpdate : Env :=
  { Example.env with unmarshalUpdateWorkflowRequest := fun _ => .ok Example.emptyUpdate }

/-- An environment like the example one whose transport refuses every request with the given
text. -/
def Example.envRefusing (text : String) : Env :=
  { Example.env with clientDo := fun _ => .error text }

/-- The create request a row comes from. -/
def Workflow.toRequest (w : Workflow) : CreateWorkflowRequest :=
  { WorkflowName := w.WorkflowName, Description := w.Description, Source := w.Source,
    TemplateName := w.TemplateName, HTTPMethod := w.HTTPMethod, BaseURL := w.BaseURL,
    BearerToken := w.BearerToken, ExternalWorkflowID := w.ExternalWorkflowID,
    Parameters := w.Parameters, Headers := w.Headers, ProjectID := w.ProjectID }

/-- A create request without its parameters and headers. -/
def CreateWorkflowRequest.withoutDefaults (req : CreateWorkflowRequest) :
    CreateWorkflowRequest :=
  { req with Parameters := none, Headers := none }

/-- A database on the example store that answers every call with a fault of the given
text. -/
def Example.failing (text : String) : Database :=
  { Example.database with faults := fun _ => some text }

/-- The run of `executeWorkflow` once its stages before the dispatch are known. -/
theorem executeWorkflow_of_stages {env : Env} {workflow : Workflow}
    {req : ExecuteWorkflowRequest} (st : ExecStages env workflow req) :
    executeWorkflow env workflow req =
      match env.clientDo st.httpReq with
      | .error e => ⟨[st.httpReq], .err e⟩
      | .ok httpResp =>
        match httpResp.Body with
        | .error e => ⟨[st.httpReq], .err e⟩
        | .ok respBody =>
          ⟨[st.httpReq], .ok
            { Request :=
                { Method := workflow.HTTPMethod, URL := workflow.BaseURL,
                  Headers := some (executeWorkflow.headers workflow st.customHeaders),
                  Body := st.requestBody }
              Response :=
                { Status := httpResp.StatusCode
                  StatusText := env.statusText httpResp.StatusCode
                  Headers := some (executeWorkflow.respHeaders httpResp.Header)
                  Body := executeWorkflow.respBodyJSON env respBody } }⟩ := by
  unfold executeWorkflow
  simp only [st.hparameters, st.hrequestBody, st.hcustomHeaders, st.hbodyBytes, st.hnewRequest,
    ExecStages.httpReq]

/-- Either a run of `executeWorkflow` went through every stage before the dispatch, or it
handed nothing to `client.Do` and returned no result. -/
theorem executeWorkflow_cases (env : Env) (workflow : Workflow)
    (req : ExecuteWorkflowRequest) :
    Nonempty (ExecStages env workflow req) ∨
    ((executeWorkflow env workflow req).dispatched = [] ∧
      ∀ res, (executeWorkflow env workflow req).out ≠ .ok res) := by
  cases hp : executeWorkflow.parameters env workflow req with
  | error e => right; unfold executeWorkflow; simp [hp]
  | ok parameters =>
    cases hb : executeWorkflow.requestBody workflow parameters with
    | none => right; unfold executeWorkflow; simp [hp, hb]
    | some requestBody =>
      cases hc : executeWorkflow.customHeaders env workflow req with
      | error e => right; unfold executeWorkflow; simp [hp, hb, hc]
      | ok customHeaders =>
        cases hm : env.jsonMarshal requestBody with
        | error e => right; unfold executeWorkflow; simp [hp, hb, hc, hm]
        | ok bodyBytes =>
          cases hn : env.newRequest workflow.HTTPMethod workflow.BaseURL with
          | some e => right; unfold executeWorkflow; simp [hp, hb, hc, hm, hn]
          | none =>
            exact Or.inl ⟨⟨parameters, requestBody, customHeaders, bodyBytes, hp, hb, hc, hm, hn⟩⟩

/-- Once the stages before the dispatch are passed, exactly one request is handed to
`client.Do`: the one built from the stages. -/
theorem executeWorkflow_dispatched_of_stages {env : Env} {workflow : Workflow}
    {req : ExecuteWorkflowRequest} (st : ExecStages env workflow req) :
    (executeWorkflow env workflow req).dispatched = [st.httpReq] := by
  rw [executeWorkflow_of_stages st]
  cases hd : env.clientDo st.httpReq with
  | error e => rfl
  | ok httpResp =>
    cases hr : httpResp.Body with
    | error e => simp only [hr]
    | ok respBody => simp only [hr]

/-- A run of `executeWorkflow` that hands a request to `client.Do` went through every stage,
and hands over exactly one request, the one built from the stages. -/
theorem executeWorkflow_dispatched {env : Env} {workflow : Workflow}
    {req : ExecuteWorkflowRequest} (h : (executeWorkflow env workflow req).dispatched ≠ []) :
    ∃ st : ExecStages env workflow req,
      (executeWorkflow env workflow req).dispatched = [st.httpReq] := by
  rcases executeWorkflow_cases env workflow req with ⟨⟨st⟩⟩ | ⟨hnil, _⟩
  · exact ⟨st, executeWorkflow_dispatched_of_stages st⟩
  · exact absurd hnil h

/-- A run of `executeWorkflow` that returns a result went through every stage and got a
response whose body was read. -/
theorem executeWorkflow_ok {env : Env} {workflow : Workflow} {req : ExecuteWorkflowRequest}
    {res : ExecuteWorkflowResponse} (h : (executeWorkflow env workflow req).out = .ok res) :
    ∃ (st : ExecStages env workflow req) (httpResp : HttpResponse) (respBody : String),
      env.clientDo st.httpReq = .ok httpResp ∧ httpResp.Body = .ok respBody ∧
      (executeWorkflow env workflow req).dispatched = [st.httpReq] ∧
      res =
        { Request :=
            { Method := workflow.HTTPMethod, URL := workflow.BaseURL,
              Headers := some (executeWorkflow.headers workflow st.customHeaders),
              Body := st.requestBody }
          Response :=
            { Status := httpResp.StatusCode
              StatusText := env.statusText httpResp.StatusCode
              Headers := some (executeWorkflow.respHeaders httpResp.Header)
              Body := executeWorkflow.respBodyJSON env respBody } } := by
  rcases executeWorkflow_cases env workflow req with ⟨⟨st⟩⟩ | ⟨_, hno⟩
  · have hrun := executeWorkflow_of_stages st
    cases hd : env.clientDo st.httpReq with
    | error e => rw [hrun] at h; simp [hd] at h
    | ok httpResp =>
      cases hr : httpResp.Body with
      | error e => rw [hrun] at h; simp [hd, hr] at h
      | ok respBody =>
        refine ⟨st, httpResp, respBody, hd, hr, executeWorkflow_dispatched_of_stages st, ?_⟩
        rw [hrun] at h
        simp only [hd, hr] at h
        injection h with h
        exact h.symm
  · exact absurd h (hno res)

/-! ## Maps -/

theorem Entries.get_set_self {V : Type} (m : Entries V) (k : String) (v : V) :
    (m.set k v).get k = some v := by
  induction m with
  | nil => simp [Entries.set, Entries.get]
  | cons kv rest ih =>
    obtain ⟨k', v'⟩ := kv
    by_cases h : k' = k
    · simp [Entries.set, Entries.get, h]
    · simp [Entries.set, Entries.get, h, ih]

theorem Entries.get_set_ne {V : Type} (m : Entries V) (k j : String) (v : V) (h : j ≠ k) :
    (m.set k v).get j = m.get j := by
  induction m with
  | nil => simp [Entries.set, Entries.get, Ne.symm h]
  | cons kv rest ih =>
    obtain ⟨k', v'⟩ := kv
    by_cases hk : k' = k
    · subst hk
      simp [Entries.set, Entries.get, Ne.symm h]
    · by_cases hj : k' = j
      · subst hj
        simp [Entries.set, Entries.get, h]
      · simp [Entries.set, Entries.get, hk, hj, ih]

theorem Entries.get_eq_none_of_not_mem {V : Type} (m : Entries V) (k : String)
    (h : k ∉ m.keys) : m.get k = none := by
  induction m with
  | nil => rfl
  | cons kv rest ih =>
    obtain ⟨k', v'⟩ := kv
    simp only [Entries.keys, List.map_cons, List.mem_cons, not_or] at h
    have ih' := ih (by simpa [Entries.keys] using h.2)
    simp [Entries.get, Ne.symm h.1, ih']

theorem Entries.get_foldl_set {V : Type} (c b : Entries V) (k : String)
    (hn : c.keys.Nodup) :
    (∀ v, c.get k = some v → (c.foldl (fun h kv => h.set kv.1 kv.2) b).get k = some v) ∧
    (c.get k = none → (c.foldl (fun h kv => h.set kv.1 kv.2) b).get k = b.get k) := by
  induction c generalizing b with
  | nil => simp [Entries.get]
  | cons kv rest ih =>
    obtain ⟨k', v'⟩ := kv
    simp only [Entries.keys, List.map_cons, List.nodup_cons] at hn
    have hrest : Entries.keys rest = List.map Prod.fst rest := rfl
    have ih' := ih (Entries.set b k' v') (by rw [hrest]; exact hn.2)
    rw [List.foldl_cons]
    by_cases hk : k' = k
    · subst hk
      have hnone : Entries.get rest k' = none :=
        Entries.get_eq_none_of_not_mem rest k' (by rw [hrest]; exact hn.1)
      have hfold := ih'.2 hnone
      rw [Entries.get_set_self] at hfold
      simp [Entries.get, hfold]
    · have hget : Entries.get ((k', v') :: rest) k = Entries.get rest k := by
        simp [Entries.get, hk]
      rw [hget]
      refine ⟨ih'.1, fun h => ?_⟩
      rw [ih'.2 h, Entries.get_set_ne _ _ _ _ (Ne.symm hk)]

theorem executeWorkflow.get_respHeaders_aux (header : Entries (List String))
    (b : Entries String) (k : String) (hn : header.keys.Nodup) :
    (header.foldl
      (fun h kv => match kv.2 with
        | [] => h
        | v0 :: _ => h.set kv.1 v0) b).get k =
      match header.get k with
      | some (v0 :: _) => some v0
      | _ => b.get k := by
  induction header generalizing b with
  | nil => simp [Entries.get]
  | cons kv rest ih =>
    obtain ⟨k', vs⟩ := kv
    simp only [Entries.keys, List.map_cons, List.nodup_cons] at hn
    have hrest : Entries.keys rest = List.map Prod.fst rest := rfl
    rw [List.foldl_cons, ih _ (by rw [hrest]; exact hn.2)]
    by_cases hk : k' = k
    · subst hk
      have hnone : Entries.get rest k' = none :=
        Entries.get_eq_none_of_not_mem rest k' (by rw [hrest]; exact hn.1)
      cases vs with
      | nil => simp [Entries.get, hnone]
      | cons v0 vs => simp [Entries.get, hnone, Entries.get_set_self]
    · have hget : Entries.get ((k', vs) :: rest) k = Entries.get rest k := by
        simp [Entries.get, hk]
      rw [hget]
      cases vs with
      | nil => rfl
      | cons v0 vs =>
        simp only
        rw [Entries.get_set_ne _ _ _ _ (Ne.symm hk)]

/-- The map `respHeaders` reads, under every name, the first value the response has under
that name. -/
theorem executeWorkflow.get_respHeaders (header : Entries (List String)) (k : String)
    (hn : header.keys.Nodup) :
    (executeWorkflow.respHeaders header).get k =
      match header.get k with
      | some (v0 :: _) => some v0
      | _ => none := by
  unfold executeWorkflow.respHeaders
  rw [executeWorkflow.get_respHeaders_aux header [] k hn]
  rfl

/-! ## Body shaping -/

/-- C1. For a descriptor whose source is `coze` and resolved parameters `p`, the body
`executeWorkflow` builds is the two-key map with `workflow_id` set to the external id and
`parameters` set to `p` itself; every request handed to the transport carries the marshalled
form of that map, and a returned record echoes that map as its request body. -/
theorem coze_body_wraps_parameters (env : Env) (workflow : Workflow)
    (req : ExecuteWorkflowRequest) (p : GoMap GoValue)
    (hsource : workflow.Source = "coze")
    (hp : executeWorkflow.parameters env workflow req = .ok p) :
    executeWorkflow.requestBody workflow p =
        some (some [("workflow_id", .string workflow.ExternalWorkflowID),
                    ("parameters", GoValue.ofMap p)]) ∧
    (∀ r ∈ (executeWorkflow env workflow req).dispatched,
      env.jsonMarshal (some [("workflow_id", .string workflow.ExternalWorkflowID),
                             ("parameters", GoValue.ofMap p)]) = .ok r.Body) ∧
    (∀ res, (executeWorkflow env workflow req).out = .ok res →
      res.Request.Body = some [("workflow_id", .string workflow.ExternalWorkflowID),
                               ("parameters", GoValue.ofMap p)]) := by
  have hbody : executeWorkflow.requestBody workflow p =
      some (some [("workflow_id", .string workflow.ExternalWorkflowID),
                  ("parameters", GoValue.ofMap p)]) := by
    simp [executeWorkflow.requestBody, hsource]
  have hst : ∀ st : ExecStages env workflow req,
      st.requestBody = some [("workflow_id", .string workflow.ExternalWorkflowID),
                             ("parameters", GoValue.ofMap p)] := by
    intro st
    have h1 := st.hparameters
    rw [hp] at h1
    injection h1 with h1
    have h2 := st.hrequestBody
    rw [← h1, hbody] at h2
    injection h2 with h2
    exact h2.symm
  refine ⟨hbody, ?_, ?_⟩
  · intro r hr
    obtain ⟨st, hd⟩ := executeWorkflow_dispatched (List.ne_nil_of_mem hr)
    rw [hd, List.mem_singleton] at hr
    rw [hr, ← hst st]
    exact st.hbodyBytes
  · intro res hres
    obtain ⟨st, _, _, _, _, _, hres'⟩ := executeWorkflow_ok hres
    rw [hres', ← hst st]

/-- C1, on the spec's example: external id `wf-1` and parameters `\x7b"a":1\x7d`. -/
theorem coze_body_wraps_parameters_witness :
    executeWorkflow.requestBody Example.coze (some [("a", .float64 1)]) =
        some (some [("workflow_id", .string "wf-1"),
                    ("parameters", .map [("a", .float64 1)])]) ∧
    (∀ r ∈ (executeWorkflow Example.env Example.coze Example.noOverride).dispatched,
      Example.env.jsonMarshal (some [("workflow_id", .string "wf-1"),
                             ("parameters", .map [("a", .float64 1)])]) = .ok r.Body) ∧
    (∀ res, (executeWorkflow Example.env Example.coze Example.noOverride).out = .ok res →
      res.Request.Body = some [("workflow_id", .string "wf-1"),
                               ("parameters", .map [("a", .float64 1)])]) :=
  coze_body_wraps_parameters Example.env Example.coze Example.noOverride
    (some [("a", .float64 1)]) rfl rfl

/-- C2. For a descriptor whose source is not `coze` and a resolved parameters object `p`, the
body `executeWorkflow` builds is `p` with the key `workflow_id` set to the external id: that
key reads the external id, every other key reads what it reads in `p`; every request handed
to the transport carries the marshalled form of that map, and a returned record echoes it. -/
theorem other_body_is_parameters_with_id (env : Env) (workflow : Workflow)
    (req : ExecuteWorkflowRequest) (p : Entries GoValue)
    (hsource : workflow.Source ≠ "coze")
    (hp : executeWorkflow.parameters env workflow req = .ok (some p)) :
    executeWorkflow.requestBody workflow (some p) =
        some (some (p.set "workflow_id" (.string workflow.ExternalWorkflowID))) ∧
    (p.set "workflow_id" (.string workflow.ExternalWorkflowID)).get "workflow_id" =
        some (.string workflow.ExternalWorkflowID) ∧
    (∀ k, k ≠ "workflow_id" →
      (p.set "workflow_id" (.string workflow.ExternalWorkflowID)).get k = p.get k) ∧
    (∀ r ∈ (executeWorkflow env workflow req).dispatched,
      env.jsonMarshal (some (p.set "workflow_id" (.string workflow.ExternalWorkflowID))) =
        .ok r.Body) ∧
    (∀ res, (executeWorkflow env workflow req).out = .ok res →
      res.Request.Body = some (p.set "workflow_id" (.string workflow.ExternalWorkflowID))) := by
  have hbody : executeWorkflow.requestBody workflow (some p) =
      some (some (p.set "workflow_id" (.string workflow.ExternalWorkflowID))) := by
    simp [executeWorkflow.requestBody, hsource]
  have hst : ∀ st : ExecStages env workflow req,
      st.requestBody = some (p.set "workflow_id" (.string workflow.ExternalWorkflowID)) := by
    intro st
    have h1 := st.hparameters
    rw [hp] at h1
    injection h1 with h1
    have h2 := st.hrequestBody
    rw [← h1, hbody] at h2
    injection h2 with h2
    exact h2.symm
  refine ⟨hbody, Entries.get_set_self _ _ _, fun k hk => Entries.get_set_ne _ _ _ _ hk, ?_, ?_⟩
  · intro r hr
    obtain ⟨st, hd⟩ := executeWorkflow_dispatched (List.ne_nil_of_mem hr)
    rw [hd, List.mem_singleton] at hr
    rw [hr, ← hst st]
    exact st.hbodyBytes
  · intro res hres
    obtain ⟨st, _, _, _, _, _, hres'⟩ := executeWorkflow_ok hres
    rw [hres', ← hst st]

/-- C2, on the spec's example: platform n8n, external id `wf-1`, parameters `\x7b"a":1\x7d`. -/
theorem other_body_is_parameters_with_id_witness :
    executeWorkflow.requestBody Example.n8n (some [("a", .float64 1)]) =
        some (some [("a", .float64 1), ("workflow_id", .string "wf-1")]) ∧
    (∀ res, (executeWorkflow Example.env Example.n8n Example.noOverride).out = .ok res →
      res.Request.Body = some [("a", .float64 1), ("workflow_id", .string "wf-1")]) :=
  have h := other_body_is_parameters_with_id Example.env Example.n8n Example.noOverride
    [("a", .float64 1)] (by decide) rfl
  ⟨h.1, h.2.2.2.2⟩

/-! ## Parameter resolution -/

/-- C3, as stated, fails when the caller supplies the empty object: the caller's parameters
decode to the empty map, the stored defaults decode to `\x7b"a":1\x7d`, and the resolved
parameters are the caller's empty map, not the stored defaults. -/
theorem empty_parameters_object_is_not_defaulted :
    unmarshalMap Example.env (RawMessage.bytes (some "\x7b\x7d")) = .ok (some []) ∧
    unmarshalMap Example.env Example.n8n.Parameters.bytes = .ok (some [("a", .float64 1)]) ∧
    executeWorkflow.parameters Example.env Example.n8n
        { Parameters := some "\x7b\x7d", Headers := none } = .ok (some []) ∧
    executeWorkflow.parameters Example.env Example.n8n
        { Parameters := some "\x7b\x7d", Headers := none } ≠
      unmarshalMap Example.env Example.n8n.Parameters.bytes := by
  refine ⟨rfl, rfl, rfl, ?_⟩
  intro h
  have h' : (Except.ok (some []) : Except String (GoMap GoValue)) =
      .ok (some [("a", .float64 1)]) := h
  injection h' with h'
  injection h' with h'
  exact List.noConfusion h'

/-- C3, amended. When the caller's `parameters` is a value of non-zero length (the empty
object included), the resolved parameters are what that value decodes to, whatever the
descriptor stores; when it is absent or of zero length, they are what the stored default
parameters decode to. -/
theorem parameters_replace_or_default (env : Env) (workflow : Workflow)
    (req : ExecuteWorkflowRequest) :
    (req.Parameters.len > 0 →
      executeWorkflow.parameters env workflow req = unmarshalMap env req.Parameters.bytes ∧
      ∀ other : Workflow,
        executeWorkflow.parameters env other req =
          executeWorkflow.parameters env workflow req) ∧
    (req.Parameters.len = 0 →
      executeWorkflow.parameters env workflow req =
        unmarshalMap env workflow.Parameters.bytes) := by
  have hnone : ∀ r : RawMessage, r.len > 0 → r ≠ none := by
    intro r hr h
    subst h
    exact absurd hr (by decide)
  constructor
  · intro h
    have h1 : ∀ w : Workflow,
        executeWorkflow.parameters env w req = unmarshalMap env req.Parameters.bytes := by
      intro w
      unfold executeWorkflow.parameters
      rw [if_pos ⟨hnone _ h, h⟩]
    exact ⟨h1 workflow, fun other => by rw [h1 other, h1 workflow]⟩
  · intro h
    unfold executeWorkflow.parameters
    rw [if_neg]
    intro hc
    omega

/-- C3, amended, on examples: a caller object replaces the defaults of two descriptors alike,
and a request without parameters resolves to the stored defaults. -/
theorem parameters_replace_or_default_witness :
    (executeWorkflow.parameters Example.env Example.n8n
        { Parameters := some "\x7b\x7d", Headers := none } = .ok (some []) ∧
      executeWorkflow.parameters Example.env Workflow.zero
        { Parameters := some "\x7b\x7d", Headers := none } =
      executeWorkflow.parameters Example.env Example.n8n
        { Parameters := some "\x7b\x7d", Headers := none }) ∧
    executeWorkflow.parameters Example.env Example.n8n Example.noOverride =
      .ok (some [("a", .float64 1)]) :=
  ⟨⟨((parameters_replace_or_default Example.env Example.n8n
        { Parameters := some "\x7b\x7d", Headers := none }).1 (by decide)).1,
    ((parameters_replace_or_default Example.env Example.n8n
        { Parameters := some "\x7b\x7d", Headers := none }).1 (by decide)).2 Workflow.zero⟩,
   (parameters_replace_or_default Example.env Example.n8n Example.noOverride).2 rfl⟩

/-! ## Header resolution -/

/-- The baseline reads the bearer token of the descriptor and the JSON content type, and
nothing else. -/
theorem executeWorkflow.get_baseline (workflow : Workflow) :
    (executeWorkflow.baseline workflow).get "Authorization" =
        some ("Bearer " ++ workflow.BearerToken) ∧
    (executeWorkflow.baseline workflow).get "Content-Type" = some "application/json" ∧
    ∀ k, k ≠ "Authorization" → k ≠ "Content-Type" →
      (executeWorkflow.baseline workflow).get k = none := by
  refine ⟨?_, ?_, ?_⟩
  · unfold executeWorkflow.baseline
    rw [Entries.get_set_ne _ _ _ _ (by decide)]
    exact Entries.get_set_self _ _ _
  · exact Entries.get_set_self _ _ _
  · intro k h1 h2
    unfold executeWorkflow.baseline
    rw [Entries.get_set_ne _ _ _ _ h2, Entries.get_set_ne _ _ _ _ h1]
    rfl

/-- C4, as stated, fails when the caller supplies the empty object as headers: the override
decodes to the empty map, the stored default headers decode to `\x7b"X-Team":"ops"\x7d`, and
the request handed to the transport carries the two baseline headers only, so the stored
default `X-Team` is not in the final headers. -/
theorem empty_headers_object_is_not_defaulted :
    unmarshalStringMap Example.env (RawMessage.bytes (some "\x7b\x7d")) = .ok (some []) ∧
    unmarshalStringMap Example.env Example.coze.Headers.bytes =
      .ok (some [("X-Team", "ops")]) ∧
    (executeWorkflow Example.env Example.coze
        { Parameters := none, Headers := some "\x7b\x7d" }).dispatched.map
          (fun r => r.Header) =
      [[("Authorization", "Bearer tok"), ("Content-Type", "application/json")]] ∧
    (executeWorkflow.headers Example.coze (some [("X-Team", "ops")])).get "X-Team" =
      some "ops" := by
  refine ⟨rfl, rfl, ?_, ?_⟩ <;> decide

/-- C4, amended. The custom headers `c` are what the caller's `headers` decodes to when that
value has non-zero length (the empty object included), whatever the descriptor stores, and
what the stored default headers decode to when it is absent or of zero length. The final
headers are the baseline overlaid with `c`: a key of `c` reads the value of `c`, any other
key reads the baseline. They are the headers of every request handed to the transport and
the headers a returned record echoes. -/
theorem headers_overlay_baseline (env : Env) (workflow : Workflow)
    (req : ExecuteWorkflowRequest) (c : GoMap String)
    (hc : executeWorkflow.customHeaders env workflow req = .ok c)
    (hkeys : c.range.keys.Nodup) :
    (req.Headers.len > 0 →
      unmarshalStringMap env req.Headers.bytes = .ok c ∧
      ∀ other : Workflow, executeWorkflow.customHeaders env other req = .ok c) ∧
    (req.Headers.len = 0 → unmarshalStringMap env workflow.Headers.bytes = .ok c) ∧
    (∀ k v, c.get k = some v → (executeWorkflow.headers workflow c).get k = some v) ∧
    (∀ k, c.get k = none →
      (executeWorkflow.headers workflow c).get k = (executeWorkflow.baseline workflow).get k) ∧
    (∀ r ∈ (executeWorkflow env workflow req).dispatched,
      r.Header = executeWorkflow.headers workflow c) ∧
    (∀ res, (executeWorkflow env workflow req).out = .ok res →
      res.Request.Headers = some (executeWorkflow.headers workflow c)) := by
  have hnone : ∀ r : RawMessage, r.len > 0 → r ≠ none := by
    intro r hr h
    subst h
    exact absurd hr (by decide)
  have hget : ∀ k,
      (∀ v, c.range.get k = some v → (executeWorkflow.headers workflow c).get k = some v) ∧
      (c.range.get k = none →
        (executeWorkflow.headers workflow c).get k =
          (executeWorkflow.baseline workflow).get k) := by
    intro k
    unfold executeWorkflow.headers
    exact Entries.get_foldl_set c.range (executeWorkflow.baseline workflow) k hkeys
  have hrange : ∀ k, c.range.get k = c.get k := by
    intro k
    cases c <;> rfl
  have hst : ∀ st : ExecStages env workflow req, st.customHeaders = c := by
    intro st
    have h1 := st.hcustomHeaders
    rw [hc] at h1
    injection h1 with h1
    exact h1.symm
  refine ⟨?_, ?_, ?_, ?_, ?_, ?_⟩
  · intro h
    have h1 : ∀ w : Workflow, executeWorkflow.customHeaders env w req =
        unmarshalStringMap env req.Headers.bytes := by
      intro w
      unfold executeWorkflow.customHeaders
      rw [if_pos ⟨hnone _ h, h⟩]
    exact ⟨by rw [← h1 workflow, hc], fun other => by rw [h1 other, ← h1 workflow, hc]⟩
  · intro h
    rw [← hc]
    unfold executeWorkflow.customHeaders
    rw [if_neg]
    intro hcon
    omega
  · intro k v hk
    exact (hget k).1 v (by rw [hrange k, hk])
  · intro k hk
    exact (hget k).2 (by rw [hrange k, hk])
  · intro r hr
    obtain ⟨st, hd⟩ := executeWorkflow_dispatched (List.ne_nil_of_mem hr)
    rw [hd, List.mem_singleton] at hr
    rw [hr, ← hst st]
    rfl
  · intro res hres
    obtain ⟨st, _, _, _, _, _, hres'⟩ := executeWorkflow_ok hres
    rw [hres', ← hst st]

/-- C4, amended, on the spec's example: the override `\x7b"Authorization":"Bearer X"\x7d`
makes the final `Authorization` header `Bearer X`, and `Content-Type` keeps its baseline
value. -/
theorem headers_overlay_baseline_witness :
    (executeWorkflow.headers Example.coze (some [("Authorization", "Bearer X")])).get
        "Authorization" = some "Bearer X" ∧
    (executeWorkflow.headers Example.coze (some [("Authorization", "Bearer X")])).get
        "Content-Type" = (executeWorkflow.baseline Example.coze).get "Content-Type" ∧
    ∀ r ∈ (executeWorkflow Example.env Example.coze
        { Parameters := none,
          Headers := some "\x7b\"Authorization\":\"Bearer X\"\x7d" }).dispatched,
      r.Header = executeWorkflow.headers Example.coze (some [("Authorization", "Bearer X")]) :=
  have h := headers_overlay_baseline Example.env Example.coze
    { Parameters := none, Headers := some "\x7b\"Authorization\":\"Bearer X\"\x7d" }
    (some [("Authorization", "Bearer X")]) rfl (by decide)
  ⟨h.2.2.1 "Authorization" "Bearer X" rfl, h.2.2.2.1 "Content-Type" rfl, h.2.2.2.2.1⟩

/-! ## The returned record -/

/-- C5. A run of `executeWorkflow` that returns a record handed exactly one request to the
transport, built from the method and URL of the descriptor, the final headers (the baseline
overlaid with the resolved custom headers) and the marshalled form of the shaped body; the
record's request part is that method, URL, headers and body, and its
response part is the status code of the response, the status text of that code, the first
value of every response header that has a value, and the decoded body, or the body as a
string when it does not decode. -/
theorem record_echoes_exchange (env : Env) (workflow : Workflow)
    (req : ExecuteWorkflowRequest) (res : ExecuteWorkflowResponse)
    (h : (executeWorkflow env workflow req).out = .ok res) :
    ∃ (headers : Entries String) (body : GoMap GoValue) (bodyBytes : String)
      (httpResp : HttpResponse) (respBody : String),
      (∃ p, executeWorkflow.parameters env workflow req = .ok p ∧
        executeWorkflow.requestBody workflow p = some body) ∧
      (∃ c, executeWorkflow.customHeaders env workflow req = .ok c ∧
        headers = executeWorkflow.headers workflow c) ∧
      env.jsonMarshal body = .ok bodyBytes ∧
      (executeWorkflow env workflow req).dispatched =
        [{ Method := workflow.HTTPMethod, URL := workflow.BaseURL, Header := headers,
           Body := bodyBytes }] ∧
      env.clientDo { Method := workflow.HTTPMethod, URL := workflow.BaseURL, Header := headers,
                     Body := bodyBytes } = .ok httpResp ∧
      httpResp.Body = .ok respBody ∧
      res.Request = { Method := workflow.HTTPMethod, URL := workflow.BaseURL,
                      Headers := some headers, Body := body } ∧
      res.Response.Status = httpResp.StatusCode ∧
      res.Response.StatusText = env.statusText httpResp.StatusCode ∧
      (∃ respHeaders, res.Response.Headers = some respHeaders ∧
        (httpResp.Header.keys.Nodup → ∀ k,
          respHeaders.get k =
            match httpResp.Header.get k with
            | some (v0 :: _) => some v0
            | _ => none)) ∧
      res.Response.Body =
        match env.jsonUnmarshal respBody with
        | .ok v => v
        | .error _ => .string respBody := by
  obtain ⟨st, httpResp, respBody, hdo, hbody, hdisp, hres⟩ := executeWorkflow_ok h
  refine ⟨executeWorkflow.headers workflow st.customHeaders, st.requestBody, st.bodyBytes,
    httpResp, respBody, ⟨st.parameters, st.hparameters, st.hrequestBody⟩,
    ⟨st.customHeaders, st.hcustomHeaders, rfl⟩, st.hbodyBytes, hdisp, hdo, hbody,
    ?_, ?_, ?_, ?_, ?_⟩
  · rw [hres]
  · rw [hres]
  · rw [hres]
  · refine ⟨executeWorkflow.respHeaders httpResp.Header, by rw [hres], ?_⟩
    intro hn k
    exact executeWorkflow.get_respHeaders httpResp.Header k hn
  · rw [hres]
    rfl

/-- C5, on the n8n example: the run returns the record `Example.busyRecord`, whose request
part is what was handed to the transport and whose response part is the 503 answer. -/
theorem record_echoes_exchange_witness :
    (executeWorkflow Example.env Example.n8n Example.noOverride).out =
      .ok Example.busyRecord ∧
    ∃ (headers : Entries String) (body : GoMap GoValue) (bodyBytes : String)
      (httpResp : HttpResponse) (respBody : String),
      (∃ p, executeWorkflow.parameters Example.env Example.n8n Example.noOverride = .ok p ∧
        executeWorkflow.requestBody Example.n8n p = some body) ∧
      (∃ c, executeWorkflow.customHeaders Example.env Example.n8n Example.noOverride = .ok c ∧
        headers = executeWorkflow.headers Example.n8n c) ∧
      Example.env.jsonMarshal body = .ok bodyBytes ∧
      (executeWorkflow Example.env Example.n8n Example.noOverride).dispatched =
        [{ Method := Example.n8n.HTTPMethod, URL := Example.n8n.BaseURL, Header := headers,
           Body := bodyBytes }] ∧
      Example.env.clientDo
        { Method := Example.n8n.HTTPMethod, URL := Example.n8n.BaseURL, Header := headers,
          Body := bodyBytes } = .ok httpResp ∧
      httpResp.Body = .ok respBody ∧
      Example.busyRecord.Request =
        { Method := Example.n8n.HTTPMethod, URL := Example.n8n.BaseURL,
          Headers := some headers, Body := body } ∧
      Example.busyRecord.Response.Status = httpResp.StatusCode ∧
      Example.busyRecord.Response.StatusText = Example.env.statusText httpResp.StatusCode ∧
      (∃ respHeaders, Example.busyRecord.Response.Headers = some respHeaders ∧
        (httpResp.Header.keys.Nodup → ∀ k,
          respHeaders.get k =
            match httpResp.Header.get k with
            | some (v0 :: _) => some v0
            | _ => none)) ∧
      Example.busyRecord.Response.Body =
        match Example.env.jsonUnmarshal respBody with
        | .ok v => v
        | .error _ => .string respBody :=
  ⟨rfl, record_echoes_exchange Example.env Example.n8n Example.noOverride
    Example.busyRecord rfl⟩

/-! ## Upstream answers are results -/

/-- C6. Once the parameters and the headers are resolved and the request is built (body
shaped and marshalled, `http.NewRequest` passed), a response of the transport whose body is
read makes `executeWorkflow` return a record, whatever the status code and the body: the
record has the status code of the response and the decoded body, or the body as a string
when it does not decode. And when the parameters and headers are resolved and the body is
shaped and marshalled, an error of `executeWorkflow` is the error of `http.NewRequest`, of
`client.Do` or of reading the response body. -/
theorem upstream_answer_is_result (env : Env) (workflow : Workflow)
    (req : ExecuteWorkflowRequest) (parameters requestBody : GoMap GoValue)
    (customHeaders : GoMap String) (bodyBytes : String)
    (hp : executeWorkflow.parameters env workflow req = .ok parameters)
    (hb : executeWorkflow.requestBody workflow parameters = some requestBody)
    (hc : executeWorkflow.customHeaders env workflow req = .ok customHeaders)
    (hm : env.jsonMarshal requestBody = .ok bodyBytes) :
    (∀ (httpResp : HttpResponse) (respBody : String),
      env.newRequest workflow.HTTPMethod workflow.BaseURL = none →
      env.clientDo
        { Method := workflow.HTTPMethod, URL := workflow.BaseURL,
          Header := executeWorkflow.headers workflow customHeaders, Body := bodyBytes } =
        .ok httpResp →
      httpResp.Body = .ok respBody →
      ∃ res, (executeWorkflow env workflow req).out = .ok res ∧
        res.Response.Status = httpResp.StatusCode ∧
        (∀ v, env.jsonUnmarshal respBody = .ok v → res.Response.Body = v) ∧
        (∀ e, env.jsonUnmarshal respBody = .error e →
          res.Response.Body = .string respBody)) ∧
    (∀ e, (executeWorkflow env workflow req).out = .err e →
      env.newRequest workflow.HTTPMethod workflow.BaseURL = some e ∨
      env.clientDo
        { Method := workflow.HTTPMethod, URL := workflow.BaseURL,
          Header := executeWorkflow.headers workflow customHeaders, Body := bodyBytes } =
        .error e ∨
      ∃ httpResp,
        env.clientDo
          { Method := workflow.HTTPMethod, URL := workflow.BaseURL,
            Header := executeWorkflow.headers workflow customHeaders, Body := bodyBytes } =
          .ok httpResp ∧
        httpResp.Body = .error e) := by
  constructor
  · intro httpResp respBody hn hd hr
    have hrun := executeWorkflow_of_stages
      (⟨parameters, requestBody, customHeaders, bodyBytes, hp, hb, hc, hm, hn⟩ :
        ExecStages env workflow req)
    simp only [ExecStages.httpReq, hd, hr] at hrun
    refine ⟨_, by rw [hrun], rfl, ?_, ?_⟩
    · intro v hv
      simp [executeWorkflow.respBodyJSON, hv]
    · intro e he
      simp [executeWorkflow.respBodyJSON, he]
  · intro e he
    cases hn : env.newRequest workflow.HTTPMethod workflow.BaseURL with
    | some e' =>
      left
      unfold executeWorkflow at he
      simp only [hp, hb, hc, hm, hn] at he
      injection he with he
      rw [he]
    | none =>
      right
      have hrun := executeWorkflow_of_stages
        (⟨parameters, requestBody, customHeaders, bodyBytes, hp, hb, hc, hm, hn⟩ :
          ExecStages env workflow req)
      simp only [ExecStages.httpReq] at hrun
      rw [hrun] at he
      cases hd : env.clientDo
          { Method := workflow.HTTPMethod, URL := workflow.BaseURL,
            Header := executeWorkflow.headers workflow customHeaders, Body := bodyBytes } with
      | error e' =>
        left
        simp only [hd] at he
        injection he with he
        rw [he]
      | ok httpResp =>
        right
        refine ⟨httpResp, rfl, ?_⟩
        simp only [hd] at he
        cases hr : httpResp.Body with
        | error e' =>
          simp only [hr] at he
          injection he with he
          rw [he]
        | ok respBody =>
          simp only [hr] at he
          cases he

/-- C6, on the n8n example: the transport answers 503 with the body `busy`, which is not
JSON, and the run returns a record with status 503 and the body as a string. -/
theorem upstream_answer_is_result_witness :
    ∃ res, (executeWorkflow Example.env Example.n8n Example.noOverride).out = .ok res ∧
      res.Response.Status = 503 ∧
      (∀ v, Example.env.jsonUnmarshal "busy" = .ok v → res.Response.Body = v) ∧
      (∀ e, Example.env.jsonUnmarshal "busy" = .error e →
        res.Response.Body = .string "busy") :=
  (upstream_answer_is_result Example.env Example.n8n Example.noOverride
    (some [("a", .float64 1)])
    (some [("a", .float64 1), ("workflow_id", .string "wf-1")])
    (some [("X-Team", "ops")]) "body" rfl rfl rfl rfl).1
    { StatusCode := 503, Header := [("Retry-After", ["5", "9"]), ("X-Empty", [])],
      Body := .ok "busy" } "busy" rfl rfl rfl

/-! ## The execute handler -/

theorem any_membership_iff (store : Store) (actor project : String) :
    store.user_projects.any (fun r => r.user_did = actor ∧ r.project_id = project) = true ↔
      store.hasMembership actor project := by
  simp [Store.hasMembership]

theorem any_admin_iff (store : Store) (actor project : String) :
    store.user_projects.any
        (fun r => r.user_did = actor ∧ r.project_id = project ∧ r.role = "admin") = true ↔
      store.hasAdminMembership actor project := by
  simp [Store.hasAdminMembership]

/-- The execute handler, once the actor is authenticated, the request is well formed, the
workflow is found and the membership lookup is answered: a 403 response, or the response
made of a run of `executeWorkflow`. -/
theorem ExecuteWorkflow.execute_handler_of_lookups (env : Env) (database : Database)
    (request : APIGatewayProxyRequest) (claims : Claims) (req : ExecuteWorkflowRequest)
    (workflow : Workflow)
    (hauth : authenticate env request = .ok claims)
    (hid : request.PathParameters.index "id" ≠ "")
    (hreq : env.unmarshalExecuteWorkflowRequest request.Body = .ok req)
    (hselect : database.faults (.query ExecuteWorkflow.getWorkflow.query
      [.text (request.PathParameters.index "id")]) = none)
    (hw : database.store.workflows.find?
      (fun w => w.WorkflowID = request.PathParameters.index "id") = some workflow)
    (hlookup : database.faults (.query db.CheckProjectAccess.query
      [.text claims.DID, .text workflow.ProjectID]) = none) :
    ExecuteWorkflow.handler env database request =
      if (!database.store.user_projects.any
            (fun r => r.user_did = claims.DID ∧ r.project_id = workflow.ProjectID) &&
          !workflow.IsShared) = true then
        HandlerRun.answer
          ((database.record (.query ExecuteWorkflow.getWorkflow.query
              [.text (request.PathParameters.index "id")])).record
            (.query db.CheckProjectAccess.query [.text claims.DID, .text workflow.ProjectID]))
          (response.Forbidden "Access denied to this workflow")
      else
        ExecuteWorkflow.respond
          ((database.record (.query ExecuteWorkflow.getWorkflow.query
              [.text (request.PathParameters.index "id")])).record
            (.query db.CheckProjectAccess.query [.text claims.DID, .text workflow.ProjectID]))
          (executeWorkflow env workflow req) := by
  unfold ExecuteWorkflow.handler
  simp only [hauth, hid, hreq, if_false, ExecuteWorkflow.getWorkflow, hselect, hw,
    db.CheckProjectAccess, Database.record, hlookup]

/-- A response made of a run of `executeWorkflow` is never the 403 response. -/
theorem ExecuteWorkflow.respond_ne_forbidden (database database' : Database) (run : ExecRun)
    (message : String) :
    ExecuteWorkflow.respond database run ≠
      HandlerRun.answer database' (response.Forbidden message) := by
  intro h
  have hout := congrArg HandlerRun.out h
  simp only [ExecuteWorkflow.respond, HandlerRun.answer] at hout
  cases hr : run.out with
  | ok result =>
    rw [hr] at hout
    simp only [Outcome.ok.injEq] at hout
    have hcode := congrArg APIGatewayProxyResponse.StatusCode hout
    simp [response.Success, response.Forbidden, response.Error] at hcode
  | err e =>
    rw [hr] at hout
    simp only [Outcome.ok.injEq] at hout
    have hcode := congrArg APIGatewayProxyResponse.StatusCode hout
    simp [response.InternalError, response.Forbidden, response.Error] at hcode
  | panic msg =>
    rw [hr] at hout
    simp at hout

/-- A type error of `stringEntries` is the type error of a member of the map. -/
theorem stringEntries_error (env : Env) (m : Entries GoValue) (e : String)
    (h : stringEntries env m = .error e) :
    ∃ k u, (k, u) ∈ m ∧ e = env.unmarshalTypeError u "string" k := by
  induction m with
  | nil => simp [stringEntries] at h
  | cons kv rest ih =>
    obtain ⟨k, v⟩ := kv
    cases v with
    | string s =>
      unfold stringEntries at h
      cases hr : stringEntries env rest with
      | ok es => rw [hr] at h; cases h
      | error e' =>
        rw [hr] at h
        injection h with h
        obtain ⟨k', u, hmem, he⟩ := ih (by rw [hr, h])
        exact ⟨k', u, List.mem_cons_of_mem _ hmem, he⟩
    | nil =>
      unfold stringEntries at h
      cases hr : stringEntries env rest with
      | ok es => rw [hr] at h; cases h
      | error e' =>
        rw [hr] at h
        injection h with h
        obtain ⟨k', u, hmem, he⟩ := ih (by rw [hr, h])
        exact ⟨k', u, List.mem_cons_of_mem _ hmem, he⟩
    | bool b =>
      unfold stringEntries at h
      injection h with h
      exact ⟨k, _, List.mem_cons_self _ _, h.symm⟩
    | float64 x =>
      unfold stringEntries at h
      injection h with h
      exact ⟨k, _, List.mem_cons_self _ _, h.symm⟩
    | slice xs =>
      unfold stringEntries at h
      injection h with h
      exact ⟨k, _, List.mem_cons_self _ _, h.symm⟩
    | map m' =>
      unfold stringEntries at h
      injection h with h
      exact ⟨k, _, List.mem_cons_self _ _, h.symm⟩
    | nilMap =>
      unfold stringEntries at h
      injection h with h
      exact ⟨k, _, List.mem_cons_self _ _, h.symm⟩

/-- The example decoder of execute requests fills the raw messages with JSON texts. -/
theorem Example.env_rawMessagesValid : Example.env.rawMessagesValid := by
  intro body req h
  simp only [Example.env] at h
  split at h
  · cases h
  · split at h
    · injection h with h
      subst h
      refine ⟨fun raw hr => ?_, fun raw hr => by cases hr⟩
      injection hr with hr
      subst hr
      exact ⟨_, rfl⟩
    · split at h
      · injection h with h
        subst h
        refine ⟨fun raw hr => (by cases hr), fun raw hr => ?_⟩
        injection hr with hr
        subst hr
        exact ⟨_, rfl⟩
      · injection h with h
        subst h
        exact ⟨fun raw hr => (by cases hr), fun raw hr => (by cases hr)⟩

/-- C7, as stated, fails: alice executes the descriptor `w1` of her project with the body
`\x7b"parameters":[1]\x7d`; the override `[1]` is valid JSON but not an object, so it does
not decode into the parameters map; nothing is handed to the transport, and the handler
answers 500 with the text of the type error, not 400. -/
theorem malformed_override_answers_500 :
    Example.env.jsonUnmarshal "[1]" = .ok (.slice [.float64 1]) ∧
    executeWorkflow.parameters Example.env Example.coze
        { Parameters := some "[1]", Headers := none } =
      .error "json: cannot unmarshal array into Go value of type map[string]interface {}" ∧
    (ExecuteWorkflow.handler Example.env Example.database
        (Example.request "alice" "w1" "\x7b\"parameters\":[1]\x7d")).out =
      .ok (response.Error 500
        "Failed to execute workflow: json: cannot unmarshal array into Go value of type map[string]interface {}") ∧
    (500 : Int) ≠ 400 ∧
    (ExecuteWorkflow.handler Example.env Example.database
        (Example.request "alice" "w1" "\x7b\"parameters\":[1]\x7d")).dispatched = [] := by
  refine ⟨rfl, rfl, rfl, by decide, rfl⟩

/-- C7, amended. In the execute operation of an authenticated actor on a workflow id: a body
that does not decode, which is what a body with an override that is not valid JSON is, is
answered 400 `Invalid request body` without a call on the store or the transport. When the
body decodes and the actor may execute the workflow, and the source used for the parameters
(the caller's override if supplied, otherwise the stored default) does not decode into a
map, or the parameters are resolved and the body shaped and the source used for the headers
does not decode into a map of strings, `executeWorkflow` returns the decoding error and
hands nothing to the transport, and the handler answers 500 with the message
`Failed to execute workflow: ` followed by the text of the error. A caller's override that
fails so is valid JSON of another shape: its error is a type error. -/
theorem decode_failure_answers_500 (env : Env) (database : Database)
    (request : APIGatewayProxyRequest) (claims : Claims)
    (hlaw : env.rawMessagesValid)
    (hauth : authenticate env request = .ok claims)
    (hid : request.PathParameters.index "id" ≠ "") :
    (∀ e, env.unmarshalExecuteWorkflowRequest request.Body = .error e →
      ExecuteWorkflow.handler env database request =
        HandlerRun.answer database (response.Error 400 "Invalid request body")) ∧
    (∀ (req : ExecuteWorkflowRequest) (workflow : Workflow) (e : String),
      env.unmarshalExecuteWorkflowRequest request.Body = .ok req →
      database.faults (.query ExecuteWorkflow.getWorkflow.query
        [.text (request.PathParameters.index "id")]) = none →
      database.store.workflows.find?
        (fun w => w.WorkflowID = request.PathParameters.index "id") = some workflow →
      database.faults (.query db.CheckProjectAccess.query
        [.text claims.DID, .text workflow.ProjectID]) = none →
      (database.store.hasMembership claims.DID workflow.ProjectID ∨
        workflow.IsShared = true) →
      (executeWorkflow.parameters env workflow req = .error e ∨
        ∃ p body, executeWorkflow.parameters env workflow req = .ok p ∧
          executeWorkflow.requestBody workflow p = some body ∧
          executeWorkflow.customHeaders env workflow req = .error e) →
      ((executeWorkflow env workflow req).out = .err e ∧
        (executeWorkflow env workflow req).dispatched = [] ∧
        (ExecuteWorkflow.handler env database request).out =
          .ok (response.Error 500 ("Failed to execute workflow: " ++ e)) ∧
        (ExecuteWorkflow.handler env database request).dispatched = [] ∧
        (ExecuteWorkflow.handler env database request).database.store = database.store) ∧
      (req.Parameters.len > 0 →
        executeWorkflow.parameters env workflow req = .error e →
        ∃ v, env.jsonUnmarshal req.Parameters.bytes = .ok v ∧
          e = env.unmarshalTypeError v "map[string]interface {}" "") ∧
      (req.Headers.len > 0 →
        executeWorkflow.customHeaders env workflow req = .error e →
        ∃ v, env.jsonUnmarshal req.Headers.bytes = .ok v ∧
          (e = env.unmarshalTypeError v "map[string]string" "" ∨
            ∃ m k u, v = .map m ∧ (k, u) ∈ m ∧
              e = env.unmarshalTypeError u "string" k))) := by
  have hnone : ∀ r : RawMessage, r.len > 0 → r ≠ none := by
    intro r hr h
    subst h
    exact absurd hr (by decide)
  constructor
  · intro e he
    unfold ExecuteWorkflow.handler
    simp only [hauth, hid, if_false, he]
    rfl
  · intro req workflow e hreq hselect hw hlookup hallowed hfail
    refine ⟨?_, ?_, ?_⟩
    · have hrun : executeWorkflow env workflow req = ⟨[], .err e⟩ := by
        rcases hfail with hp | ⟨p, body, hp, hb, hc⟩
        · unfold executeWorkflow
          simp only [hp]
        · unfold executeWorkflow
          simp only [hp, hb, hc]
      have hcond : (!database.store.user_projects.any
            (fun r => r.user_did = claims.DID ∧ r.project_id = workflow.ProjectID) &&
          !workflow.IsShared) = false := by
        rcases hallowed with hm | hs
        · rw [(any_membership_iff _ _ _).2 hm]
          rfl
        · rw [hs]
          simp
      have hh := ExecuteWorkflow.execute_handler_of_lookups env database request claims req
        workflow hauth hid hreq hselect hw hlookup
      rw [hcond] at hh
      simp only [Bool.false_eq_true, if_false] at hh
      rw [hh, hrun]
      exact ⟨rfl, rfl, rfl, rfl, rfl⟩
    · intro hlen hp
      cases hraw : req.Parameters with
      | none => exact absurd hraw (hnone _ hlen)
      | some raw =>
        obtain ⟨v, hv⟩ := (hlaw _ req hreq).1 raw hraw
        have hbytes : req.Parameters.bytes = raw := by rw [hraw]; rfl
        refine ⟨v, hv, ?_⟩
        unfold executeWorkflow.parameters at hp
        rw [if_pos ⟨hnone _ hlen, hlen⟩, hbytes] at hp
        unfold unmarshalMap at hp
        rw [hv] at hp
        cases v <;> simp at hp <;> exact hp.symm
    · intro hlen hc
      cases hraw : req.Headers with
      | none => exact absurd hraw (hnone _ hlen)
      | some raw =>
        obtain ⟨v, hv⟩ := (hlaw _ req hreq).2 raw hraw
        have hbytes : req.Headers.bytes = raw := by rw [hraw]; rfl
        refine ⟨v, hv, ?_⟩
        unfold executeWorkflow.customHeaders at hc
        rw [if_pos ⟨hnone _ hlen, hlen⟩, hbytes] at hc
        unfold unmarshalStringMap at hc
        rw [hv] at hc
        cases v with
        | map m =>
          right
          simp only at hc
          cases hs : stringEntries env m with
          | ok es => rw [hs] at hc; cases hc
          | error e' =>
            rw [hs] at hc
            injection hc with hc
            obtain ⟨k, u, hmem, he⟩ := stringEntries_error env m e' hs
            exact ⟨m, k, u, rfl, hmem, by rw [← hc, he]⟩
        | nil => simp at hc
        | bool b => left; simp at hc; exact hc.symm
        | float64 x => left; simp at hc; exact hc.symm
        | string x => left; simp at hc; exact hc.symm
        | slice xs => left; simp at hc; exact hc.symm
        | nilMap => left; simp at hc; exact hc.symm

/-- C7, amended, on examples: alice's empty body is answered 400; her override `[1]` as
parameters and her override `\x7b"X-Retries":3\x7d` as headers on the descriptor `w1` are
answered 500 with the text of the type error, and nothing is handed to the transport. -/
theorem decode_failure_answers_500_witness :
    ExecuteWorkflow.handler Example.env Example.database (Example.request "alice" "w1" "") =
      HandlerRun.answer Example.database (response.Error 400 "Invalid request body") ∧
    ((ExecuteWorkflow.handler Example.env Example.database
        (Example.request "alice" "w1" "\x7b\"parameters\":[1]\x7d")).out =
      .ok (response.Error 500 ("Failed to execute workflow: " ++
        "json: cannot unmarshal array into Go value of type map[string]interface {}")) ∧
      (ExecuteWorkflow.handler Example.env Example.database
        (Example.request "alice" "w1" "\x7b\"parameters\":[1]\x7d")).dispatched = []) ∧
    ((ExecuteWorkflow.handler Example.env Example.database
        (Example.request "alice" "w1" "\x7b\"headers\":\x7b\"X-Retries\":3\x7d\x7d")).out =
      .ok (response.Error 500 ("Failed to execute workflow: " ++
        "json: cannot unmarshal number into Go struct field .X-Retries of type string")) ∧
      (ExecuteWorkflow.handler Example.env Example.database
        (Example.request "alice" "w1"
          "\x7b\"headers\":\x7b\"X-Retries\":3\x7d\x7d")).dispatched = []) :=
  have hparams := ((decode_failure_answers_500 Example.env Example.database
    (Example.request "alice" "w1" "\x7b\"parameters\":[1]\x7d")
    { DID := "did:alice", Username := "alice" } Example.env_rawMessagesValid rfl
    (by decide)).2 { Parameters := some "[1]", Headers := none } Example.coze
    "json: cannot unmarshal array into Go value of type map[string]interface {}"
    rfl rfl rfl rfl (Or.inl (by decide)) (Or.inl rfl)).1
  have hheaders := ((decode_failure_answers_500 Example.env Example.database
    (Example.request "alice" "w1" "\x7b\"headers\":\x7b\"X-Retries\":3\x7d\x7d")
    { DID := "did:alice", Username := "alice" } Example.env_rawMessagesValid rfl
    (by decide)).2 { Parameters := none, Headers := some "\x7b\"X-Retries\":3\x7d" }
    Example.coze
    "json: cannot unmarshal number into Go struct field .X-Retries of type string"
    rfl rfl rfl rfl (Or.inl (by decide)) (Or.inr ⟨_, _, rfl, rfl, rfl⟩)).1
  ⟨(decode_failure_answers_500 Example.env Example.database
      (Example.request "alice" "w1" "") { DID := "did:alice", Username := "alice" }
      Example.env_rawMessagesValid rfl (by decide)).1 _ rfl,
   ⟨hparams.2.2.1, hparams.2.2.2.1⟩, ⟨hheaders.2.2.1, hheaders.2.2.2.1⟩⟩

/-- C8. For an authenticated actor and an existing workflow whose membership lookup is
answered, the execute handler goes on to `executeWorkflow` (its run is the response made of
the run of `executeWorkflow` on the workflow) if and only if the actor has a membership row
in the workflow's project or the workflow is shared; otherwise it answers 403 and hands
nothing to the transport. In particular a shared workflow is executed whatever the
membership rows and the settings rows are. -/
theorem execute_iff_member_or_shared (env : Env) (database : Database)
    (request : APIGatewayProxyRequest) (claims : Claims) (req : ExecuteWorkflowRequest)
    (workflow : Workflow)
    (hauth : authenticate env request = .ok claims)
    (hid : request.PathParameters.index "id" ≠ "")
    (hreq : env.unmarshalExecuteWorkflowRequest request.Body = .ok req)
    (hselect : database.faults (.query ExecuteWorkflow.getWorkflow.query
      [.text (request.PathParameters.index "id")]) = none)
    (hw : database.store.workflows.find?
      (fun w => w.WorkflowID = request.PathParameters.index "id") = some workflow)
    (hlookup : database.faults (.query db.CheckProjectAccess.query
      [.text claims.DID, .text workflow.ProjectID]) = none) :
    (ExecuteWorkflow.handler env database request =
        ExecuteWorkflow.respond
          ((database.record (.query ExecuteWorkflow.getWorkflow.query
              [.text (request.PathParameters.index "id")])).record
            (.query db.CheckProjectAccess.query [.text claims.DID, .text workflow.ProjectID]))
          (executeWorkflow env workflow req) ↔
      database.store.hasMembership claims.DID workflow.ProjectID ∨
        workflow.IsShared = true) ∧
    (¬ (database.store.hasMembership claims.DID workflow.ProjectID ∨
        workflow.IsShared = true) →
      (ExecuteWorkflow.handler env database request).out =
        .ok (response.Error 403 "Access denied to this workflow") ∧
      (ExecuteWorkflow.handler env database request).dispatched = []) ∧
    (workflow.IsShared = true →
      ExecuteWorkflow.handler env database request =
        ExecuteWorkflow.respond
          ((database.record (.query ExecuteWorkflow.getWorkflow.query
              [.text (request.PathParameters.index "id")])).record
            (.query db.CheckProjectAccess.query [.text claims.DID, .text workflow.ProjectID]))
          (executeWorkflow env workflow req)) := by
  have hh := ExecuteWorkflow.execute_handler_of_lookups env database request claims req workflow
    hauth hid hreq hselect hw hlookup
  have hcond : (!database.store.user_projects.any
        (fun r => r.user_did = claims.DID ∧ r.project_id = workflow.ProjectID) &&
      !workflow.IsShared) = true ↔
      ¬ (database.store.hasMembership claims.DID workflow.ProjectID ∨
        workflow.IsShared = true) := by
    rw [← any_membership_iff]
    cases database.store.user_projects.any
      (fun r => r.user_did = claims.DID ∧ r.project_id = workflow.ProjectID) <;>
    cases workflow.IsShared <;> simp
  have hyes : (database.store.hasMembership claims.DID workflow.ProjectID ∨
      workflow.IsShared = true) →
      ExecuteWorkflow.handler env database request =
        ExecuteWorkflow.respond
          ((database.record (.query ExecuteWorkflow.getWorkflow.query
              [.text (request.PathParameters.index "id")])).record
            (.query db.CheckProjectAccess.query [.text claims.DID, .text workflow.ProjectID]))
          (executeWorkflow env workflow req) := by
    intro hallowed
    rw [hh, if_neg (fun hc => hcond.1 hc hallowed)]
  have hno : ¬ (database.store.hasMembership claims.DID workflow.ProjectID ∨
      workflow.IsShared = true) →
      ExecuteWorkflow.handler env database request =
        HandlerRun.answer
          ((database.record (.query ExecuteWorkflow.getWorkflow.query
              [.text (request.PathParameters.index "id")])).record
            (.query db.CheckProjectAccess.query [.text claims.DID, .text workflow.ProjectID]))
          (response.Forbidden "Access denied to this workflow") := by
    intro hdenied
    rw [hh, if_pos (hcond.2 hdenied)]
  refine ⟨⟨?_, hyes⟩, ?_, fun hs => hyes (Or.inr hs)⟩
  · intro hrun
    by_contra hdenied
    rw [hno hdenied] at hrun
    exact ExecuteWorkflow.respond_ne_forbidden _ _ _ _ hrun.symm
  · intro hdenied
    rw [hno hdenied]
    exact ⟨rfl, rfl⟩

/-- C8, on the example store: alice has no membership row in project `p2`; she executes its
shared descriptor `w3`, although project `p1` hides it, and is refused its descriptor `w4`,
which is not shared. -/
theorem execute_iff_member_or_shared_witness :
    ¬ Example.store.hasMembership "did:alice" "p2" ∧
    ExecuteWorkflow.handler Example.env Example.database (Example.request "alice" "w3" "x") =
      ExecuteWorkflow.respond
        ((Example.database.record (.query ExecuteWorkflow.getWorkflow.query [.text "w3"])).record
          (.query db.CheckProjectAccess.query [.text "did:alice", .text "p2"]))
        (executeWorkflow Example.env Example.shared Example.noOverride) ∧
    ((ExecuteWorkflow.handler Example.env Example.database
        (Example.request "alice" "w4" "x")).out =
        .ok (response.Error 403 "Access denied to this workflow") ∧
      (ExecuteWorkflow.handler Example.env Example.database
        (Example.request "alice" "w4" "x")).dispatched = []) :=
  ⟨by decide,
   (execute_iff_member_or_shared Example.env Example.database
      (Example.request "alice" "w3" "x") { DID := "did:alice", Username := "alice" }
      Example.noOverride Example.shared rfl (by decide) rfl rfl rfl rfl).2.2 rfl,
   (execute_iff_member_or_shared Example.env Example.database
      (Example.request "alice" "w4" "x") { DID := "did:alice", Username := "alice" }
      Example.noOverride Example.closed rfl (by decide) rfl rfl rfl rfl).2.1 (by decide)⟩

/-! ## The delete and update handlers -/

theorem calls_after_two (database : Database) (c1 c2 : DbCall) :
    ((database.record c1).record c2).calls.drop database.calls.length = [c1, c2] := by
  simp [Database.record]

theorem not_admin_and_not_creator_iff (store : Store) (actor project creator : String) :
    (!store.user_projects.any
        (fun r => r.user_did = actor ∧ r.project_id = project ∧ r.role = "admin") &&
      !decide (creator = actor)) = true ↔
    ¬ (store.hasAdminMembership actor project ∨ creator = actor) := by
  rw [← any_admin_iff]
  cases store.user_projects.any
    (fun r => r.user_did = actor ∧ r.project_id = project ∧ r.role = "admin") <;>
  by_cases h : creator = actor <;> simp [h]

/-- The delete handler, once the actor is authenticated, the workflow is found and the admin
lookup is answered: a 403 response after the two lookups, or the `DELETE`. -/
theorem DeleteWorkflow.delete_handler_of_lookups (env : Env) (database : Database)
    (request : APIGatewayProxyRequest) (claims : Claims) (workflow : Workflow)
    (hauth : authenticate env request = .ok claims)
    (hid : request.PathParameters.index "id" ≠ "")
    (hselect : database.faults (.query getWorkflowKeys.query
      [.text (request.PathParameters.index "id")]) = none)
    (hw : database.store.workflows.find?
      (fun w => w.WorkflowID = request.PathParameters.index "id") = some workflow)
    (hlookup : database.faults (.query db.CheckProjectAdmin.query
      [.text claims.DID, .text workflow.ProjectID]) = none) :
    DeleteWorkflow.handler env database request =
      if (!database.store.user_projects.any
            (fun r => r.user_did = claims.DID ∧ r.project_id = workflow.ProjectID ∧
              r.role = "admin") &&
          !decide (workflow.CreatorDID = claims.DID)) = true then
        HandlerRun.answer
          ((database.record (.query getWorkflowKeys.query
              [.text (request.PathParameters.index "id")])).record
            (.query db.CheckProjectAdmin.query [.text claims.DID, .text workflow.ProjectID]))
          (response.Forbidden "Only admin or creator can delete this workflow")
      else
        match DeleteWorkflow.deleteWorkflow
          ((database.record (.query getWorkflowKeys.query
              [.text (request.PathParameters.index "id")])).record
            (.query db.CheckProjectAdmin.query [.text claims.DID, .text workflow.ProjectID]))
          (request.PathParameters.index "id") with
        | (some _, database) =>
          HandlerRun.answer database (response.InternalError "Failed to delete workflow")
        | (none, database) =>
          HandlerRun.answer database
            (response.Success (.map [("message", .string "Workflow deleted successfully")])) := by
  unfold DeleteWorkflow.handler
  simp only [hauth, hid, if_false, getWorkflowKeys, hselect, hw, db.CheckProjectAdmin,
    Database.record, hlookup]

/-- The calls of the delete handler when it reaches the `DELETE`. -/
theorem DeleteWorkflow.calls_of_delete (database : Database) (c1 c2 : DbCall) (id : String) :
    (match DeleteWorkflow.deleteWorkflow ((database.record c1).record c2) id with
      | (some _, database) =>
        HandlerRun.answer database (response.InternalError "Failed to delete workflow")
      | (none, database) =>
        HandlerRun.answer database
          (response.Success
            (.map [("message", .string "Workflow deleted successfully")]))).calls database =
      [c1, c2, .exec DeleteWorkflow.deleteWorkflow.query [.text id]] := by
  unfold DeleteWorkflow.deleteWorkflow HandlerRun.calls
  cases hf : database.faults (.exec DeleteWorkflow.deleteWorkflow.query [.text id]) with
  | none => simp [hf, HandlerRun.answer, Database.record]
  | some e => simp [hf, HandlerRun.answer, Database.record]

/-- The update handler, once the actor is authenticated, the body is decoded, the workflow
is found, the admin lookup is answered and the actor is neither an admin of the project nor
the creator: the 403 response after the two lookups. -/
theorem UpdateWorkflow.update_handler_denied (env : Env) (database : Database)
    (request : APIGatewayProxyRequest) (claims : Claims) (req : UpdateWorkflowRequest)
    (workflow : Workflow)
    (hauth : authenticate env request = .ok claims)
    (hid : request.PathParameters.index "id" ≠ "")
    (hreq : env.unmarshalUpdateWorkflowRequest request.Body = .ok req)
    (hselect : database.faults (.query getWorkflowKeys.query
      [.text (request.PathParameters.index "id")]) = none)
    (hw : database.store.workflows.find?
      (fun w => w.WorkflowID = request.PathParameters.index "id") = some workflow)
    (hlookup : database.faults (.query db.CheckProjectAdmin.query
      [.text claims.DID, .text workflow.ProjectID]) = none)
    (hdenied : ¬ (database.store.hasAdminMembership claims.DID workflow.ProjectID ∨
      workflow.CreatorDID = claims.DID)) :
    UpdateWorkflow.handler env database request =
      HandlerRun.answer
        ((database.record (.query getWorkflowKeys.query
            [.text (request.PathParameters.index "id")])).record
          (.query db.CheckProjectAdmin.query [.text claims.DID, .text workflow.ProjectID]))
        (response.Forbidden "Only admin or creator can update this workflow") := by
  have hcond := (not_admin_and_not_creator_iff database.store claims.DID workflow.ProjectID
    workflow.CreatorDID).2 hdenied
  unfold UpdateWorkflow.handler
  simp only [hauth, hid, hreq, if_false, getWorkflowKeys, hselect, hw, db.CheckProjectAdmin,
    Database.record, hlookup, hcond, if_true]

/-- C9. For an authenticated actor and an existing workflow whose admin lookup is answered,
the delete handler issues its `DELETE` exactly when the actor is an admin of the workflow's
project or its creator, and the update handler issues a statement through `Exec` only then;
when the actor is neither, each handler answers 403 after the two lookups, issues nothing
through `Exec`, and leaves the store as it was. -/
theorem mutation_only_by_admin_or_creator (env : Env) (database : Database)
    (request : APIGatewayProxyRequest) (claims : Claims) (workflow : Workflow)
    (hauth : authenticate env request = .ok claims)
    (hid : request.PathParameters.index "id" ≠ "")
    (hselect : database.faults (.query getWorkflowKeys.query
      [.text (request.PathParameters.index "id")]) = none)
    (hw : database.store.workflows.find?
      (fun w => w.WorkflowID = request.PathParameters.index "id") = some workflow)
    (hlookup : database.faults (.query db.CheckProjectAdmin.query
      [.text claims.DID, .text workflow.ProjectID]) = none) :
    ((DbCall.exec DeleteWorkflow.deleteWorkflow.query
          [.text (request.PathParameters.index "id")] ∈
        (DeleteWorkflow.handler env database request).calls database ↔
        (database.store.hasAdminMembership claims.DID workflow.ProjectID ∨
          workflow.CreatorDID = claims.DID)) ∧
      (∀ c ∈ (DeleteWorkflow.handler env database request).calls database,
        c.isExec = true →
          (database.store.hasAdminMembership claims.DID workflow.ProjectID ∨
            workflow.CreatorDID = claims.DID)) ∧
      (¬ (database.store.hasAdminMembership claims.DID workflow.ProjectID ∨
          workflow.CreatorDID = claims.DID) →
        (DeleteWorkflow.handler env database request).out =
          .ok (response.Error 403 "Only admin or creator can delete this workflow") ∧
        (DeleteWorkflow.handler env database request).database.store = database.store ∧
        ∀ c ∈ (DeleteWorkflow.handler env database request).calls database,
          c.isExec = false)) ∧
    (∀ req, env.unmarshalUpdateWorkflowRequest request.Body = .ok req →
      (∀ c ∈ (UpdateWorkflow.handler env database request).calls database,
        c.isExec = true →
          (database.store.hasAdminMembership claims.DID workflow.ProjectID ∨
            workflow.CreatorDID = claims.DID)) ∧
      (¬ (database.store.hasAdminMembership claims.DID workflow.ProjectID ∨
          workflow.CreatorDID = claims.DID) →
        (UpdateWorkflow.handler env database request).out =
          .ok (response.Error 403 "Only admin or creator can update this workflow") ∧
        (UpdateWorkflow.handler env database request).database.store = database.store ∧
        ∀ c ∈ (UpdateWorkflow.handler env database request).calls database,
          c.isExec = false)) := by
  have hd := DeleteWorkflow.delete_handler_of_lookups env database request claims workflow
    hauth hid hselect hw hlookup
  have hcond := not_admin_and_not_creator_iff database.store claims.DID workflow.ProjectID
    workflow.CreatorDID
  have hqueries : ∀ c ∈ [DbCall.query getWorkflowKeys.query
        [.text (request.PathParameters.index "id")],
      DbCall.query db.CheckProjectAdmin.query [.text claims.DID, .text workflow.ProjectID]],
      c.isExec = false := by
    intro c hc
    simp only [List.mem_cons, List.mem_singleton, List.not_mem_nil, or_false] at hc
    rcases hc with hc | hc <;> rw [hc] <;> rfl
  have hdel_no : ¬ (database.store.hasAdminMembership claims.DID workflow.ProjectID ∨
      workflow.CreatorDID = claims.DID) →
      (DeleteWorkflow.handler env database request).out =
        .ok (response.Error 403 "Only admin or creator can delete this workflow") ∧
      (DeleteWorkflow.handler env database request).database.store = database.store ∧
      ∀ c ∈ (DeleteWorkflow.handler env database request).calls database,
        c.isExec = false := by
    intro hdenied
    rw [hd, if_pos (hcond.2 hdenied)]
    refine ⟨rfl, rfl, ?_⟩
    intro c hc
    unfold HandlerRun.calls HandlerRun.answer at hc
    rw [calls_after_two] at hc
    exact hqueries c hc
  have hdel_yes : (database.store.hasAdminMembership claims.DID workflow.ProjectID ∨
      workflow.CreatorDID = claims.DID) →
      (DeleteWorkflow.handler env database request).calls database =
        [.query getWorkflowKeys.query [.text (request.PathParameters.index "id")],
         .query db.CheckProjectAdmin.query [.text claims.DID, .text workflow.ProjectID],
         .exec DeleteWorkflow.deleteWorkflow.query
           [.text (request.PathParameters.index "id")]] := by
    intro hallowed
    rw [hd, if_neg (fun hc => hcond.1 hc hallowed)]
    exact DeleteWorkflow.calls_of_delete database _ _ _
  have hdel_only : ∀ c ∈ (DeleteWorkflow.handler env database request).calls database,
      c.isExec = true →
        (database.store.hasAdminMembership claims.DID workflow.ProjectID ∨
          workflow.CreatorDID = claims.DID) := by
    intro c hc hexec
    by_contra hdenied
    rw [(hdel_no hdenied).2.2 c hc] at hexec
    exact Bool.noConfusion hexec
  refine ⟨⟨⟨fun hmem => hdel_only _ hmem rfl, fun hallowed => ?_⟩, hdel_only, hdel_no⟩, ?_⟩
  · rw [hdel_yes hallowed]
    simp
  · intro req hreq
    have hupd_no : ¬ (database.store.hasAdminMembership claims.DID workflow.ProjectID ∨
        workflow.CreatorDID = claims.DID) →
        (UpdateWorkflow.handler env database request).out =
          .ok (response.Error 403 "Only admin or creator can update this workflow") ∧
        (UpdateWorkflow.handler env database request).database.store = database.store ∧
        ∀ c ∈ (UpdateWorkflow.handler env database request).calls database,
          c.isExec = false := by
      intro hdenied
      rw [UpdateWorkflow.update_handler_denied env database request claims req workflow
        hauth hid hreq hselect hw hlookup hdenied]
      refine ⟨rfl, rfl, ?_⟩
      intro c hc
      unfold HandlerRun.calls HandlerRun.answer at hc
      rw [calls_after_two] at hc
      exact hqueries c hc
    refine ⟨?_, hupd_no⟩
    intro c hc hexec
    by_contra hdenied
    rw [(hupd_no hdenied).2.2 c hc] at hexec
    exact Bool.noConfusion hexec

/-- C9, on the example store: alice is a plain member of project `p1` and did not create the
descriptor `w1`; her delete and her update are answered 403 and leave the store as it was,
while the delete of carol, an admin of `p1`, is issued and removes the row. -/
theorem mutation_only_by_admin_or_creator_witness :
    ((DeleteWorkflow.handler Example.env Example.database
        (Example.request "alice" "w1" "new name")).out =
        .ok (response.Error 403 "Only admin or creator can delete this workflow") ∧
      (DeleteWorkflow.handler Example.env Example.database
        (Example.request "alice" "w1" "new name")).database.store = Example.store) ∧
    ((UpdateWorkflow.handler Example.env Example.database
        (Example.request "alice" "w1" "new name")).out =
        .ok (response.Error 403 "Only admin or creator can update this workflow") ∧
      (UpdateWorkflow.handler Example.env Example.database
        (Example.request "alice" "w1" "new name")).database.store = Example.store) ∧
    DbCall.exec DeleteWorkflow.deleteWorkflow.query [.text "w1"] ∈
      (DeleteWorkflow.handler Example.env Example.database
        (Example.request "carol" "w1" "new name")).calls Example.database ∧
    (DeleteWorkflow.handler Example.env Example.database
      (Example.request "carol" "w1" "new name")).database.store.workflows =
        [Example.n8n, Example.shared, Example.closed] :=
  have halice := mutation_only_by_admin_or_creator Example.env Example.database
    (Example.request "alice" "w1" "new name") { DID := "did:alice", Username := "alice" }
    Example.coze rfl (by decide) rfl rfl rfl
  have hcarol := mutation_only_by_admin_or_creator Example.env Example.database
    (Example.request "carol" "w1" "new name") { DID := "did:carol", Username := "carol" }
    Example.coze rfl (by decide) rfl rfl rfl
  ⟨⟨(halice.1.2.2 (by decide)).1, (halice.1.2.2 (by decide)).2.1⟩,
   ⟨((halice.2 _ rfl).2 (by decide)).1, ((halice.2 _ rfl).2 (by decide)).2.1⟩,
   hcarol.1.1.2 (by decide), rfl⟩

/-! ## The share and hide handlers -/

theorem calls_after_one (database : Database) (c1 : DbCall) :
    (database.record c1).calls.drop database.calls.length = [c1] := by
  simp [Database.record]

/-- The share handler, once the actor is authenticated, the body is decoded, the workflow is
found and the admin lookup is answered: a 403 response after the two lookups, or the
`UPDATE` of the shared flag. -/
theorem ShareWorkflow.share_handler_of_lookups (env : Env) (database : Database)
    (request : APIGatewayProxyRequest) (claims : Claims) (req : ShareWorkflowRequest)
    (workflow : Workflow)
    (hauth : authenticate env request = .ok claims)
    (hid : request.PathParameters.index "id" ≠ "")
    (hreq : env.unmarshalShareWorkflowRequest request.Body = .ok req)
    (hselect : database.faults (.query getWorkflowKeys.query
      [.text (request.PathParameters.index "id")]) = none)
    (hw : database.store.workflows.find?
      (fun w => w.WorkflowID = request.PathParameters.index "id") = some workflow)
    (hlookup : database.faults (.query db.CheckProjectAdmin.query
      [.text claims.DID, .text workflow.ProjectID]) = none) :
    ShareWorkflow.handler env database request =
      if (!database.store.user_projects.any
            (fun r => r.user_did = claims.DID ∧ r.project_id = workflow.ProjectID ∧
              r.role = "admin")) = true then
        HandlerRun.answer
          ((database.record (.query getWorkflowKeys.query
              [.text (request.PathParameters.index "id")])).record
            (.query db.CheckProjectAdmin.query [.text claims.DID, .text workflow.ProjectID]))
          (response.Forbidden "Only project admin can share workflows")
      else
        match ShareWorkflow.updateShareStatus
          ((database.record (.query getWorkflowKeys.query
              [.text (request.PathParameters.index "id")])).record
            (.query db.CheckProjectAdmin.query [.text claims.DID, .text workflow.ProjectID]))
          (request.PathParameters.index "id") req.IsShared with
        | (some _, database) =>
          HandlerRun.answer database (response.InternalError "Failed to update share status")
        | (none, database) =>
          HandlerRun.answer database
            (response.Success (.map [("workflow_id", .string (request.PathParameters.index "id")),
              ("is_shared", .bool req.IsShared)])) := by
  unfold ShareWorkflow.handler
  simp only [hauth, hid, hreq, if_false, getWorkflowKeys, hselect, hw, db.CheckProjectAdmin,
    Database.record, hlookup]

/-- The calls of the share handler when it reaches the `UPDATE`. -/
theorem ShareWorkflow.calls_of_update (database : Database) (c1 c2 : DbCall) (id : String)
    (isShared : Bool) :
    (match ShareWorkflow.updateShareStatus ((database.record c1).record c2) id isShared with
      | (some _, database) =>
        HandlerRun.answer database (response.InternalError "Failed to update share status")
      | (none, database) =>
        HandlerRun.answer database
          (response.Success (.map [("workflow_id", .string id),
            ("is_shared", .bool isShared)]))).calls database =
      [c1, c2, .exec ShareWorkflow.updateShareStatus.query [.bool isShared, .text id]] := by
  unfold ShareWorkflow.updateShareStatus HandlerRun.calls
  cases hf : database.faults
      (.exec ShareWorkflow.updateShareStatus.query [.bool isShared, .text id]) with
  | none => simp [hf, HandlerRun.answer, Database.record]
  | some e => simp [hf, HandlerRun.answer, Database.record]

/-- The hide handler, once the actor is authenticated, the body is decoded, the admin lookup
is answered and the actor is not an admin of the target project: the 403 response after the
lookup. -/
theorem HideWorkflow.hide_handler_denied (env : Env) (database : Database)
    (request : APIGatewayProxyRequest) (claims : Claims) (req : HideWorkflowRequest)
    (hauth : authenticate env request = .ok claims)
    (hproject : request.PathParameters.index "projectId" ≠ "")
    (hworkflow : request.PathParameters.index "workflowId" ≠ "")
    (hreq : env.unmarshalHideWorkflowRequest request.Body = .ok req)
    (hlookup : database.faults (.query db.CheckProjectAdmin.query
      [.text claims.DID, .text (request.PathParameters.index "projectId")]) = none)
    (hdenied : ¬ database.store.hasAdminMembership claims.DID
      (request.PathParameters.index "projectId")) :
    HideWorkflow.handler env database request =
      HandlerRun.answer
        (database.record (.query db.CheckProjectAdmin.query
          [.text claims.DID, .text (request.PathParameters.index "projectId")]))
        (response.Forbidden "Only project admin can hide workflows") := by
  have hcond : database.store.user_projects.any
      (fun r => r.user_did = claims.DID ∧
        r.project_id = request.PathParameters.index "projectId" ∧ r.role = "admin") =
      false := by
    rw [← Bool.not_eq_true, any_admin_iff]
    exact hdenied
  unfold HideWorkflow.handler
  simp only [hauth, hproject, hworkflow, or_self, hreq, if_false, db.CheckProjectAdmin,
    Database.record, hlookup, hcond, Bool.not_false, if_true]

/-- C10. The share handler issues its `UPDATE` of the shared flag exactly when the actor is
an admin of the workflow's project, and the hide handler issues a statement through `Exec`
only when the actor is an admin of the project named in the path. Any other authenticated
actor, the creator of the workflow included, is answered 403, nothing is issued through
`Exec`, and the store is left as it was. -/
theorem share_and_hide_only_by_admin (env : Env) (database : Database) (claims : Claims) :
    (∀ (request : APIGatewayProxyRequest) (req : ShareWorkflowRequest) (workflow : Workflow),
      authenticate env request = .ok claims →
      request.PathParameters.index "id" ≠ "" →
      env.unmarshalShareWorkflowRequest request.Body = .ok req →
      database.faults (.query getWorkflowKeys.query
        [.text (request.PathParameters.index "id")]) = none →
      database.store.workflows.find?
        (fun w => w.WorkflowID = request.PathParameters.index "id") = some workflow →
      database.faults (.query db.CheckProjectAdmin.query
        [.text claims.DID, .text workflow.ProjectID]) = none →
      (DbCall.exec ShareWorkflow.updateShareStatus.query
            [.bool req.IsShared, .text (request.PathParameters.index "id")] ∈
          (ShareWorkflow.handler env database request).calls database ↔
          database.store.hasAdminMembership claims.DID workflow.ProjectID) ∧
      (∀ c ∈ (ShareWorkflow.handler env database request).calls database,
        c.isExec = true → database.store.hasAdminMembership claims.DID workflow.ProjectID) ∧
      (¬ database.store.hasAdminMembership claims.DID workflow.ProjectID →
        (ShareWorkflow.handler env database request).out =
          .ok (response.Error 403 "Only project admin can share workflows") ∧
        (ShareWorkflow.handler env database request).database.store = database.store ∧
        ∀ c ∈ (ShareWorkflow.handler env database request).calls database,
          c.isExec = false)) ∧
    (∀ (request : APIGatewayProxyRequest) (req : HideWorkflowRequest),
      authenticate env request = .ok claims →
      request.PathParameters.index "projectId" ≠ "" →
      request.PathParameters.index "workflowId" ≠ "" →
      env.unmarshalHideWorkflowRequest request.Body = .ok req →
      database.faults (.query db.CheckProjectAdmin.query
        [.text claims.DID, .text (request.PathParameters.index "projectId")]) = none →
      (∀ c ∈ (HideWorkflow.handler env database request).calls database,
        c.isExec = true →
          database.store.hasAdminMembership claims.DID
            (request.PathParameters.index "projectId")) ∧
      (¬ database.store.hasAdminMembership claims.DID
          (request.PathParameters.index "projectId") →
        (HideWorkflow.handler env database request).out =
          .ok (response.Error 403 "Only project admin can hide workflows") ∧
        (HideWorkflow.handler env database request).database.store = database.store ∧
        ∀ c ∈ (HideWorkflow.handler env database request).calls database,
          c.isExec = false)) := by
  constructor
  · intro request req workflow hauth hid hreq hselect hw hlookup
    have hs := ShareWorkflow.share_handler_of_lookups env database request claims req workflow
      hauth hid hreq hselect hw hlookup
    have hcond : (!database.store.user_projects.any
          (fun r => r.user_did = claims.DID ∧ r.project_id = workflow.ProjectID ∧
            r.role = "admin")) = true ↔
        ¬ database.store.hasAdminMembership claims.DID workflow.ProjectID := by
      rw [← any_admin_iff]
      cases database.store.user_projects.any
        (fun r => r.user_did = claims.DID ∧ r.project_id = workflow.ProjectID ∧
          r.role = "admin") <;> simp
    have hno : ¬ database.store.hasAdminMembership claims.DID workflow.ProjectID →
        (ShareWorkflow.handler env database request).out =
          .ok (response.Error 403 "Only project admin can share workflows") ∧
        (ShareWorkflow.handler env database request).database.store = database.store ∧
        ∀ c ∈ (ShareWorkflow.handler env database request).calls database,
          c.isExec = false := by
      intro hdenied
      rw [hs, if_pos (hcond.2 hdenied)]
      refine ⟨rfl, rfl, ?_⟩
      intro c hc
      unfold HandlerRun.calls HandlerRun.answer at hc
      rw [calls_after_two] at hc
      simp only [List.mem_cons, List.mem_singleton, List.not_mem_nil, or_false] at hc
      rcases hc with hc | hc <;> rw [hc] <;> rfl
    have honly : ∀ c ∈ (ShareWorkflow.handler env database request).calls database,
        c.isExec = true → database.store.hasAdminMembership claims.DID workflow.ProjectID := by
      intro c hc hexec
      by_contra hdenied
      rw [(hno hdenied).2.2 c hc] at hexec
      exact Bool.noConfusion hexec
    refine ⟨⟨fun hmem => honly _ hmem rfl, fun hadmin => ?_⟩, honly, hno⟩
    rw [hs, if_neg (fun hc => hcond.1 hc hadmin), ShareWorkflow.calls_of_update]
    simp
  · intro request req hauth hproject hworkflow hreq hlookup
    have hno : ¬ database.store.hasAdminMembership claims.DID
          (request.PathParameters.index "projectId") →
        (HideWorkflow.handler env database request).out =
          .ok (response.Error 403 "Only project admin can hide workflows") ∧
        (HideWorkflow.handler env database request).database.store = database.store ∧
        ∀ c ∈ (HideWorkflow.handler env database request).calls database,
          c.isExec = false := by
      intro hdenied
      rw [HideWorkflow.hide_handler_denied env database request claims req hauth hproject
        hworkflow hreq hlookup hdenied]
      refine ⟨rfl, rfl, ?_⟩
      intro c hc
      unfold HandlerRun.calls HandlerRun.answer at hc
      rw [calls_after_one] at hc
      rw [List.mem_singleton] at hc
      rw [hc]
      rfl
    refine ⟨?_, hno⟩
    intro c hc hexec
    by_contra hdenied
    rw [(hno hdenied).2.2 c hc] at hexec
    exact Bool.noConfusion hexec

/-- C10, on the example store: bob created the descriptor `w1` and is a plain member of
project `p1`; his share request and his hide request are answered 403 and leave the store
as it was, while the share request of carol, an admin of `p1`, is issued. -/
theorem share_and_hide_only_by_admin_witness :
    Example.coze.CreatorDID = "did:bob" ∧
    ((ShareWorkflow.handler Example.env Example.database
        (Example.request "bob" "w1" "x")).out =
        .ok (response.Error 403 "Only project admin can share workflows") ∧
      (ShareWorkflow.handler Example.env Example.database
        (Example.request "bob" "w1" "x")).database.store = Example.store) ∧
    ((HideWorkflow.handler Example.env Example.database
        (Example.pairRequest "bob" "p1" "w1" "x")).out =
        .ok (response.Error 403 "Only project admin can hide workflows") ∧
      (HideWorkflow.handler Example.env Example.database
        (Example.pairRequest "bob" "p1" "w1" "x")).database.store = Example.store) ∧
    DbCall.exec ShareWorkflow.updateShareStatus.query [.bool true, .text "w1"] ∈
      (ShareWorkflow.handler Example.env Example.database
        (Example.request "carol" "w1" "x")).calls Example.database :=
  have hbob := share_and_hide_only_by_admin Example.env Example.database
    { DID := "did:bob", Username := "bob" }
  have hcarol := share_and_hide_only_by_admin Example.env Example.database
    { DID := "did:carol", Username := "carol" }
  have hshare := hbob.1 (Example.request "bob" "w1" "x") { IsShared := true } Example.coze
    rfl (by decide) rfl rfl rfl rfl
  have hhide := hbob.2 (Example.pairRequest "bob" "p1" "w1" "x") { IsHidden := true }
    rfl (by decide) (by decide) rfl rfl
  have hadmin := hcarol.1 (Example.request "carol" "w1" "x") { IsShared := true } Example.coze
    rfl (by decide) rfl rfl rfl rfl
  ⟨rfl, ⟨(hshare.2.2 (by decide)).1, (hshare.2.2 (by decide)).2.1⟩,
   ⟨(hhide.2 (by decide)).1, (hhide.2 (by decide)).2.1⟩, hadmin.1.2 (by decide)⟩

/-! ## The list handler -/

/-- The rows of the list statement: the workflows of the project and the shared ones, each
with no settings row in the project or with one that does not hide it. -/
theorem ListWorkflows.mem_rows (store : Store) (projectID : String) (w : Workflow) :
    w ∈ ListWorkflows.rows store projectID ↔
      w ∈ store.workflows ∧ (w.ProjectID = projectID ∨ w.IsShared = true) ∧
      (store.project_workflow_settings.filter
          (fun pws => w.WorkflowID = pws.workflow_id ∧ pws.project_id = projectID) = [] ∨
        ∃ s ∈ store.project_workflow_settings,
          (w.WorkflowID = s.workflow_id ∧ s.project_id = projectID) ∧ s.is_hidden = false) := by
  unfold ListWorkflows.rows
  rw [(List.perm_insertionSort _ _).mem_iff]
  simp only [List.mem_map, List.mem_filter, List.mem_flatten, Prod.exists,
    exists_and_right, exists_eq_right]
  constructor
  · rintro ⟨o, ⟨⟨l, ⟨w', hw', rfl⟩, hmem⟩, hsel⟩⟩
    unfold ListWorkflows.joined at hmem
    cases hf : store.project_workflow_settings.filter
        (fun pws => w'.WorkflowID = pws.workflow_id ∧ pws.project_id = projectID) with
    | nil =>
      rw [hf] at hmem
      simp only [List.mem_singleton, Prod.mk.injEq] at hmem
      obtain ⟨rfl, rfl⟩ := hmem
      simp only [ListWorkflows.selected, Bool.and_true, Bool.or_eq_true,
        decide_eq_true_eq] at hsel
      exact ⟨hw', hsel, Or.inl hf⟩
    | cons pws rest =>
      rw [hf] at hmem
      simp only [List.mem_map, Prod.mk.injEq] at hmem
      obtain ⟨s, hs, rfl, rfl⟩ := hmem
      rw [← hf, List.mem_filter] at hs
      simp only [ListWorkflows.selected, Bool.and_eq_true, Bool.or_eq_true,
        decide_eq_true_eq, Bool.not_eq_true'] at hsel
      exact ⟨hw', hsel.1, Or.inr ⟨s, hs.1, by simpa using hs.2, hsel.2⟩⟩
  · rintro ⟨hw, hown, hvis⟩
    rcases hvis with hnil | ⟨s, hs, hkey, hshown⟩
    · refine ⟨none, ⟨⟨_, ⟨w, hw, rfl⟩, ?_⟩, ?_⟩⟩
      · unfold ListWorkflows.joined
        rw [hnil]
        exact List.mem_singleton.2 rfl
      · simp only [ListWorkflows.selected, Bool.and_true, Bool.or_eq_true, decide_eq_true_eq]
        exact hown
    · have hmem : s ∈ store.project_workflow_settings.filter
          (fun pws => w.WorkflowID = pws.workflow_id ∧ pws.project_id = projectID) := by
        rw [List.mem_filter]
        exact ⟨hs, by simpa using hkey⟩
      refine ⟨some s, ⟨⟨_, ⟨w, hw, rfl⟩, ?_⟩, ?_⟩⟩
      · unfold ListWorkflows.joined
        cases hf : store.project_workflow_settings.filter
            (fun pws => w.WorkflowID = pws.workflow_id ∧ pws.project_id = projectID) with
        | nil => rw [hf] at hmem; exact absurd hmem (List.not_mem_nil _)
        | cons pws rest =>
          rw [hf] at hmem
          simp only [List.mem_map, Prod.mk.injEq, true_and, Option.some.injEq, exists_eq_right]
          exact hmem
      · simp only [ListWorkflows.selected, Bool.and_eq_true, Bool.or_eq_true,
          decide_eq_true_eq, Bool.not_eq_true']
        exact ⟨hown, hshown⟩

/-- When the settings rows are keyed by project and workflow, a workflow has no settings row
in the project or one that does not hide it exactly when no row of the project hides it. -/
theorem ListWorkflows.shown_iff_not_hidden (store : Store) (projectID : String) (w : Workflow)
    (hkeyed : store.settingsKeyed) :
    (store.project_workflow_settings.filter
        (fun pws => w.WorkflowID = pws.workflow_id ∧ pws.project_id = projectID) = [] ∨
      ∃ s ∈ store.project_workflow_settings,
        (w.WorkflowID = s.workflow_id ∧ s.project_id = projectID) ∧ s.is_hidden = false) ↔
    ¬ store.hides projectID w.WorkflowID := by
  constructor
  · rintro (hnil | ⟨s, hs, hkey, hshown⟩) ⟨t, ht, htp, htw, hth⟩
    · have hmem : t ∈ store.project_workflow_settings.filter
          (fun pws => w.WorkflowID = pws.workflow_id ∧ pws.project_id = projectID) := by
        rw [List.mem_filter]
        exact ⟨ht, by simp [htp, htw]⟩
      rw [hnil] at hmem
      exact List.not_mem_nil _ hmem
    · have hne : s ≠ t := by
        intro h
        rw [h, hth] at hshown
        exact Bool.noConfusion hshown
      have hsym : Symmetric (fun a b : ProjectWorkflowSetting =>
          ¬ (a.project_id = b.project_id ∧ a.workflow_id = b.workflow_id)) := by
        intro a b hab hba
        exact hab ⟨hba.1.symm, hba.2.symm⟩
      exact List.Pairwise.forall hsym hkeyed hs ht hne
        ⟨by rw [hkey.2, htp], by rw [← hkey.1, htw]⟩
  · intro hnot
    cases hf : store.project_workflow_settings.filter
        (fun pws => w.WorkflowID = pws.workflow_id ∧ pws.project_id = projectID) with
    | nil => exact Or.inl rfl
    | cons s rest =>
      right
      have hmem : s ∈ store.project_workflow_settings.filter
          (fun pws => w.WorkflowID = pws.workflow_id ∧ pws.project_id = projectID) := by
        rw [hf]
        exact List.mem_cons_self _ _
      rw [List.mem_filter] at hmem
      have hkey : w.WorkflowID = s.workflow_id ∧ s.project_id = projectID := by
        simpa using hmem.2
      refine ⟨s, hmem.1, hkey, ?_⟩
      cases hh : s.is_hidden with
      | false => rfl
      | true => exact absurd ⟨s, hmem.1, hkey.2, hkey.1.symm, hh⟩ hnot

/-- C11, as stated, fails for an actor without a membership row in the listed project: alice
has no row in project `p2`, the descriptor `w3` is shared and no settings row of `p2` hides
it, yet her list request on `p2` is answered 403 and returns no workflow. -/
theorem list_refuses_non_member_shared :
    ¬ Example.store.hasMembership "did:alice" "p2" ∧
    Example.shared ∈ Example.store.workflows ∧
    Example.shared.IsShared = true ∧
    ¬ Example.store.hides "p2" Example.shared.WorkflowID ∧
    (ListWorkflows.handler Example.env Example.database
        (Example.projectRequest "alice" "p2" "")).out =
      .ok (response.Error 403 "Access denied to this project") := by
  refine ⟨by decide, by decide, rfl, by decide, rfl⟩

/-- C11, amended. For an authenticated actor, a project `P` named in the path, a store whose
settings rows are keyed by project and workflow, and lookups that are answered: when the
actor has a membership row in `P`, the list handler answers 200 with the workflows `w` of
the store such that `w` belongs to `P` or is shared, and no settings row of `P` hides `w`
(a workflow without a settings row is not hidden); when the actor has no membership row in
`P`, it answers 403 after the membership lookup and runs no list query. -/
theorem list_returns_visible_to_member (env : Env) (database : Database)
    (request : APIGatewayProxyRequest) (claims : Claims)
    (hauth : authenticate env request = .ok claims)
    (hproject : request.PathParameters.index "projectId" ≠ "")
    (hlookup : database.faults (.query db.CheckProjectAccess.query
      [.text claims.DID, .text (request.PathParameters.index "projectId")]) = none)
    (hquery : database.faults (.query ListWorkflows.getVisibleWorkflows.query
      [.text (request.PathParameters.index "projectId")]) = none)
    (hkeyed : database.store.settingsKeyed) :
    (database.store.hasMembership claims.DID (request.PathParameters.index "projectId") →
      ∃ ws, (ListWorkflows.handler env database request).out =
          .ok (response.Success (.workflows ws)) ∧
        ∀ w, w ∈ ws ↔
          w ∈ database.store.workflows ∧
          (w.ProjectID = request.PathParameters.index "projectId" ∨ w.IsShared = true) ∧
          ¬ database.store.hides (request.PathParameters.index "projectId") w.WorkflowID) ∧
    (¬ database.store.hasMembership claims.DID (request.PathParameters.index "projectId") →
      (ListWorkflows.handler env database request).out =
        .ok (response.Error 403 "Access denied to this project") ∧
      (ListWorkflows.handler env database request).calls database =
        [.query db.CheckProjectAccess.query
          [.text claims.DID, .text (request.PathParameters.index "projectId")]]) := by
  constructor
  · intro hmember
    have hany := (any_membership_iff database.store claims.DID
      (request.PathParameters.index "projectId")).2 hmember
    refine ⟨ListWorkflows.rows database.store (request.PathParameters.index "projectId"),
      ?_, ?_⟩
    · unfold ListWorkflows.handler
      simp only [hauth, hproject, if_false, db.CheckProjectAccess, hlookup, hany,
        ListWorkflows.getVisibleWorkflows, Database.record, hquery, Bool.not_true,
        Bool.false_eq_true, HandlerRun.answer]
    · intro w
      rw [ListWorkflows.mem_rows, ListWorkflows.shown_iff_not_hidden _ _ _ hkeyed]
  · intro hdenied
    have hany : database.store.user_projects.any
        (fun r => r.user_did = claims.DID ∧
          r.project_id = request.PathParameters.index "projectId") = false := by
      rw [← Bool.not_eq_true, any_membership_iff]
      exact hdenied
    unfold ListWorkflows.handler HandlerRun.calls
    simp only [hauth, hproject, if_false, db.CheckProjectAccess, hlookup, hany,
      Database.record, Bool.not_false, if_true, HandlerRun.answer]
    exact ⟨rfl, by simp⟩

/-- C11, amended, on the example store: alice, a member of project `p1`, lists it and gets
its two descriptors; the shared descriptor `w3` is not returned because `p1` hides it. -/
theorem list_returns_visible_to_member_witness :
    Example.store.hides "p1" "w3" ∧
    ∃ ws, (ListWorkflows.handler Example.env Example.database
          (Example.projectRequest "alice" "p1" "")).out =
          .ok (response.Success (.workflows ws)) ∧
      ∀ w, w ∈ ws ↔
        w ∈ Example.store.workflows ∧
        (w.ProjectID = "p1" ∨ w.IsShared = true) ∧
        ¬ Example.store.hides "p1" w.WorkflowID :=
  ⟨by decide,
   (list_returns_visible_to_member Example.env Example.database
      (Example.projectRequest "alice" "p1" "") { DID := "did:alice", Username := "alice" }
      rfl (by decide) rfl rfl (List.pairwise_singleton _ _)).1 (by decide)⟩

/-! ## Authentication comes first -/

/-- Without a well formed header and a token that verifies, the first lines of a handler
yield a 401 response. -/
theorem authenticate_unauthorized (env : Env) (request : APIGatewayProxyRequest)
    (h : request.Headers.get "Authorization" = none ∨
      (∃ e, auth.ExtractToken (request.Headers.index "Authorization") = .error e) ∨
      (∃ token e, auth.ExtractToken (request.Headers.index "Authorization") = .ok token ∧
        auth.ValidateToken env token env.jwtSecret = .error e)) :
    ∃ r, authenticate env request = .error r ∧ r.StatusCode = 401 := by
  rcases h with habsent | ⟨e, he⟩ | ⟨token, e, ht, he⟩
  · have hidx : request.Headers.index "Authorization" = "" := by
      unfold GoMap.index
      rw [habsent]
      rfl
    refine ⟨response.Unauthorized "Invalid authorization header", ?_, rfl⟩
    unfold authenticate
    rw [hidx]
    rfl
  · refine ⟨response.Unauthorized "Invalid authorization header", ?_, rfl⟩
    unfold authenticate
    rw [he]
  · refine ⟨response.Unauthorized "Invalid or expired token", ?_, rfl⟩
    unfold authenticate
    rw [ht]
    simp only [he]

/-- C12. In each of the seven handlers, when the `Authorization` header is absent or
malformed or its token does not verify, the handler answers 401 whatever the path
parameters, the body and the store are, with the database as it was (no call on the store)
and nothing handed to the transport. -/
theorem unauthenticated_is_401_everywhere (env : Env) (database : Database)
    (request : APIGatewayProxyRequest)
    (h : request.Headers.get "Authorization" = none ∨
      (∃ e, auth.ExtractToken (request.Headers.index "Authorization") = .error e) ∨
      (∃ token e, auth.ExtractToken (request.Headers.index "Authorization") = .ok token ∧
        auth.ValidateToken env token env.jwtSecret = .error e)) :
    ∃ r, r.StatusCode = 401 ∧
      CreateWorkflow.handler env database request = HandlerRun.answer database r ∧
      ListWorkflows.handler env database request = HandlerRun.answer database r ∧
      UpdateWorkflow.handler env database request = HandlerRun.answer database r ∧
      DeleteWorkflow.handler env database request = HandlerRun.answer database r ∧
      ExecuteWorkflow.handler env database request = HandlerRun.answer database r ∧
      ShareWorkflow.handler env database request = HandlerRun.answer database r ∧
      HideWorkflow.handler env database request = HandlerRun.answer database r ∧
      (HandlerRun.answer database r).out = .ok r ∧
      (HandlerRun.answer database r).database.calls = database.calls ∧
      (HandlerRun.answer database r).database.store = database.store ∧
      (HandlerRun.answer database r).dispatched = [] := by
  obtain ⟨r, hr, hcode⟩ := authenticate_unauthorized env request h
  refine ⟨r, hcode, ?_, ?_, ?_, ?_, ?_, ?_, ?_, rfl, rfl, rfl, rfl⟩
  · unfold CreateWorkflow.handler
    rw [hr]
  · unfold ListWorkflows.handler
    rw [hr]
  · unfold UpdateWorkflow.handler
    rw [hr]
  · unfold DeleteWorkflow.handler
    rw [hr]
  · unfold ExecuteWorkflow.handler
    rw [hr]
  · unfold ShareWorkflow.handler
    rw [hr]
  · unfold HideWorkflow.handler
    rw [hr]

/-- C12, on examples: a request whose token does not verify, on an existing workflow with a
well formed body, is answered 401 by the delete and the execute handlers without a call on
the store. -/
theorem unauthenticated_is_401_everywhere_witness :
    ∃ r, r.StatusCode = 401 ∧
      DeleteWorkflow.handler Example.env Example.database (Example.request "mallory" "w1" "x") =
        HandlerRun.answer Example.database r ∧
      ExecuteWorkflow.handler Example.env Example.database
          (Example.request "mallory" "w1" "x") =
        HandlerRun.answer Example.database r ∧
      (HandlerRun.answer Example.database r).database.calls = [] :=
  have h := unauthenticated_is_401_everywhere Example.env Example.database
    (Example.request "mallory" "w1" "x")
    (Or.inr (Or.inr ⟨"mallory", "token signature is invalid", rfl, rfl⟩))
  h.elim fun r hr => ⟨r, hr.1, hr.2.2.2.2.1, hr.2.2.2.2.2.1, hr.2.2.2.2.2.2.2.2.2.1⟩

/-! ## The bearer header -/

theorem splitChars_ne_nil (sep : Char) (cs : List Char) : splitChars sep cs ≠ [] := by
  cases cs with
  | nil => simp [splitChars]
  | cons c cs =>
    unfold splitChars
    by_cases hc : c = sep
    · simp [hc]
    · rw [if_neg hc]
      cases splitChars sep cs <;> simp

theorem splitChars_eq_singleton (sep : Char) (cs b : List Char) :
    splitChars sep cs = [b] ↔ sep ∉ cs ∧ b = cs := by
  induction cs generalizing b with
  | nil => simp [splitChars, eq_comm]
  | cons c cs ih =>
    unfold splitChars
    by_cases hc : c = sep
    · simp [hc, splitChars_ne_nil]
    · rw [if_neg hc]
      cases hs : splitChars sep cs with
      | nil => exact absurd hs (splitChars_ne_nil sep cs)
      | cons p ps =>
        simp only [List.cons.injEq, List.mem_cons, not_or]
        constructor
        · rintro ⟨rfl, rfl⟩
          have := (ih p).1 hs
          exact ⟨⟨Ne.symm hc, this.1⟩, by rw [this.2]⟩
        · rintro ⟨⟨_, hmem⟩, rfl⟩
          have := (ih cs).2 ⟨hmem, rfl⟩
          rw [hs] at this
          simp only [List.cons.injEq] at this
          exact ⟨by rw [this.1], this.2⟩

theorem splitChars_eq_pair (sep : Char) (cs a b : List Char) :
    splitChars sep cs = [a, b] ↔ sep ∉ a ∧ sep ∉ b ∧ cs = a ++ sep :: b := by
  induction cs generalizing a with
  | nil => simp [splitChars]
  | cons c cs ih =>
    unfold splitChars
    by_cases hc : c = sep
    · subst hc
      simp only [if_true, List.cons.injEq]
      constructor
      · rintro ⟨rfl, hs⟩
        have := (splitChars_eq_singleton c cs b).1 hs
        exact ⟨List.not_mem_nil _, by rw [this.2]; exact this.1, by rw [this.2]; rfl⟩
      · rintro ⟨ha, hb, heq⟩
        cases a with
        | nil =>
          simp only [List.nil_append, List.cons.injEq, true_and] at heq
          exact ⟨rfl, (splitChars_eq_singleton c cs b).2 ⟨by rw [heq]; exact hb, heq.symm⟩⟩
        | cons x a' =>
          simp only [List.cons_append, List.cons.injEq] at heq
          exact absurd (List.mem_cons.2 (Or.inl heq.1)) ha
    · rw [if_neg hc]
      cases hs : splitChars sep cs with
      | nil => exact absurd hs (splitChars_ne_nil sep cs)
      | cons p ps =>
        simp only [List.cons.injEq]
        constructor
        · rintro ⟨rfl, rfl⟩
          have := (ih p).1 hs
          refine ⟨?_, this.2.1, by rw [this.2.2]; rfl⟩
          simp only [List.mem_cons, not_or]
          exact ⟨Ne.symm hc, this.1⟩
        · rintro ⟨ha, hb, heq⟩
          cases a with
          | nil =>
            simp only [List.nil_append, List.cons.injEq] at heq
            exact absurd heq.1 hc
          | cons x a' =>
            simp only [List.cons_append, List.cons.injEq] at heq
            simp only [List.mem_cons, not_or] at ha
            have := (ih a').2 ⟨ha.2, hb, heq.2⟩
            rw [hs] at this
            simp only [List.cons.injEq] at this
            exact ⟨by rw [heq.1, this.1], this.2⟩

/-- The function `auth.ExtractToken` returns a token exactly on the headers made of
`Bearer`, one space and a part without a space, which is the token. -/
theorem auth.ExtractToken_eq_ok (authHeader token : String) :
    auth.ExtractToken authHeader = .ok token ↔
      authHeader = "Bearer " ++ token ∧ ' ' ∉ token.data := by
  have hbearer : ("Bearer " : String) = String.mk ("Bearer".data ++ [' ']) := by decide
  constructor
  · intro h
    unfold auth.ExtractToken at h
    by_cases he : authHeader = ""
    · rw [if_pos he] at h
      cases h
    · rw [if_neg he] at h
      unfold stringsSplit at h
      cases hs : splitChars ' ' authHeader.data with
      | nil => exact absurd hs (splitChars_ne_nil _ _)
      | cons a rest =>
        cases rest with
        | nil => rw [hs] at h; simp at h
        | cons b rest' =>
          cases rest' with
          | cons c rest'' => rw [hs] at h; simp at h
          | nil =>
            rw [hs] at h
            simp only [List.map_cons, List.map_nil] at h
            by_cases hp : String.mk a = "Bearer"
            · simp only [hp, ne_eq, not_true_eq_false, if_false, Except.ok.injEq] at h
              have hsplit := (splitChars_eq_pair ' ' authHeader.data a b).1 hs
              have ha : a = "Bearer".data := by rw [← hp]
              subst h
              refine ⟨?_, hsplit.2.1⟩
              apply String.ext
              rw [hsplit.2.2, ha, hbearer]
              simp [String.data_append]
            · simp [hp] at h
  · rintro ⟨rfl, hspace⟩
    have hdata : ("Bearer " ++ token).data = "Bearer".data ++ ' ' :: token.data := by
      rw [String.data_append, hbearer]
      simp
    have hsplit : splitChars ' ' ("Bearer " ++ token).data = ["Bearer".data, token.data] :=
      (splitChars_eq_pair ' ' _ _ _).2 ⟨by decide, hspace, hdata⟩
    have hne : "Bearer " ++ token ≠ "" := by
      intro h
      have := congrArg String.data h
      rw [hdata] at this
      simp at this
    unfold auth.ExtractToken stringsSplit
    rw [if_neg hne, hsplit]
    simp

/-- C13, as stated, fails on the header `Bearer ` whose second part is empty: it is not two
non-empty tokens, yet `ExtractToken` returns a token, the empty string, and no error. -/
theorem bearer_with_empty_token_is_accepted :
    auth.ExtractToken "Bearer " = .ok "" ∧
    stringsSplit "Bearer " ' ' = ["Bearer", ""] ∧
    ("" : String).length = 0 := by
  refine ⟨rfl, by decide, by decide⟩

/-- C13, amended. `ExtractToken` returns a token and no error if and only if the header
value is the literal `Bearer`, one space, and a second part that contains no space and may
be empty; the returned value is that second part. For every other header value, the empty
string included, it returns an error. -/
theorem bearer_header_accepted_iff (authHeader : String) :
    (∀ token, auth.ExtractToken authHeader = .ok token ↔
      authHeader = "Bearer " ++ token ∧ ' ' ∉ token.data) ∧
    ((¬ ∃ token, authHeader = "Bearer " ++ token ∧ ' ' ∉ token.data) →
      ∃ e, auth.ExtractToken authHeader = .error e) ∧
    (∃ e, auth.ExtractToken "" = .error e) := by
  refine ⟨fun token => auth.ExtractToken_eq_ok authHeader token, ?_, ⟨_, rfl⟩⟩
  intro hnone
  cases h : auth.ExtractToken authHeader with
  | error e => exact ⟨e, rfl⟩
  | ok token => exact absurd ⟨token, (auth.ExtractToken_eq_ok authHeader token).1 h⟩ hnone

/-- C13, amended, on examples: `Bearer abc` yields `abc`, and a header with two spaces
between the parts is refused. -/
theorem bearer_header_accepted_iff_witness :
    auth.ExtractToken "Bearer abc" = .ok "abc" ∧
    ∃ e, auth.ExtractToken "Bearer  abc" = .error e :=
  ⟨((bearer_header_accepted_iff "Bearer abc").1 "abc").2 ⟨by decide, by decide⟩,
   (bearer_header_accepted_iff "Bearer  abc").2.1 (by
    rintro ⟨token, heq, hspace⟩
    have hdata := congrArg String.data heq
    rw [String.data_append] at hdata
    have h0 : token.data = ' ' :: 'a' :: 'b' :: 'c' :: [] := by
      have h1 : ("Bearer  abc" : String).data =
          ("Bearer " : String).data ++ (' ' :: 'a' :: 'b' :: 'c' :: []) := by decide
      rw [h1] at hdata
      exact (List.append_cancel_left hdata).symm
    rw [h0] at hspace
    exact hspace (List.mem_cons_self _ _))⟩

/-! ## The layout of the update statement -/

theorem UpdateBuilder.addAll_eq (fs : List (String × Option SqlValue)) (b : UpdateBuilder) :
    UpdateBuilder.addAll fs b =
      { setClauses := b.setClauses ++
          UpdateWorkflow.assignments ((UpdateBuilder.suppliedOf fs).map Prod.fst) b.argIndex
        args := b.args ++ (UpdateBuilder.suppliedOf fs).map Prod.snd
        argIndex := b.argIndex + (UpdateBuilder.suppliedOf fs).length } := by
  induction fs generalizing b with
  | nil => simp [UpdateBuilder.addAll, UpdateBuilder.suppliedOf, UpdateWorkflow.assignments]
  | cons f fs ih =>
    obtain ⟨c, v⟩ := f
    have hstep : UpdateBuilder.addAll ((c, v) :: fs) b =
        UpdateBuilder.addAll fs (b.add c v) := rfl
    rw [hstep, ih]
    cases v with
    | none => simp [UpdateBuilder.add, UpdateBuilder.suppliedOf]
    | some v =>
      simp only [UpdateBuilder.add, UpdateBuilder.suppliedOf, List.filterMap_cons,
        Option.map_some', List.map_cons, UpdateWorkflow.assignments, List.append_assoc,
        List.singleton_append, List.length_cons, UpdateBuilder.mk.injEq, true_and]
      omega

theorem UpdateWorkflow.build_eq (req : UpdateWorkflowRequest) :
    UpdateWorkflow.build req =
      { setClauses :=
          UpdateWorkflow.assignments ((UpdateWorkflow.supplied req).map Prod.fst) 1
        args := (UpdateWorkflow.supplied req).map Prod.snd
        argIndex := (UpdateWorkflow.supplied req).length + 1 } := by
  have h : UpdateWorkflow.build req =
      UpdateBuilder.addAll (UpdateWorkflow.fields req) ⟨[], [], 1⟩ := rfl
  rw [h, UpdateBuilder.addAll_eq]
  simp only [List.nil_append, UpdateBuilder.mk.injEq, true_and]
  exact ⟨rfl, rfl, by unfold UpdateWorkflow.supplied UpdateBuilder.suppliedOf; omega⟩

theorem UpdateWorkflow.length_assignments (cols : List String) (i : Nat) :
    (UpdateWorkflow.assignments cols i).length = cols.length := by
  induction cols generalizing i with
  | nil => rfl
  | cons c cs ih => simp [UpdateWorkflow.assignments, ih]

theorem UpdateWorkflow.getElem?_assignments (cols : List String) (start i : Nat) :
    (UpdateWorkflow.assignments cols start)[i]? =
      (cols[i]?).map (fun c => c ++ " = $" ++ toString (start + i)) := by
  induction cols generalizing start i with
  | nil => simp [UpdateWorkflow.assignments]
  | cons c cs ih =>
    cases i with
    | zero => simp [UpdateWorkflow.assignments]
    | succ i =>
      simp only [UpdateWorkflow.assignments, List.getElem?_cons_succ, ih]
      have : start + 1 + i = start + (i + 1) := by omega
      rw [this]

theorem UpdateBuilder.columns_of_shape (fs gs : List (String × Option SqlValue))
    (hcols : fs.map Prod.fst = gs.map Prod.fst)
    (hshape : fs.map (fun f => f.2.isSome) = gs.map (fun f => f.2.isSome)) :
    (UpdateBuilder.suppliedOf fs).map Prod.fst = (UpdateBuilder.suppliedOf gs).map Prod.fst := by
  induction fs generalizing gs with
  | nil =>
    cases gs with
    | nil => rfl
    | cons g gs => simp at hcols
  | cons f fs ih =>
    cases gs with
    | nil => simp at hcols
    | cons g gs =>
      obtain ⟨c, v⟩ := f
      obtain ⟨d, u⟩ := g
      simp only [List.map_cons, List.cons.injEq] at hcols hshape
      have hrest := ih gs hcols.2 hshape.2
      have hcd : c = d := hcols.1
      subst hcd
      cases v <;> cases u <;>
        simp_all [UpdateBuilder.suppliedOf]

/-- What `updateWorkflow` does: nothing for a request that supplies no field, and otherwise
one `Exec` call, the statement of the request. -/
theorem UpdateWorkflow.updateWorkflow_calls (database : Database) (workflowID : String)
    (req : UpdateWorkflowRequest) :
    (UpdateWorkflow.supplied req = [] →
      UpdateWorkflow.updateWorkflow database workflowID req = (none, database)) ∧
    (UpdateWorkflow.supplied req ≠ [] →
      (UpdateWorkflow.updateWorkflow database workflowID req).2.calls =
        database.calls ++ [UpdateWorkflow.statement workflowID req]) := by
  have hlen : (UpdateWorkflow.build req).setClauses.length =
      (UpdateWorkflow.supplied req).length := by
    rw [UpdateWorkflow.build_eq]
    simp [UpdateWorkflow.length_assignments]
  constructor
  · intro h
    unfold UpdateWorkflow.updateWorkflow
    simp only [hlen, h, List.length_nil, if_true]
  · intro h
    have hpos : ¬ (UpdateWorkflow.build req).setClauses.length = 0 := by
      rw [hlen]
      exact fun h0 => h (List.length_eq_zero.1 h0)
    unfold UpdateWorkflow.updateWorkflow
    simp only [hpos, if_false]
    cases hf : database.faults (.exec
        ("UPDATE workflows SET " ++
          String.intercalate ", "
            ((UpdateWorkflow.build req).setClauses ++ ["updated_at = NOW()"]) ++
          " WHERE workflow_id = $" ++ toString (UpdateWorkflow.build req).argIndex)
        ((UpdateWorkflow.build req).args ++ [.text workflowID])) with
    | none => rfl
    | some e => rfl

/-- C18. The text `updateWorkflow` builds depends only on which of the ten mutable fields
are supplied: two requests that supply the same fields yield the same text, whatever the
values and the workflow ids, and the calls they make carry that one text with the supplied
values and the workflow id as bound arguments. -/
theorem update_text_depends_on_supplied_fields_only (req1 req2 : UpdateWorkflowRequest)
    (id1 id2 : String) (database1 database2 : Database)
    (hshape : UpdateWorkflow.shape req1 = UpdateWorkflow.shape req2) :
    UpdateWorkflow.queryText req1 = UpdateWorkflow.queryText req2 ∧
    (∀ c1 ∈ (UpdateWorkflow.updateWorkflow database1 id1 req1).2.calls.drop
          database1.calls.length,
      c1 = .exec (UpdateWorkflow.queryText req1)
        ((UpdateWorkflow.supplied req1).map Prod.snd ++ [.text id1])) ∧
    (∀ c2 ∈ (UpdateWorkflow.updateWorkflow database2 id2 req2).2.calls.drop
          database2.calls.length,
      c2 = .exec (UpdateWorkflow.queryText req1)
        ((UpdateWorkflow.supplied req2).map Prod.snd ++ [.text id2])) := by
  have hcols : (UpdateWorkflow.supplied req1).map Prod.fst =
      (UpdateWorkflow.supplied req2).map Prod.fst :=
    UpdateBuilder.columns_of_shape (UpdateWorkflow.fields req1) (UpdateWorkflow.fields req2)
      rfl hshape
  have hlen : (UpdateWorkflow.supplied req1).length = (UpdateWorkflow.supplied req2).length := by
    have := congrArg List.length hcols
    simpa using this
  have htext : UpdateWorkflow.queryText req1 = UpdateWorkflow.queryText req2 := by
    unfold UpdateWorkflow.queryText
    rw [UpdateWorkflow.build_eq req1, UpdateWorkflow.build_eq req2, hcols, hlen]
  have hcall : ∀ (database : Database) (id : String) (req : UpdateWorkflowRequest),
      ∀ c ∈ (UpdateWorkflow.updateWorkflow database id req).2.calls.drop database.calls.length,
        c = .exec (UpdateWorkflow.queryText req)
          ((UpdateWorkflow.supplied req).map Prod.snd ++ [.text id]) := by
    intro database id req c hc
    by_cases hs : UpdateWorkflow.supplied req = []
    · rw [(UpdateWorkflow.updateWorkflow_calls database id req).1 hs] at hc
      simp at hc
    · rw [(UpdateWorkflow.updateWorkflow_calls database id req).2 hs] at hc
      simp only [List.drop_left', List.mem_singleton] at hc
      rw [hc]
      unfold UpdateWorkflow.statement
      rw [UpdateWorkflow.build_eq req]
  refine ⟨htext, hcall database1 id1 req1, ?_⟩
  rw [htext]
  exact hcall database2 id2 req2

/-- C18, on examples: two requests that supply the description and the method, with
different values and on different workflows, make calls with the same text. -/
theorem update_text_depends_on_supplied_fields_only_witness :
    UpdateWorkflow.queryText (Example.twoFields "first" "GET") =
      UpdateWorkflow.queryText (Example.twoFields "second" "PUT") ∧
    (UpdateWorkflow.updateWorkflow Example.database "w1"
        (Example.twoFields "first" "GET")).2.calls =
      [.exec "UPDATE workflows SET description = $1, http_method = $2, updated_at = NOW() WHERE workflow_id = $3"
        [.text "first", .text "GET", .text "w1"]] ∧
    (UpdateWorkflow.updateWorkflow Example.database "w2"
        (Example.twoFields "second" "PUT")).2.calls =
      [.exec "UPDATE workflows SET description = $1, http_method = $2, updated_at = NOW() WHERE workflow_id = $3"
        [.text "second", .text "PUT", .text "w2"]] :=
  ⟨(update_text_depends_on_supplied_fields_only (Example.twoFields "first" "GET")
      (Example.twoFields "second" "PUT") "w1" "w2" Example.database Example.database rfl).1,
   by decide, by decide⟩

/-- C19. For a request that supplies `k ≥ 1` fields, `updateWorkflow` makes one call: its
text assigns the supplied columns, in the fixed order of the ten fields, to the placeholders
`$1` to `$k`, then sets `updated_at = NOW()`, and selects the row with the placeholder
`$(k+1)`; its `k + 1` arguments are the values of the supplied fields in that order and then
the workflow id. A column is assigned only when its field is supplied. -/
theorem update_statement_layout (database : Database) (workflowID : String)
    (req : UpdateWorkflowRequest) (hk : 1 ≤ (UpdateWorkflow.supplied req).length) :
    (UpdateWorkflow.updateWorkflow database workflowID req).2.calls =
      database.calls ++
        [.exec
          ("UPDATE workflows SET " ++
            String.intercalate ", "
              (UpdateWorkflow.assignments ((UpdateWorkflow.supplied req).map Prod.fst) 1 ++
                ["updated_at = NOW()"]) ++
            " WHERE workflow_id = $" ++ toString ((UpdateWorkflow.supplied req).length + 1))
          ((UpdateWorkflow.supplied req).map Prod.snd ++ [SqlValue.text workflowID])] ∧
    (UpdateWorkflow.assignments ((UpdateWorkflow.supplied req).map Prod.fst) 1).length =
      (UpdateWorkflow.supplied req).length ∧
    (∀ i, i < (UpdateWorkflow.supplied req).length →
      ∃ column value, (UpdateWorkflow.supplied req)[i]? = some (column, value) ∧
        (UpdateWorkflow.assignments ((UpdateWorkflow.supplied req).map Prod.fst) 1)[i]? =
          some (column ++ " = $" ++ toString (i + 1)) ∧
        ((UpdateWorkflow.supplied req).map Prod.snd ++ [SqlValue.text workflowID])[i]? = some value) ∧
    ((UpdateWorkflow.supplied req).map Prod.snd ++ [SqlValue.text workflowID]).length =
      (UpdateWorkflow.supplied req).length + 1 ∧
    ((UpdateWorkflow.supplied req).map Prod.snd ++
        [SqlValue.text workflowID])[(UpdateWorkflow.supplied req).length]? =
      some (SqlValue.text workflowID) ∧
    ((UpdateWorkflow.supplied req).map Prod.fst).Sublist
      ["workflow_name", "description", "source", "template_name", "http_method", "base_url",
       "bearer_token", "external_workflow_id", "parameters", "headers"] ∧
    (∀ column, column ∈ (UpdateWorkflow.supplied req).map Prod.fst ↔
      ∃ value, (column, some value) ∈ UpdateWorkflow.fields req) := by
  have hne : UpdateWorkflow.supplied req ≠ [] := by
    intro h
    rw [h] at hk
    exact absurd hk (by decide)
  refine ⟨?_, by rw [UpdateWorkflow.length_assignments, List.length_map], ?_, by simp, ?_, ?_, ?_⟩
  · rw [(UpdateWorkflow.updateWorkflow_calls database workflowID req).2 hne]
    unfold UpdateWorkflow.statement UpdateWorkflow.queryText
    rw [UpdateWorkflow.build_eq req]
  · intro i hi
    have hget : (UpdateWorkflow.supplied req)[i]? = some (UpdateWorkflow.supplied req)[i] :=
      List.getElem?_eq_getElem hi
    refine ⟨(UpdateWorkflow.supplied req)[i].1, (UpdateWorkflow.supplied req)[i].2, hget, ?_, ?_⟩
    · rw [UpdateWorkflow.getElem?_assignments, List.getElem?_map, hget]
      simp [Nat.add_comm]
    · rw [List.getElem?_append_left (by simpa using hi), List.getElem?_map, hget]
      rfl
  · rw [List.getElem?_append_right (by simp)]
    simp
  · have hsub : ∀ fs : List (String × Option SqlValue),
        ((UpdateBuilder.suppliedOf fs).map Prod.fst).Sublist (fs.map Prod.fst) := by
      intro fs
      induction fs with
      | nil => exact List.Sublist.slnil
      | cons f fs ih =>
        obtain ⟨c, v⟩ := f
        cases v with
        | none =>
          simp only [UpdateBuilder.suppliedOf, List.filterMap_cons, Option.map_none',
            List.map_cons]
          exact List.Sublist.cons _ ih
        | some v =>
          simp only [UpdateBuilder.suppliedOf, List.filterMap_cons, Option.map_some',
            List.map_cons]
          exact List.Sublist.cons₂ _ ih
    exact hsub (UpdateWorkflow.fields req)
  · intro column
    unfold UpdateWorkflow.supplied
    simp only [List.mem_map, List.mem_filterMap, Prod.exists, Option.map_eq_some',
      Prod.mk.injEq]
    constructor
    · rintro ⟨c, v, ⟨c', ov, hmem, v', rfl, rfl, rfl⟩, rfl⟩
      exact ⟨v', hmem⟩
    · rintro ⟨v, hmem⟩
      exact ⟨column, v, ⟨column, some v, hmem, v, rfl, rfl, rfl⟩, rfl⟩

/-- C19, on an example: a request that supplies the description and the method. -/
theorem update_statement_layout_witness :
    (UpdateWorkflow.updateWorkflow Example.database "w1"
        (Example.twoFields "first" "GET")).2.calls =
      Example.database.calls ++
        [.exec
          ("UPDATE workflows SET " ++
            String.intercalate ", "
              (UpdateWorkflow.assignments
                ((UpdateWorkflow.supplied (Example.twoFields "first" "GET")).map Prod.fst) 1 ++
                ["updated_at = NOW()"]) ++
            " WHERE workflow_id = $" ++
              toString ((UpdateWorkflow.supplied (Example.twoFields "first" "GET")).length + 1))
          ((UpdateWorkflow.supplied (Example.twoFields "first" "GET")).map Prod.snd ++
            [.text "w1"])] ∧
    UpdateWorkflow.supplied (Example.twoFields "first" "GET") =
      [("description", .text "first"), ("http_method", .text "GET")] :=
  ⟨(update_statement_layout Example.database "w1" (Example.twoFields "first" "GET")
      (by decide)).1, by decide⟩

/-! ## Writes of the update and create handlers -/

theorem UpdateWorkflowRequest.update_withinEnums_iff (req : UpdateWorkflowRequest) :
    req.withinEnums ↔
      ¬ (req.Source ≠ none ∧ req.Source ≠ some "coze" ∧ req.Source ≠ some "n8n") ∧
      ¬ (req.TemplateName ≠ none ∧ req.TemplateName ≠ some "workflow" ∧
          req.TemplateName ≠ some "streamflow") ∧
      ¬ (req.HTTPMethod ≠ none ∧ req.HTTPMethod ≠ some "GET" ∧
          req.HTTPMethod ≠ some "POST" ∧ req.HTTPMethod ≠ some "PUT") := by
  unfold UpdateWorkflowRequest.withinEnums
  cases req.Source <;> cases req.TemplateName <;> cases req.HTTPMethod <;>
    simp <;> tauto

/-- The update handler either issues nothing through `Exec` and leaves the store as it was,
or it has decoded a request within the value sets that supplies a field, and its calls are
the two lookups and the statement of that request. -/
theorem UpdateWorkflow.update_handler_writes (env : Env) (database : Database)
    (request : APIGatewayProxyRequest) :
    ((∀ c ∈ (UpdateWorkflow.handler env database request).calls database, c.isExec = false) ∧
      (UpdateWorkflow.handler env database request).database.store = database.store) ∨
    ∃ (req : UpdateWorkflowRequest) (claims : Claims) (workflow : Workflow),
      authenticate env request = .ok claims ∧
      env.unmarshalUpdateWorkflowRequest request.Body = .ok req ∧
      req.withinEnums ∧ UpdateWorkflow.supplied req ≠ [] ∧
      (UpdateWorkflow.handler env database request).calls database =
        [.query getWorkflowKeys.query [.text (request.PathParameters.index "id")],
         .query db.CheckProjectAdmin.query [.text claims.DID, .text workflow.ProjectID],
         UpdateWorkflow.statement (request.PathParameters.index "id") req] := by
  unfold UpdateWorkflow.handler
  cases hauth : authenticate env request with
  | error r => left; simp [HandlerRun.calls, HandlerRun.answer]
  | ok claims =>
    by_cases hid : request.PathParameters.index "id" = ""
    · left; simp [hid, HandlerRun.calls, HandlerRun.answer]
    · cases hreq : env.unmarshalUpdateWorkflowRequest request.Body with
      | error e => left; simp [hid, HandlerRun.calls, HandlerRun.answer]
      | ok req =>
        simp only [hid, if_false, getWorkflowKeys, Database.record]
        cases hf1 : database.faults
            (.query getWorkflowKeys.query [.text (request.PathParameters.index "id")]) with
        | some e => left; simp [HandlerRun.calls, HandlerRun.answer, DbCall.isExec]
        | none =>
          cases hw : database.store.workflows.find?
              (fun w => w.WorkflowID = request.PathParameters.index "id") with
          | none => left; simp [HandlerRun.calls, HandlerRun.answer, DbCall.isExec]
          | some w =>
            simp only [db.CheckProjectAdmin, Database.record]
            cases hf2 : database.faults
                (.query db.CheckProjectAdmin.query [.text claims.DID, .text w.ProjectID]) with
            | some e => left; simp [HandlerRun.calls, HandlerRun.answer, DbCall.isExec]
            | none =>
              simp only []
              split
              · left; simp [HandlerRun.calls, HandlerRun.answer, DbCall.isExec]
              · split
                · left; simp [HandlerRun.calls, HandlerRun.answer, DbCall.isExec]
                · split
                  · left; simp [HandlerRun.calls, HandlerRun.answer, DbCall.isExec]
                  · split
                    · left; simp [HandlerRun.calls, HandlerRun.answer, DbCall.isExec]
                    · rename_i _ h1 h2 h3
                      have hwithin : req.withinEnums :=
                        (UpdateWorkflowRequest.update_withinEnums_iff req).2 ⟨h1, h2, h3⟩
                      by_cases hs : UpdateWorkflow.supplied req = []
                      · left
                        rw [(UpdateWorkflow.updateWorkflow_calls _ _ req).1 hs]
                        simp [HandlerRun.calls, HandlerRun.answer, DbCall.isExec]
                      · right
                        refine ⟨req, claims, w, rfl, rfl, hwithin, hs, ?_⟩
                        have hcalls := (UpdateWorkflow.updateWorkflow_calls
                          { store := database.store
                            calls := database.calls ++
                              [.query getWorkflowKeys.query
                                [.text (request.PathParameters.index "id")]] ++
                              [.query db.CheckProjectAdmin.query
                                [.text claims.DID, .text w.ProjectID]]
                            faults := database.faults
                            now := database.now
                            insertDefaults := database.insertDefaults }
                          (request.PathParameters.index "id") req).2 hs
                        generalize UpdateWorkflow.updateWorkflow _ _ req = res at hcalls ⊢
                        obtain ⟨err, db'⟩ := res
                        cases err <;>
                          simp [HandlerRun.calls, HandlerRun.answer] at hcalls ⊢ <;>
                          simp [hcalls]

/-- The update handler, once the actor is authenticated, the body is decoded to a request
within the value sets, the workflow is found, the admin lookup is answered and the actor is
an admin of the project or the creator: the response made of `updateWorkflow`. -/
theorem UpdateWorkflow.update_handler_allowed (env : Env) (database : Database)
    (request : APIGatewayProxyRequest) (claims : Claims) (req : UpdateWorkflowRequest)
    (workflow : Workflow)
    (hauth : authenticate env request = .ok claims)
    (hid : request.PathParameters.index "id" ≠ "")
    (hreq : env.unmarshalUpdateWorkflowRequest request.Body = .ok req)
    (hselect : database.faults (.query getWorkflowKeys.query
      [.text (request.PathParameters.index "id")]) = none)
    (hw : database.store.workflows.find?
      (fun w => w.WorkflowID = request.PathParameters.index "id") = some workflow)
    (hlookup : database.faults (.query db.CheckProjectAdmin.query
      [.text claims.DID, .text workflow.ProjectID]) = none)
    (hallowed : database.store.hasAdminMembership claims.DID workflow.ProjectID ∨
      workflow.CreatorDID = claims.DID)
    (hwithin : req.withinEnums) :
    UpdateWorkflow.handler env database request =
      match UpdateWorkflow.updateWorkflow
        ((database.record (.query getWorkflowKeys.query
            [.text (request.PathParameters.index "id")])).record
          (.query db.CheckProjectAdmin.query [.text claims.DID, .text workflow.ProjectID]))
        (request.PathParameters.index "id") req with
      | (some _, database) =>
        HandlerRun.answer database (response.InternalError "Failed to update workflow")
      | (none, database) =>
        HandlerRun.answer database
          (response.Success (.map [("workflow_id", .string (request.PathParameters.index "id")),
            ("message", .string "Workflow updated successfully")])) := by
  have hcond : (!database.store.user_projects.any
        (fun r => r.user_did = claims.DID ∧ r.project_id = workflow.ProjectID ∧
          r.role = "admin") &&
      !decide (workflow.CreatorDID = claims.DID)) = false := by
    rw [← Bool.not_eq_true]
    exact fun hc => (not_admin_and_not_creator_iff database.store claims.DID
      workflow.ProjectID workflow.CreatorDID).1 hc hallowed
  obtain ⟨h1, h2, h3⟩ := (UpdateWorkflowRequest.update_withinEnums_iff req).1 hwithin
  unfold UpdateWorkflow.handler
  simp only [hauth, hid, hreq, if_false, getWorkflowKeys, hselect, hw, db.CheckProjectAdmin,
    Database.record, hlookup, hcond, Bool.false_eq_true, h1, h2, h3]

/-- C16. A request that supplies none of the ten mutable fields makes `updateWorkflow`
return no error without a call on the database, which stays as it was, `updated_at` of the
row included; and the update handler, for an actor allowed to update an existing workflow,
answers 200 after its two lookups, with the store as it was. -/
theorem empty_update_is_noop (env : Env) (database : Database)
    (request : APIGatewayProxyRequest) (claims : Claims) (req : UpdateWorkflowRequest)
    (workflow : Workflow)
    (hauth : authenticate env request = .ok claims)
    (hid : request.PathParameters.index "id" ≠ "")
    (hreq : env.unmarshalUpdateWorkflowRequest request.Body = .ok req)
    (hselect : database.faults (.query getWorkflowKeys.query
      [.text (request.PathParameters.index "id")]) = none)
    (hw : database.store.workflows.find?
      (fun w => w.WorkflowID = request.PathParameters.index "id") = some workflow)
    (hlookup : database.faults (.query db.CheckProjectAdmin.query
      [.text claims.DID, .text workflow.ProjectID]) = none)
    (hallowed : database.store.hasAdminMembership claims.DID workflow.ProjectID ∨
      workflow.CreatorDID = claims.DID)
    (hnone : ∀ supplied ∈ UpdateWorkflow.shape req, supplied = false) :
    (∀ (database' : Database) (workflowID : String),
      UpdateWorkflow.updateWorkflow database' workflowID req = (none, database')) ∧
    (UpdateWorkflow.handler env database request).out =
      .ok (response.Success (.map [("workflow_id", .string (request.PathParameters.index "id")),
        ("message", .string "Workflow updated successfully")])) ∧
    (response.Success (.map [("workflow_id", .string (request.PathParameters.index "id")),
        ("message", .string "Workflow updated successfully")])).StatusCode = 200 ∧
    (UpdateWorkflow.handler env database request).database.store = database.store ∧
    (UpdateWorkflow.handler env database request).calls database =
      [.query getWorkflowKeys.query [.text (request.PathParameters.index "id")],
       .query db.CheckProjectAdmin.query [.text claims.DID, .text workflow.ProjectID]] := by
  simp only [UpdateWorkflow.shape, UpdateWorkflow.fields, List.map_cons, List.map_nil,
    List.mem_cons, List.mem_singleton, List.not_mem_nil, or_false, forall_eq_or_imp,
    forall_eq, Option.isSome_map'] at hnone
  have hkey : ∀ {α : Type} (o : Option α), o.isSome = false → o = none := by
    intro α o h
    cases o with
    | none => rfl
    | some a => exact Bool.noConfusion h
  obtain ⟨m1, m2, m3, m4, m5, m6, m7, m8, m9, m10⟩ := hnone
  have n1 := hkey _ m1
  have n2 := hkey _ m2
  have n3 := hkey _ m3
  have n4 := hkey _ m4
  have n5 := hkey _ m5
  have n6 := hkey _ m6
  have n7 := hkey _ m7
  have n8 := hkey _ m8
  have n9 := hkey _ m9
  have n10 := hkey _ m10
  have hs : UpdateWorkflow.supplied req = [] := by
    simp [UpdateWorkflow.supplied, UpdateWorkflow.fields, n1, n2, n3, n4, n5, n6, n7, n8,
      n9, n10]
  have hwithin : req.withinEnums := by
    unfold UpdateWorkflowRequest.withinEnums
    rw [n3, n4, n5]
    simp
  have hupd := fun (database' : Database) (workflowID : String) =>
    (UpdateWorkflow.updateWorkflow_calls database' workflowID req).1 hs
  have hh := UpdateWorkflow.update_handler_allowed env database request claims req workflow
    hauth hid hreq hselect hw hlookup hallowed hwithin
  rw [hupd] at hh
  rw [hh]
  refine ⟨hupd, rfl, rfl, rfl, ?_⟩
  unfold HandlerRun.calls HandlerRun.answer
  exact calls_after_two database _ _

/-- C16, on an example: bob, the creator of the descriptor `w1`, sends an update that
supplies nothing; the handler answers 200 and the store is as it was. -/
theorem empty_update_is_noop_witness :
    (UpdateWorkflow.handler Example.envEmptyUpdate Example.database
        (Example.request "bob" "w1" "x")).out =
      .ok (response.Success (.map [("workflow_id", .string "w1"),
        ("message", .string "Workflow updated successfully")])) ∧
    (UpdateWorkflow.handler Example.envEmptyUpdate Example.database
        (Example.request "bob" "w1" "x")).database.store = Example.store :=
  have h := empty_update_is_noop Example.envEmptyUpdate Example.database
    (Example.request "bob" "w1" "x") { DID := "did:bob", Username := "bob" }
    Example.emptyUpdate Example.coze rfl (by decide) rfl rfl rfl rfl (Or.inr rfl)
    (by decide)
  ⟨h.2.1, h.2.2.2.1⟩

theorem CreateWorkflowRequest.create_withinEnums_iff (req : CreateWorkflowRequest) :
    req.withinEnums ↔
      ¬ (req.Source ≠ "coze" ∧ req.Source ≠ "n8n") ∧
      ¬ (req.TemplateName ≠ "workflow" ∧ req.TemplateName ≠ "streamflow") ∧
      ¬ (req.HTTPMethod ≠ "GET" ∧ req.HTTPMethod ≠ "POST" ∧ req.HTTPMethod ≠ "PUT") := by
  unfold CreateWorkflowRequest.withinEnums
  tauto

theorem CreateWorkflowRequest.withDefaults_eq (req : CreateWorkflowRequest) :
    (if (if req.Parameters = none then { req with Parameters := some "\x7b\x7d" }
          else req).Headers = none then
        { (if req.Parameters = none then { req with Parameters := some "\x7b\x7d" }
            else req) with Headers := some "\x7b\x7d" }
      else (if req.Parameters = none then { req with Parameters := some "\x7b\x7d" }
            else req)) = req.withDefaults := by
  unfold CreateWorkflowRequest.withDefaults
  obtain ⟨name, description, source, template, method, url, token, external, parameters,
    headers, project⟩ := req
  cases parameters <;> cases headers <;> simp

/-- The create handler, once the actor is authenticated and the body is decoded: a 400
response without a call on the store when a required field is missing or a value is outside
its set; otherwise the membership lookup, and then a 500 response, a 403 response, or the
`INSERT` of the request with its defaults filled. -/
theorem CreateWorkflow.create_handler_of_request (env : Env) (database : Database)
    (request : APIGatewayProxyRequest) (claims : Claims) (req : CreateWorkflowRequest)
    (hauth : authenticate env request = .ok claims)
    (hreq : env.unmarshalCreateWorkflowRequest request.Body = .ok req) :
    ((req.missesField ∨ ¬ req.withinEnums) →
      ∃ message, CreateWorkflow.handler env database request =
        HandlerRun.answer database (response.BadRequest message)) ∧
    (¬ req.missesField → req.withinEnums →
      CreateWorkflow.handler env database request =
        match db.CheckProjectAccess database claims.DID req.ProjectID with
        | (.error _, database) =>
          HandlerRun.answer database (response.InternalError "Failed to check project access")
        | (.ok hasAccess, database) =>
          if (!hasAccess) = true then
            HandlerRun.answer database (response.Forbidden "Access denied to this project")
          else
            match CreateWorkflow.createWorkflow database req.withDefaults claims.DID with
            | (.error _, database) =>
              HandlerRun.answer database (response.InternalError "Failed to create workflow")
            | (.ok workflowID, database) =>
              HandlerRun.answer database
                (response.Success (.map [("workflow_id", .string workflowID),
                  ("workflow_name", .string req.WorkflowName)]))) := by
  constructor
  · intro hbad
    unfold CreateWorkflow.handler
    simp only [hauth, hreq]
    by_cases hmiss : req.missesField
    · unfold CreateWorkflowRequest.missesField at hmiss
      exact ⟨_, by rw [if_pos hmiss]⟩
    · have hnot : ¬ req.withinEnums := hbad.resolve_left hmiss
      unfold CreateWorkflowRequest.missesField at hmiss
      rw [if_neg hmiss]
      rw [CreateWorkflowRequest.create_withinEnums_iff] at hnot
      by_cases h1 : req.Source ≠ "coze" ∧ req.Source ≠ "n8n"
      · exact ⟨_, by rw [if_pos h1]⟩
      · rw [if_neg h1]
        by_cases h2 : req.TemplateName ≠ "workflow" ∧ req.TemplateName ≠ "streamflow"
        · exact ⟨_, by rw [if_pos h2]⟩
        · rw [if_neg h2]
          by_cases h3 : req.HTTPMethod ≠ "GET" ∧ req.HTTPMethod ≠ "POST" ∧
              req.HTTPMethod ≠ "PUT"
          · exact ⟨_, by rw [if_pos h3]⟩
          · exact absurd ⟨h1, h2, h3⟩ hnot
  · intro hmiss hwithin
    obtain ⟨h1, h2, h3⟩ := (CreateWorkflowRequest.create_withinEnums_iff req).1 hwithin
    have hname : req.withDefaults.WorkflowName = req.WorkflowName := rfl
    unfold CreateWorkflowRequest.missesField at hmiss
    unfold CreateWorkflow.handler
    simp only [hauth, hreq]
    rw [if_neg hmiss, if_neg h1, if_neg h2, if_neg h3]
    simp only [CreateWorkflowRequest.withDefaults_eq, hname]

/-- The create handler either leaves the store as it was without issuing an `INSERT`, or it
has authenticated the actor and decoded a request with every required field and every value
within its set, the actor has a membership row in the project of the request, and its calls
are the membership lookup and the `INSERT` of the request with its defaults filled. -/
theorem CreateWorkflow.create_handler_calls (env : Env) (database : Database)
    (request : APIGatewayProxyRequest) :
    ((CreateWorkflow.handler env database request).database.store = database.store ∧
      ∀ args, DbCall.query CreateWorkflow.createWorkflow.query args ∉
        (CreateWorkflow.handler env database request).calls database) ∨
    ∃ (req : CreateWorkflowRequest) (claims : Claims),
      authenticate env request = .ok claims ∧
      env.unmarshalCreateWorkflowRequest request.Body = .ok req ∧
      ¬ req.missesField ∧ req.withinEnums ∧
      database.store.hasMembership claims.DID req.ProjectID ∧
      (CreateWorkflow.handler env database request).calls database =
        [.query db.CheckProjectAccess.query [.text claims.DID, .text req.ProjectID],
         .query CreateWorkflow.createWorkflow.query
           (CreateWorkflow.createWorkflow.args req.withDefaults claims.DID)] := by
  have hquery : db.CheckProjectAccess.query ≠ CreateWorkflow.createWorkflow.query := by
    decide
  cases hauth : authenticate env request with
  | error r =>
    left
    unfold CreateWorkflow.handler
    simp [hauth, HandlerRun.calls, HandlerRun.answer]
  | ok claims =>
    cases hreq : env.unmarshalCreateWorkflowRequest request.Body with
    | error e =>
      left
      unfold CreateWorkflow.handler
      simp [hauth, hreq, HandlerRun.calls, HandlerRun.answer]
    | ok req =>
      have hof := CreateWorkflow.create_handler_of_request env database request claims req
        hauth hreq
      by_cases hbad : req.missesField ∨ ¬ req.withinEnums
      · left
        obtain ⟨message, hm⟩ := hof.1 hbad
        rw [hm]
        simp [HandlerRun.calls, HandlerRun.answer]
      · rw [not_or, not_not] at hbad
        have hrun := hof.2 hbad.1 hbad.2
        rw [hrun]
        unfold db.CheckProjectAccess
        cases hf1 : database.faults
            (.query db.CheckProjectAccess.query [.text claims.DID, .text req.ProjectID]) with
        | some e =>
          left
          simp [hf1, HandlerRun.calls, HandlerRun.answer, Database.record, hquery, hquery.symm]
        | none =>
          by_cases hmember : database.store.hasMembership claims.DID req.ProjectID
          · right
            have hany := (any_membership_iff database.store claims.DID req.ProjectID).2 hmember
            refine ⟨req, claims, rfl, rfl, hbad.1, hbad.2, hmember, ?_⟩
            simp only [hf1, hany, Bool.not_true, Bool.false_eq_true, if_false,
              CreateWorkflow.createWorkflow, Database.record]
            cases hf2 : database.faults
                (.query CreateWorkflow.createWorkflow.query
                  (CreateWorkflow.createWorkflow.args req.withDefaults claims.DID)) with
            | some e => simp [hf2, HandlerRun.calls, HandlerRun.answer]
            | none => simp [hf2, HandlerRun.calls, HandlerRun.answer]
          · left
            have hany : database.store.user_projects.any
                (fun r => r.user_did = claims.DID ∧ r.project_id = req.ProjectID) = false := by
              rw [← Bool.not_eq_true, any_membership_iff]
              exact hmember
            simp only [hf1, hany, Bool.not_false, if_true]
            simp [HandlerRun.calls, HandlerRun.answer, Database.record, hquery.symm]

/-- C14. Every `INSERT` the create handler issues binds the arguments of a decoded request
whose source, template and method are within the value sets, each bound as the request
supplied it; every statement the update handler issues through `Exec` is the statement of a
decoded request whose supplied source, template and method are within the value sets, each
bound as supplied. A create or update request with a value outside the sets leaves the
store as it was: no `INSERT` is issued and nothing goes through `Exec`. -/
theorem writes_are_within_enums (env : Env) (database : Database)
    (request : APIGatewayProxyRequest) :
    (∀ args, DbCall.query CreateWorkflow.createWorkflow.query args ∈
        (CreateWorkflow.handler env database request).calls database →
      ∃ (req : CreateWorkflowRequest) (claims : Claims),
        env.unmarshalCreateWorkflowRequest request.Body = .ok req ∧
        req.withinEnums ∧
        args = CreateWorkflow.createWorkflow.args req.withDefaults claims.DID ∧
        args[2]? = some (SqlValue.text req.Source) ∧
        args[3]? = some (SqlValue.text req.TemplateName) ∧
        args[4]? = some (SqlValue.text req.HTTPMethod)) ∧
    (∀ req, env.unmarshalCreateWorkflowRequest request.Body = .ok req → ¬ req.withinEnums →
      (CreateWorkflow.handler env database request).database.store = database.store ∧
      ∀ args, DbCall.query CreateWorkflow.createWorkflow.query args ∉
        (CreateWorkflow.handler env database request).calls database) ∧
    (∀ c ∈ (UpdateWorkflow.handler env database request).calls database, c.isExec = true →
      ∃ req : UpdateWorkflowRequest,
        env.unmarshalUpdateWorkflowRequest request.Body = .ok req ∧
        req.withinEnums ∧
        c = .exec (UpdateWorkflow.queryText req)
          ((UpdateWorkflow.supplied req).map Prod.snd ++
            [SqlValue.text (request.PathParameters.index "id")]) ∧
        (∀ v, req.Source = some v →
          ("source", SqlValue.text v) ∈ UpdateWorkflow.supplied req) ∧
        (∀ v, req.TemplateName = some v →
          ("template_name", SqlValue.text v) ∈ UpdateWorkflow.supplied req) ∧
        (∀ v, req.HTTPMethod = some v →
          ("http_method", SqlValue.text v) ∈ UpdateWorkflow.supplied req)) ∧
    (∀ req, env.unmarshalUpdateWorkflowRequest request.Body = .ok req → ¬ req.withinEnums →
      (UpdateWorkflow.handler env database request).database.store = database.store ∧
      ∀ c ∈ (UpdateWorkflow.handler env database request).calls database,
        c.isExec = false) := by
  refine ⟨?_, ?_, ?_, ?_⟩
  · intro args hmem
    rcases CreateWorkflow.create_handler_calls env database request with
      ⟨_, hnone⟩ | ⟨req, claims, _, hreq, _, hwithin, _, hcalls⟩
    · exact absurd hmem (hnone args)
    · rw [hcalls] at hmem
      have hquery : CreateWorkflow.createWorkflow.query ≠ db.CheckProjectAccess.query := by
        decide
      simp only [List.mem_cons, DbCall.query.injEq, hquery, false_and, List.mem_singleton,
        true_and, List.not_mem_nil, or_false, false_or] at hmem
      subst hmem
      exact ⟨req, claims, hreq, hwithin, rfl, rfl, rfl, rfl⟩
  · intro req hreq hnot
    rcases CreateWorkflow.create_handler_calls env database request with
      hnone | ⟨req', claims, _, hreq', _, hwithin, _, _⟩
    · exact hnone
    · rw [hreq] at hreq'
      injection hreq' with hreq'
      subst hreq'
      exact absurd hwithin hnot
  · intro c hc hexec
    rcases UpdateWorkflow.update_handler_writes env database request with
      ⟨hnone, _⟩ | ⟨req, claims, workflow, _, hreq, hwithin, _, hcalls⟩
    · rw [hnone c hc] at hexec
      exact Bool.noConfusion hexec
    · rw [hcalls] at hc
      simp only [List.mem_cons, List.mem_singleton, List.not_mem_nil, or_false] at hc
      rcases hc with rfl | rfl | rfl
      · exact Bool.noConfusion hexec
      · exact Bool.noConfusion hexec
      · refine ⟨req, hreq, hwithin, ?_, ?_, ?_, ?_⟩
        · unfold UpdateWorkflow.statement
          rw [UpdateWorkflow.build_eq req]
        · intro v hv
          simp [UpdateWorkflow.supplied, UpdateWorkflow.fields, hv]
        · intro v hv
          simp [UpdateWorkflow.supplied, UpdateWorkflow.fields, hv]
        · intro v hv
          simp [UpdateWorkflow.supplied, UpdateWorkflow.fields, hv]
  · intro req hreq hnot
    rcases UpdateWorkflow.update_handler_writes env database request with
      ⟨hnone, hstore⟩ | ⟨req', claims, workflow, _, hreq', hwithin, _, _⟩
    · exact ⟨hstore, hnone⟩
    · rw [hreq] at hreq'
      injection hreq' with hreq'
      subst hreq'
      exact absurd hwithin hnot

/-- C14, on examples: alice's create request with the source `zapier` issues no `INSERT`
and leaves the store as it was, and the `INSERT` of her request with the source `coze`
binds `coze`, `workflow` and `POST`. -/
theorem writes_are_within_enums_witness :
    ((CreateWorkflow.handler Example.env Example.database
        (Example.request "alice" "" "zapier")).database.store = Example.store ∧
      ∀ args, DbCall.query CreateWorkflow.createWorkflow.query args ∉
        (CreateWorkflow.handler Example.env Example.database
          (Example.request "alice" "" "zapier")).calls Example.database) ∧
    ∃ (req : CreateWorkflowRequest) (claims : Claims),
      Example.env.unmarshalCreateWorkflowRequest
        (Example.request "alice" "" "coze").Body = .ok req ∧
      req.withinEnums ∧
      CreateWorkflow.createWorkflow.args Example.fresh.toRequest "did:alice" =
        CreateWorkflow.createWorkflow.args req.withDefaults claims.DID ∧
      (CreateWorkflow.createWorkflow.args Example.fresh.toRequest "did:alice")[2]? =
        some (SqlValue.text req.Source) ∧
      (CreateWorkflow.createWorkflow.args Example.fresh.toRequest "did:alice")[3]? =
        some (SqlValue.text req.TemplateName) ∧
      (CreateWorkflow.createWorkflow.args Example.fresh.toRequest "did:alice")[4]? =
        some (SqlValue.text req.HTTPMethod) :=
  ⟨(writes_are_within_enums Example.env Example.database
      (Example.request "alice" "" "zapier")).2.1 _ rfl (by
        unfold CreateWorkflowRequest.withinEnums
        decide),
   (writes_are_within_enums Example.env Example.database
      (Example.request "alice" "" "coze")).1 _
      (List.mem_cons_of_mem _ (List.mem_singleton.2 rfl))⟩

/-- C15. For an authenticated actor, a decoded create request and a store that answers every
call: the create handler answers 400 without a call on the store when one of the nine
required fields is empty or a value is outside its set; otherwise it answers 403 after the
membership lookup, without an `INSERT`, when the actor has no membership row in the project
of the request; otherwise it adds one row with the fields of the request (absent parameters
and headers filled with the empty object) and the actor as creator, and answers 200 with the
id the store assigned and the name of the request. -/
theorem create_decision (env : Env) (database : Database)
    (request : APIGatewayProxyRequest) (claims : Claims) (req : CreateWorkflowRequest)
    (hauth : authenticate env request = .ok claims)
    (hreq : env.unmarshalCreateWorkflowRequest request.Body = .ok req)
    (hworking : ∀ c, database.faults c = none) :
    ((req.missesField ∨ ¬ req.withinEnums) →
      ∃ message,
        CreateWorkflow.handler env database request =
          HandlerRun.answer database (response.Error 400 message)) ∧
    (¬ req.missesField → req.withinEnums →
      ¬ database.store.hasMembership claims.DID req.ProjectID →
      (CreateWorkflow.handler env database request).out =
        .ok (response.Error 403 "Access denied to this project") ∧
      (CreateWorkflow.handler env database request).database.store = database.store ∧
      (CreateWorkflow.handler env database request).calls database =
        [.query db.CheckProjectAccess.query [.text claims.DID, .text req.ProjectID]]) ∧
    (¬ req.missesField → req.withinEnums →
      database.store.hasMembership claims.DID req.ProjectID →
      (CreateWorkflow.handler env database request).out =
        .ok (response.Success
          (.map [("workflow_id", .string (database.insertDefaults database.store).WorkflowID),
            ("workflow_name", .string req.WorkflowName)])) ∧
      (response.Success
          (.map [("workflow_id", .string (database.insertDefaults database.store).WorkflowID),
            ("workflow_name", .string req.WorkflowName)])).StatusCode = 200 ∧
      (CreateWorkflow.handler env database request).database.store.workflows =
        database.store.workflows ++
          [CreateWorkflow.row database req.withDefaults claims.DID] ∧
      (CreateWorkflow.row database req.withDefaults claims.DID).CreatorDID = claims.DID ∧
      (CreateWorkflow.row database req.withDefaults claims.DID).WorkflowID =
        (database.insertDefaults database.store).WorkflowID ∧
      (CreateWorkflow.handler env database request).calls database =
        [.query db.CheckProjectAccess.query [.text claims.DID, .text req.ProjectID],
         .query CreateWorkflow.createWorkflow.query
           (CreateWorkflow.createWorkflow.args req.withDefaults claims.DID)]) := by
  have hof := CreateWorkflow.create_handler_of_request env database request claims req
    hauth hreq
  refine ⟨hof.1, ?_, ?_⟩
  · intro hmiss hwithin hdenied
    have hany : database.store.user_projects.any
        (fun r => r.user_did = claims.DID ∧ r.project_id = req.ProjectID) = false := by
      rw [← Bool.not_eq_true, any_membership_iff]
      exact hdenied
    have hrun : CreateWorkflow.handler env database request =
        HandlerRun.answer
          (database.record
            (.query db.CheckProjectAccess.query [.text claims.DID, .text req.ProjectID]))
          (response.Forbidden "Access denied to this project") := by
      rw [hof.2 hmiss hwithin]
      unfold db.CheckProjectAccess
      simp only [hworking, hany, Bool.not_false, if_true]
    rw [hrun]
    exact ⟨rfl, rfl, calls_after_one database _⟩
  · intro hmiss hwithin hmember
    have hany := (any_membership_iff database.store claims.DID req.ProjectID).2 hmember
    have hrun : CreateWorkflow.handler env database request =
        HandlerRun.answer
          { (database.record
              (.query db.CheckProjectAccess.query
                [.text claims.DID, .text req.ProjectID])).record
              (.query CreateWorkflow.createWorkflow.query
                (CreateWorkflow.createWorkflow.args req.withDefaults claims.DID)) with
            store :=
              { database.store with
                workflows := database.store.workflows ++
                  [CreateWorkflow.row database req.withDefaults claims.DID] } }
          (response.Success
            (.map [("workflow_id",
                .string (CreateWorkflow.row database req.withDefaults claims.DID).WorkflowID),
              ("workflow_name", .string req.WorkflowName)])) := by
      rw [hof.2 hmiss hwithin]
      have hrecorded : ∀ c c', (database.record c).faults c' = none :=
        fun _ c' => hworking c'
      unfold db.CheckProjectAccess CreateWorkflow.createWorkflow
      simp only [hworking, hrecorded, hany, Bool.not_true, Bool.false_eq_true, if_false]
      rfl
    rw [hrun]
    refine ⟨rfl, rfl, rfl, rfl, rfl, ?_⟩
    simp [HandlerRun.calls, HandlerRun.answer, Database.record]

/-- C15, on examples: alice's request with the source `coze` adds the row `Example.fresh`
with the id `w5` and is answered 200; her request with the source `zapier` is answered 400
without a call on the store. -/
theorem create_decision_witness :
    ((CreateWorkflow.handler Example.env Example.database
        (Example.request "alice" "" "coze")).out =
        .ok (response.Success
          (.map [("workflow_id", .string "w5"), ("workflow_name", .string "fresh")])) ∧
      (CreateWorkflow.handler Example.env Example.database
        (Example.request "alice" "" "coze")).database.store.workflows =
        Example.store.workflows ++ [Example.fresh]) ∧
    ∃ message,
      CreateWorkflow.handler Example.env Example.database
          (Example.request "alice" "" "zapier") =
        HandlerRun.answer Example.database (response.Error 400 message) :=
  have h := (create_decision Example.env Example.database
    (Example.request "alice" "" "coze") { DID := "did:alice", Username := "alice" }
    Example.fresh.toRequest.withoutDefaults rfl rfl (fun _ => rfl)).2.2
    (by unfold CreateWorkflowRequest.missesField; decide)
    (by unfold CreateWorkflowRequest.withinEnums; decide) (by decide)
  ⟨⟨h.1, h.2.2.1⟩,
   (create_decision Example.env Example.database
      (Example.request "alice" "" "zapier") { DID := "did:alice", Username := "alice" }
      { Example.fresh.toRequest.withoutDefaults with Source := "zapier" } rfl rfl
      (fun _ => rfl)).1
      (Or.inr (by unfold CreateWorkflowRequest.withinEnums; decide))⟩

/-! ## Fault texts and responses -/

theorem sameFaultyCalls.cases {f g : DbCall → Option String} (h : sameFaultyCalls f g)
    (c : DbCall) :
    (f c = none ∧ g c = none) ∨ ∃ e e', f c = some e ∧ g c = some e' := by
  have hc := h c
  cases hf : f c with
  | none =>
    cases hg : g c with
    | none => exact Or.inl ⟨rfl, rfl⟩
    | some e' => rw [hf, hg] at hc; exact Bool.noConfusion hc
  | some e =>
    cases hg : g c with
    | none => rw [hf, hg] at hc; exact Bool.noConfusion hc
    | some e' => exact Or.inr ⟨e, e', rfl, rfl⟩

theorem DeleteWorkflow.delete_fault_text (env : Env) (database : Database)
    (faults : DbCall → Option String) (request : APIGatewayProxyRequest)
    (hsame : sameFaultyCalls faults database.faults) :
    (DeleteWorkflow.handler env (database.withFaults faults) request).out =
      (DeleteWorkflow.handler env database request).out := by
  unfold DeleteWorkflow.handler
  cases hauth : authenticate env request with
  | error r => rfl
  | ok claims =>
    by_cases hid : request.PathParameters.index "id" = ""
    · simp [hid, HandlerRun.answer]
    · simp only [hid, if_false, getWorkflowKeys, Database.withFaults, Database.record]
      rcases hsame.cases (.query getWorkflowKeys.query
          [.text (request.PathParameters.index "id")]) with ⟨h1, h2⟩ | ⟨e, e', h1, h2⟩
      · simp only [h1, h2]
        cases hw : database.store.workflows.find?
            (fun w => w.WorkflowID = request.PathParameters.index "id") with
        | none => rfl
        | some w =>
          simp only [db.CheckProjectAdmin, Database.record]
          rcases hsame.cases (.query db.CheckProjectAdmin.query
              [.text claims.DID, .text w.ProjectID]) with ⟨h3, h4⟩ | ⟨e, e', h3, h4⟩
          · simp only [h3, h4]
            split
            · rfl
            · simp only [DeleteWorkflow.deleteWorkflow, Database.record]
              rcases hsame.cases (.exec DeleteWorkflow.deleteWorkflow.query
                  [.text (request.PathParameters.index "id")]) with
                ⟨h5, h6⟩ | ⟨e, e', h5, h6⟩
              · simp only [h5, h6]
                rfl
              · simp only [h5, h6]
                rfl
          · simp only [h3, h4]
            rfl
      · simp only [h1, h2]
        rfl

theorem ShareWorkflow.share_fault_text (env : Env) (database : Database)
    (faults : DbCall → Option String) (request : APIGatewayProxyRequest)
    (hsame : sameFaultyCalls faults database.faults) :
    (ShareWorkflow.handler env (database.withFaults faults) request).out =
      (ShareWorkflow.handler env database request).out := by
  unfold ShareWorkflow.handler
  cases hauth : authenticate env request with
  | error r => rfl
  | ok claims =>
    by_cases hid : request.PathParameters.index "id" = ""
    · simp [hid, HandlerRun.answer]
    · cases hreq : env.unmarshalShareWorkflowRequest request.Body with
      | error e => simp [hid, HandlerRun.answer]
      | ok req =>
        simp only [hid, if_false, getWorkflowKeys, Database.withFaults, Database.record]
        rcases hsame.cases (.query getWorkflowKeys.query
            [.text (request.PathParameters.index "id")]) with ⟨h1, h2⟩ | ⟨e, e', h1, h2⟩
        · simp only [h1, h2]
          cases hw : database.store.workflows.find?
              (fun w => w.WorkflowID = request.PathParameters.index "id") with
          | none => rfl
          | some w =>
            simp only [db.CheckProjectAdmin, Database.record]
            rcases hsame.cases (.query db.CheckProjectAdmin.query
                [.text claims.DID, .text w.ProjectID]) with ⟨h3, h4⟩ | ⟨e, e', h3, h4⟩
            · simp only [h3, h4]
              split
              · rfl
              · simp only [ShareWorkflow.updateShareStatus, Database.record]
                rcases hsame.cases (.exec ShareWorkflow.updateShareStatus.query
                    [.bool req.IsShared, .text (request.PathParameters.index "id")]) with
                  ⟨h5, h6⟩ | ⟨e, e', h5, h6⟩
                · simp only [h5, h6]
                  rfl
                · simp only [h5, h6]
                  rfl
            · simp only [h3, h4]
              rfl
        · simp only [h1, h2]
          rfl

theorem HideWorkflow.hide_fault_text (env : Env) (database : Database)
    (faults : DbCall → Option String) (request : APIGatewayProxyRequest)
    (hsame : sameFaultyCalls faults database.faults) :
    (HideWorkflow.handler env (database.withFaults faults) request).out =
      (HideWorkflow.handler env database request).out := by
  unfold HideWorkflow.handler
  cases hauth : authenticate env request with
  | error r => rfl
  | ok claims =>
    by_cases hid : request.PathParameters.index "projectId" = "" ∨
        request.PathParameters.index "workflowId" = ""
    · simp [hid, HandlerRun.answer]
    · cases hreq : env.unmarshalHideWorkflowRequest request.Body with
      | error e => simp [hid, HandlerRun.answer]
      | ok req =>
        simp only [hid, if_false, db.CheckProjectAdmin, Database.withFaults, Database.record]
        rcases hsame.cases (.query db.CheckProjectAdmin.query
            [.text claims.DID, .text (request.PathParameters.index "projectId")]) with
          ⟨h1, h2⟩ | ⟨e, e', h1, h2⟩
        · simp only [h1, h2]
          split
          · rfl
          · simp only [HideWorkflow.workflowExists, Database.record]
            rcases hsame.cases (.query HideWorkflow.workflowExists.query
                [.text (request.PathParameters.index "workflowId")]) with
              ⟨h3, h4⟩ | ⟨e, e', h3, h4⟩
            · simp only [h3, h4]
              cases hex : database.store.workflows.any
                  (fun w => w.WorkflowID = request.PathParameters.index "workflowId") with
              | false => rfl
              | true =>
                simp only [HideWorkflow.updateHideStatus, Database.record]
                rcases hsame.cases (.exec HideWorkflow.updateHideStatus.query
                    [.text (request.PathParameters.index "projectId"),
                     .text (request.PathParameters.index "workflowId"),
                     .bool req.IsHidden]) with ⟨h5, h6⟩ | ⟨e, e', h5, h6⟩
                · simp only [h5, h6]
                  rfl
                · simp only [h5, h6]
                  rfl
            · simp only [h3, h4]
              rfl
        · simp only [h1, h2]
          rfl

theorem ListWorkflows.list_fault_text (env : Env) (database : Database)
    (faults : DbCall → Option String) (request : APIGatewayProxyRequest)
    (hsame : sameFaultyCalls faults database.faults) :
    (ListWorkflows.handler env (database.withFaults faults) request).out =
      (ListWorkflows.handler env database request).out := by
  unfold ListWorkflows.handler
  cases hauth : authenticate env request with
  | error r => rfl
  | ok claims =>
    by_cases hid : request.PathParameters.index "projectId" = ""
    · simp [hid, HandlerRun.answer]
    · simp only [hid, if_false, db.CheckProjectAccess, Database.withFaults, Database.record]
      rcases hsame.cases (.query db.CheckProjectAccess.query
          [.text claims.DID, .text (request.PathParameters.index "projectId")]) with
        ⟨h1, h2⟩ | ⟨e, e', h1, h2⟩
      · simp only [h1, h2]
        split
        · rfl
        · simp only [ListWorkflows.getVisibleWorkflows, Database.record]
          rcases hsame.cases (.query ListWorkflows.getVisibleWorkflows.query
              [.text (request.PathParameters.index "projectId")]) with
            ⟨h3, h4⟩ | ⟨e, e', h3, h4⟩
          · simp only [h3, h4]
            rfl
          · simp only [h3, h4]
            rfl
      · simp only [h1, h2]
        rfl

theorem ExecuteWorkflow.execute_fault_text (env : Env) (database : Database)
    (faults : DbCall → Option String) (request : APIGatewayProxyRequest)
    (hsame : sameFaultyCalls faults database.faults) :
    (ExecuteWorkflow.handler env (database.withFaults faults) request).out =
      (ExecuteWorkflow.handler env database request).out := by
  unfold ExecuteWorkflow.handler
  cases hauth : authenticate env request with
  | error r => rfl
  | ok claims =>
    by_cases hid : request.PathParameters.index "id" = ""
    · simp [hid, HandlerRun.answer]
    · cases hreq : env.unmarshalExecuteWorkflowRequest request.Body with
      | error e => simp [hid, HandlerRun.answer]
      | ok req =>
        simp only [hid, if_false, ExecuteWorkflow.getWorkflow, Database.withFaults,
          Database.record]
        rcases hsame.cases (.query ExecuteWorkflow.getWorkflow.query
            [.text (request.PathParameters.index "id")]) with ⟨h1, h2⟩ | ⟨e, e', h1, h2⟩
        · simp only [h1, h2]
          cases hw : database.store.workflows.find?
              (fun w => w.WorkflowID = request.PathParameters.index "id") with
          | none => rfl
          | some w =>
            simp only [db.CheckProjectAccess, Database.record]
            rcases hsame.cases (.query db.CheckProjectAccess.query
                [.text claims.DID, .text w.ProjectID]) with ⟨h3, h4⟩ | ⟨e, e', h3, h4⟩
            · simp only [h3, h4]
              split
              · rfl
              · rfl
            · simp only [h3, h4]
              rfl
        · simp only [h1, h2]
          rfl

theorem UpdateWorkflow.update_fault_text (env : Env) (database : Database)
    (faults : DbCall → Option String) (request : APIGatewayProxyRequest)
    (hsame : sameFaultyCalls faults database.faults) :
    (UpdateWorkflow.handler env (database.withFaults faults) request).out =
      (UpdateWorkflow.handler env database request).out := by
  unfold UpdateWorkflow.handler
  cases hauth : authenticate env request with
  | error r => rfl
  | ok claims =>
    by_cases hid : request.PathParameters.index "id" = ""
    · simp [hid, HandlerRun.answer]
    · cases hreq : env.unmarshalUpdateWorkflowRequest request.Body with
      | error e => simp [hid, HandlerRun.answer]
      | ok req =>
        simp only [hid, if_false, getWorkflowKeys, Database.withFaults, Database.record]
        rcases hsame.cases (.query getWorkflowKeys.query
            [.text (request.PathParameters.index "id")]) with ⟨h1, h2⟩ | ⟨e, e', h1, h2⟩
        · simp only [h1, h2]
          cases hw : database.store.workflows.find?
              (fun w => w.WorkflowID = request.PathParameters.index "id") with
          | none => rfl
          | some w =>
            simp only [db.CheckProjectAdmin, Database.record]
            rcases hsame.cases (.query db.CheckProjectAdmin.query
                [.text claims.DID, .text w.ProjectID]) with ⟨h3, h4⟩ | ⟨e, e', h3, h4⟩
            · simp only [h3, h4]
              split
              · rfl
              · split
                · rfl
                · split
                  · rfl
                  · split
                    · rfl
                    · simp only [UpdateWorkflow.updateWorkflow]
                      by_cases hlen : (UpdateWorkflow.build req).setClauses.length = 0
                      · simp only [hlen, if_true]
                        rfl
                      · simp only [hlen, if_false]
                        rcases hsame.cases (.exec
                              ("UPDATE workflows SET " ++
                                String.intercalate ", "
                                  ((UpdateWorkflow.build req).setClauses ++
                                    ["updated_at = NOW()"]) ++
                                " WHERE workflow_id = $" ++
                                toString (UpdateWorkflow.build req).argIndex)
                              ((UpdateWorkflow.build req).args ++
                                [.text (request.PathParameters.index "id")])) with
                            ⟨h5, h6⟩ | ⟨e, e', h5, h6⟩
                        · simp only [Database.record, h5, h6]
                          rfl
                        · simp only [Database.record, h5, h6]
                          rfl
            · simp only [h3, h4]
              rfl
        · simp only [h1, h2]
          rfl

theorem CreateWorkflow.create_fault_text (env : Env) (database : Database)
    (faults : DbCall → Option String) (request : APIGatewayProxyRequest)
    (hsame : sameFaultyCalls faults database.faults) :
    (CreateWorkflow.handler env (database.withFaults faults) request).out =
      (CreateWorkflow.handler env database request).out := by
  cases hauth : authenticate env request with
  | error r =>
    unfold CreateWorkflow.handler
    simp only [hauth]
    rfl
  | ok claims =>
    cases hreq : env.unmarshalCreateWorkflowRequest request.Body with
    | error e =>
      unfold CreateWorkflow.handler
      simp only [hauth, hreq]
      rfl
    | ok req =>
      have hof := CreateWorkflow.create_handler_of_request env database request claims req
        hauth hreq
      have hof' := CreateWorkflow.create_handler_of_request env (database.withFaults faults)
        request claims req hauth hreq
      by_cases hbad : req.missesField ∨ ¬ req.withinEnums
      · unfold CreateWorkflow.handler
        simp only [hauth, hreq]
        by_cases hmiss : req.missesField
        · unfold CreateWorkflowRequest.missesField at hmiss
          simp only [if_pos hmiss]
          rfl
        · have hnot : ¬ req.withinEnums := hbad.resolve_left hmiss
          rw [CreateWorkflowRequest.create_withinEnums_iff] at hnot
          unfold CreateWorkflowRequest.missesField at hmiss
          simp only [if_neg hmiss]
          by_cases h1 : req.Source ≠ "coze" ∧ req.Source ≠ "n8n"
          · simp only [if_pos h1]
            rfl
          · simp only [if_neg h1]
            by_cases h2 : req.TemplateName ≠ "workflow" ∧ req.TemplateName ≠ "streamflow"
            · simp only [if_pos h2]
              rfl
            · simp only [if_neg h2]
              by_cases h3 : req.HTTPMethod ≠ "GET" ∧ req.HTTPMethod ≠ "POST" ∧
                  req.HTTPMethod ≠ "PUT"
              · simp only [if_pos h3]
                rfl
              · exact absurd ⟨h1, h2, h3⟩ hnot
      · rw [not_or, not_not] at hbad
        rw [hof.2 hbad.1 hbad.2, hof'.2 hbad.1 hbad.2]
        simp only [db.CheckProjectAccess, Database.withFaults, Database.record]
        rcases hsame.cases (.query db.CheckProjectAccess.query
            [.text claims.DID, .text req.ProjectID]) with ⟨h1, h2⟩ | ⟨e, e', h1, h2⟩
        · simp only [h1, h2]
          split
          · rfl
          · simp only [CreateWorkflow.createWorkflow, Database.record]
            rcases hsame.cases (.query CreateWorkflow.createWorkflow.query
                (CreateWorkflow.createWorkflow.args req.withDefaults claims.DID)) with
              ⟨h3, h4⟩ | ⟨e, e', h3, h4⟩
            · simp only [h3, h4]
              rfl
            · simp only [h3, h4]
              rfl
        · simp only [h1, h2]
          rfl

/-- C17, as stated, fails in the execute handler when `executeWorkflow` fails: two runs that
differ only in the text of the transport error answer 500 with different messages, each
embedding the text of its error. -/
theorem execute_500_embeds_fault_text :
    (ExecuteWorkflow.handler (Example.envRefusing "dial tcp 10.0.0.7:443: refused")
        Example.database (Example.request "alice" "w1" "x")).out =
      .ok (response.Error 500
        "Failed to execute workflow: dial tcp 10.0.0.7:443: refused") ∧
    (ExecuteWorkflow.handler (Example.envRefusing "context deadline exceeded")
        Example.database (Example.request "alice" "w1" "x")).out =
      .ok (response.Error 500 "Failed to execute workflow: context deadline exceeded") ∧
    (ExecuteWorkflow.handler (Example.envRefusing "dial tcp 10.0.0.7:443: refused")
        Example.database (Example.request "alice" "w1" "x")).out ≠
      (ExecuteWorkflow.handler (Example.envRefusing "context deadline exceeded")
        Example.database (Example.request "alice" "w1" "x")).out := by
  have h1 : (ExecuteWorkflow.handler (Example.envRefusing "dial tcp 10.0.0.7:443: refused")
        Example.database (Example.request "alice" "w1" "x")).out =
      .ok (response.Error 500
        "Failed to execute workflow: dial tcp 10.0.0.7:443: refused") := rfl
  have h2 : (ExecuteWorkflow.handler (Example.envRefusing "context deadline exceeded")
        Example.database (Example.request "alice" "w1" "x")).out =
      .ok (response.Error 500 "Failed to execute workflow: context deadline exceeded") := rfl
  refine ⟨h1, h2, ?_⟩
  rw [h1, h2]
  intro h
  injection h with h
  have hmsg := congrArg (fun r : APIGatewayProxyResponse => r.Body.error) h
  simp only [response.Error, Option.some.injEq] at hmsg
  exact absurd hmsg (by decide)

/-- C17, amended. For each of the seven handlers, two runs that differ only in the texts of
the faults of the store (the store faults on the same calls) return the same response, so a
500 response caused by a store fault carries a fixed message. In the execute handler, when
`executeWorkflow` fails with an error, the response is 500 with the message
`Failed to execute workflow: ` followed by the text of that error. -/
theorem store_fault_text_stays_out_of_response (env : Env) (database : Database)
    (faults : DbCall → Option String) (request : APIGatewayProxyRequest)
    (hsame : sameFaultyCalls faults database.faults) :
    (CreateWorkflow.handler env (database.withFaults faults) request).out =
      (CreateWorkflow.handler env database request).out ∧
    (ListWorkflows.handler env (database.withFaults faults) request).out =
      (ListWorkflows.handler env database request).out ∧
    (UpdateWorkflow.handler env (database.withFaults faults) request).out =
      (UpdateWorkflow.handler env database request).out ∧
    (DeleteWorkflow.handler env (database.withFaults faults) request).out =
      (DeleteWorkflow.handler env database request).out ∧
    (ExecuteWorkflow.handler env (database.withFaults faults) request).out =
      (ExecuteWorkflow.handler env database request).out ∧
    (ShareWorkflow.handler env (database.withFaults faults) request).out =
      (ShareWorkflow.handler env database request).out ∧
    (HideWorkflow.handler env (database.withFaults faults) request).out =
      (HideWorkflow.handler env database request).out ∧
    (∀ (workflow : Workflow) (req : ExecuteWorkflowRequest) (e : String),
      (executeWorkflow env workflow req).out = .err e →
      (ExecuteWorkflow.respond database (executeWorkflow env workflow req)).out =
        .ok (response.Error 500 ("Failed to execute workflow: " ++ e))) := by
  refine ⟨CreateWorkflow.create_fault_text env database faults request hsame,
    ListWorkflows.list_fault_text env database faults request hsame,
    UpdateWorkflow.update_fault_text env database faults request hsame,
    DeleteWorkflow.delete_fault_text env database faults request hsame,
    ExecuteWorkflow.execute_fault_text env database faults request hsame,
    ShareWorkflow.share_fault_text env database faults request hsame,
    HideWorkflow.hide_fault_text env database faults request hsame, ?_⟩
  intro workflow req e he
  unfold ExecuteWorkflow.respond
  simp only [he]
  rfl

/-- C17, amended, on an example: a store that answers every call with one connection error
or with another yields the same 500 response of the delete handler. -/
theorem store_fault_text_stays_out_of_response_witness :
    (DeleteWorkflow.handler Example.env
        ((Example.failing "pq: password authentication failed").withFaults
          (fun _ => some "dial tcp 10.0.0.9:6543: i/o timeout"))
        (Example.request "alice" "w1" "x")).out =
      (DeleteWorkflow.handler Example.env
        (Example.failing "pq: password authentication failed")
        (Example.request "alice" "w1" "x")).out ∧
    (DeleteWorkflow.handler Example.env
        (Example.failing "pq: password authentication failed")
        (Example.request "alice" "w1" "x")).out =
      .ok (response.Error 500 "Failed to get workflow") :=
  ⟨(store_fault_text_stays_out_of_response Example.env
      (Example.failing "pq: password authentication failed")
      (fun _ => some "dial tcp 10.0.0.9:6543: i/o timeout")
      (Example.request "alice" "w1" "x") (fun _ => rfl)).2.2.2.1, rfl⟩

/-! ## Body shaping on nil parameters -/

/-- Body shaping aborts exactly for a descriptor that is not coze with nil parameters. -/
theorem executeWorkflow.requestBody_eq_none (workflow : Workflow) (p : GoMap GoValue) :
    executeWorkflow.requestBody workflow p = none ↔ workflow.Source ≠ "coze" ∧ p = none := by
  unfold executeWorkflow.requestBody
  by_cases hs : workflow.Source = "coze"
  · simp [hs]
  · cases p <;> simp [hs]

/-- C20 fails on the code: for the n8n descriptor and the caller's parameters `null`,
`json.Unmarshal` returns no error and leaves the map nil, and body shaping writes to that
nil map: `executeWorkflow` ends in a panic, before anything is handed to the transport. -/
theorem null_parameters_abort_body_shaping :
    unmarshalMap Example.env "null" = .ok none ∧
    executeWorkflow.parameters Example.env Example.n8n
        { Parameters := some "null", Headers := none } = .ok none ∧
    executeWorkflow.requestBody Example.n8n none = none ∧
    (executeWorkflow Example.env Example.n8n
        { Parameters := some "null", Headers := none }).out =
      .panic "assignment to entry in nil map" ∧
    (executeWorkflow Example.env Example.n8n
        { Parameters := some "null", Headers := none }).dispatched = [] ∧
    executeWorkflow.requestBody Example.coze none =
      some (some [("workflow_id", .string "wf-1"), ("parameters", .nilMap)]) := by
  refine ⟨rfl, rfl, rfl, rfl, rfl, rfl⟩

end AiWorkflow
